import Mathlib

/-!
# libMonomeCpp: the refresh loop, the blink encoder and event dispatch of `MonomeGrid`

A shallow embedding of `src/src/MonomeGrid.cpp` and `src/include/MonomeGrid.h`.

* A C `int` is an `Int`; the bitwise operators act on its 32-bit two's-complement pattern.
* `mGrid` is a total map from coordinates to cells: every cell the loops touch is taken to be
  allocated. The constructor allocates every in-range cell only when `mWidth = mHeight`
  (`allocateGrid`, `rowTableAt_allocateGrid`), so the statements about ticks and button events
  on a grid assume a square grid.
* The command channel (`TPCircularBuffer`, a library outside `src/`) is the list of pending
  command records, oldest first, bounded by the byte capacity passed to `TPCircularBufferInit`.
* The device (`libmonome`) is the list of `monome_led_set` calls made on it.
* A user callback is represented by the `setXXX` calls it makes when it is invoked.
* `std::chrono::system_clock::now()` is an argument of the function that reads the clock; a
  `time_point` is a count of clock periods, here microseconds.
* The render loops count in `uint8_t`; they are loops with fuel that return `none` when the
  fuel runs out. The other loops count in `int` and are folds over `List.range`.
* The two threads are interleaved at the level of whole calls: a tick, a `buttonTouched` call
  and a `setXXX` call are steps that run one after the other.
-/

namespace Monome

/-! ## Machine integers -/

/-- The 32-bit two's-complement bit pattern of a C `int`. -/
def toBits (a : Int) : Nat := (a % 4294967296).toNat

/-- The C `int` that a 32-bit pattern denotes. -/
def ofBits (n : Nat) : Int := if n < 2147483648 then (n : Int) else (n : Int) - 4294967296

/-- C `a & b` on `int`. -/
def bitAnd (a b : Int) : Int := ofBits (toBits a &&& toBits b)

/-- C `a | b` on `int`. -/
def bitOr (a b : Int) : Int := ofBits (toBits a ||| toBits b)

/-- C `~a` on `int`. -/
def bitNot (a : Int) : Int := ofBits (toBits a ^^^ 4294967295)

/-- C `a << n` on `int`, for operands that do not overflow (here `a ≤ 65` and `n ≤ 5`). -/
def shl (a : Int) (n : Nat) : Int := a * 2 ^ n

/-- C `a >> n` on `int`: the arithmetic shift, rounding towards minus infinity. -/
def shr (a : Int) (n : Nat) : Int := a / 2 ^ n

/-! ## Data model (`MonomeGrid.h`) -/

/-- The `enum ButtonState` of the header. -/
inductive ButtonState where
  | TOUCH_DOWN
  | TOUCH_UP
  | TOUCH_LONG
  deriving DecidableEq, Repr

/-- The `enum LedState` of the header. -/
inductive LedState where
  | LED_OFF
  | LED_ON
  | LED_BLINK_FAST
  | LED_BLINK_SLOW
  deriving DecidableEq, Repr

/-- The integer value of a `LedState` enumerator. -/
def LedState.toInt : LedState → Int
  | .LED_OFF => 0
  | .LED_ON => 1
  | .LED_BLINK_FAST => 2
  | .LED_BLINK_SLOW => 3

/-- The `struct MonomeCell` of the header; `buttonDownTime` counts `system_clock` periods. -/
structure MonomeCell where
  ledState : Int
  lastLedState : Int
  buttonState : ButtonState
  buttonDownTime : Int
  deriving DecidableEq, Repr

/-- The default constructor `MonomeCell()`; a default `time_point` is the epoch. -/
def MonomeCell.new : MonomeCell :=
  { ledState := LedState.LED_OFF.toInt, lastLedState := LedState.LED_OFF.toInt,
    buttonState := ButtonState.TOUCH_UP, buttonDownTime := 0 }

/-- The `struct MonomeCommand` of `MonomeGrid.cpp`: a type tag and the fields of the union
that the tag's case reads. -/
inductive MonomeCommand where
  | SET_LED (x y : Nat) (state : LedState)
  | ALL_LEDS (allLedsState : LedState)
  | SET_COLUMN (x : Nat) (state : LedState)
  | SET_ROW (y : Nat) (state : LedState)
  deriving DecidableEq, Repr

/-- One call `monome_led_set(mMonome, x, y, brightness)`. -/
structure LedSet where
  x : Nat
  y : Nat
  brightness : Nat
  deriving DecidableEq, Repr

/-- One call `mButtonsCb(x, y, state)`. -/
structure Touch where
  x : Nat
  y : Nat
  state : ButtonState
  deriving DecidableEq, Repr

/-- One entry of the member array `blinkingSpeeds`. -/
structure BlinkSpeed where
  bits : Int
  log2Bits : Nat
  deriving DecidableEq, Repr

/-- Binary logarithm by repeated halving, `fuel` bounding the number of halvings. -/
def log2Aux : Nat → Nat → Nat
  | 0, _ => 0
  | fuel + 1, n => if n < 2 then 0 else log2Aux fuel (n / 2) + 1

/-- The value of `log2(n)` converted to `int`, exact when `n` is a power of two. -/
def log2 (n : Nat) : Nat := log2Aux n n

/-- The member array `blinkingSpeeds` as the constructor fills it: entry 0 is the slow preset
(`0x20`), entry 1 the fast one (`0x8`), each with `log2Bits = log2(bits)`. -/
def blinkingSpeeds (i : Nat) : BlinkSpeed :=
  if i = 0 then { bits := 0x20, log2Bits := log2 0x20 }
  else { bits := 0x8, log2Bits := log2 0x8 }

/-- The fields of `class MonomeGrid` that the refresh loop and event dispatch read and write.
`mGrid` gives the content of the cell that `mGrid[x][y]` denotes once that cell is allocated;
the constructor allocates every cell with `x < mWidth` and `y < mHeight` only when
`mWidth = mHeight` (see `allocateGrid`), so statements about ticks and button events on a
grid carry that equation as a hypothesis. -/
structure MonomeGrid where
  mWidth : Nat
  mHeight : Nat
  mGrid : Nat → Nat → MonomeCell
  mCommandsBuffer : List MonomeCommand

/-- The grid with cell `(x, y)` replaced by `c`. -/
def MonomeGrid.setCell (g : MonomeGrid) (x y : Nat) (c : MonomeCell) : MonomeGrid :=
  { g with mGrid := fun i j => if i = x ∧ j = y then c else g.mGrid i j }

/-- The state the constructor leaves behind when `width = height`: every cell
default-constructed, no pending command (the device has been sent
`monome_led_all(mMonome, 0)`). For `width ≠ height` the constructor does not allocate every
in-range cell (see `allocateGrid`), and this is the state with those cells assumed
allocated. -/
def construct (width height : Nat) : MonomeGrid :=
  { mWidth := width, mHeight := height, mGrid := fun _ _ => MonomeCell.new,
    mCommandsBuffer := [] }

/-! ## Command channel -/

/-- The `sizeof(MonomeCommand)`: a 4-byte tag and a union whose largest member is three 4-byte
fields. -/
def sizeofMonomeCommand : Nat := 16

/-- The byte length given to `TPCircularBufferInit`. -/
def bufferLength : Nat := 16384

/-- Modelled from the spec: `TPCircularBufferProduceBytes` is not under `src/`. An enqueue never
blocks; it appends one whole record when the free space holds it and otherwise drops the
record, leaving the pending records as they were. -/
def produceBytes (buf : List MonomeCommand) (cmd : MonomeCommand) : List MonomeCommand :=
  if (buf.length + 1) * sizeofMonomeCommand ≤ bufferLength then buf ++ [cmd] else buf

/-- The body shared by `setAllLeds`, `setOneLed`, `setRow` and `setColumn`: build the record
and hand it to the channel. -/
def enqueue (g : MonomeGrid) (cmd : MonomeCommand) : MonomeGrid :=
  { g with mCommandsBuffer := produceBytes g.mCommandsBuffer cmd }

/-- The method `setAllLeds`. -/
def setAllLeds (g : MonomeGrid) (state : LedState) : MonomeGrid :=
  enqueue g (.ALL_LEDS state)

/-- The method `setOneLed`. -/
def setOneLed (g : MonomeGrid) (x y : Nat) (state : LedState) : MonomeGrid :=
  enqueue g (.SET_LED x y state)

/-- The method `setRow`. -/
def setRow (g : MonomeGrid) (y : Nat) (state : LedState) : MonomeGrid :=
  enqueue g (.SET_ROW y state)

/-- The method `setColumn`. -/
def setColumn (g : MonomeGrid) (x : Nat) (state : LedState) : MonomeGrid :=
  enqueue g (.SET_COLUMN x state)

/-- The `setXXX` calls of one callback invocation, made in order. -/
def runCallback (g : MonomeGrid) (calls : List MonomeCommand) : MonomeGrid :=
  calls.foldl enqueue g

/-! ## Blink encoder -/

/-- The value `resetBlinkingBits` leaves in `mGrid[x][y].ledState`, from the value it finds. -/
def resetBlinkingBitsValue (ledState : Int) : Int :=
  let currentLedState := bitAnd ledState 0x03
  let currentSpeed :=
    if currentLedState = LedState.LED_BLINK_FAST.toInt then (blinkingSpeeds 1).bits
    else (blinkingSpeeds 0).bits
  let logSpeed :=
    if currentLedState = LedState.LED_BLINK_FAST.toInt then (blinkingSpeeds 1).log2Bits
    else (blinkingSpeeds 0).log2Bits
  let currentBlinkState := currentSpeed - 1
  let currentBlinkState := bitOr currentBlinkState (shl 1 logSpeed)
  let currentBlinkState := shl currentBlinkState 2
  let ledState := bitAnd ledState (bitNot ledState)
  let ledState := bitOr ledState currentLedState
  bitOr ledState currentBlinkState

/-- The method `resetBlinkingBits`. -/
def resetBlinkingBits (g : MonomeGrid) (x y : Nat) : MonomeGrid :=
  g.setCell x y { g.mGrid x y with ledState := resetBlinkingBitsValue (g.mGrid x y).ledState }

/-- What `handleLedBlinkLinear` does with the value it finds in `mGrid[x][y].ledState`: the
value it leaves there and the brightnesses it passes to `monome_led_set`. -/
def handleLedBlinkLinearValue (ledState : Int) : Int × List Nat :=
  let currentLedState := bitAnd ledState 0x03
  let currentSpeed :=
    if currentLedState = LedState.LED_BLINK_FAST.toInt then (blinkingSpeeds 1).bits
    else (blinkingSpeeds 0).bits
  let logSpeed :=
    if currentLedState = LedState.LED_BLINK_FAST.toInt then (blinkingSpeeds 1).log2Bits
    else (blinkingSpeeds 0).log2Bits
  let currentBlinkState := bitAnd (shr ledState 2) (currentSpeed - 1)
  let currentDirection : Int := if bitAnd (shr ledState 2) currentSpeed ≠ 0 then 1 else -1
  let (leds, currentDirection) :=
    if currentBlinkState = 0 then ([0], (1 : Int))
    else if currentBlinkState = currentSpeed - 1 then ([1], (-1 : Int))
    else ([], currentDirection)
  let currentBlinkState :=
    if currentDirection = 1 then bitOr currentBlinkState (shl 1 logSpeed)
    else bitAnd currentBlinkState (bitNot (shl 1 logSpeed))
  let currentBlinkState := currentBlinkState + currentDirection
  let currentBlinkState := shl currentBlinkState 2
  let ledState := bitAnd ledState (bitNot ledState)
  let ledState := bitOr ledState currentLedState
  (bitOr ledState currentBlinkState, leds)

/-- The method `handleLedBlinkLinear`: the new grid and the `monome_led_set` calls made. -/
def handleLedBlinkLinear (g : MonomeGrid) (x y : Nat) : MonomeGrid × List LedSet :=
  let r := handleLedBlinkLinearValue (g.mGrid x y).ledState
  (g.setCell x y { g.mGrid x y with ledState := r.1 },
   r.2.map fun b => { x := x, y := y, brightness := b })

/-! ## Device -/

/-- What the device shows: for each LED the brightness most recently sent to it. -/
abbrev Device := Nat → Nat → Nat

/-- The device after `monome_led_all(mMonome, b)`. -/
def ledAll (b : Nat) : Device := fun _ _ => b

/-- The device after one `monome_led_set` call. -/
def ledSet (d : Device) (l : LedSet) : Device :=
  fun i j => if i = l.x ∧ j = l.y then l.brightness else d i j

/-- The device after a sequence of `monome_led_set` calls, made in order. -/
def ledSets (d : Device) (ls : List LedSet) : Device := ls.foldl ledSet d

/-! ## Event dispatch -/

/-- A touch callback `mButtonsCb`: the `setXXX` calls it makes for the arguments it is given. -/
abbrev TouchCallback := Nat → Nat → ButtonState → List MonomeCommand

/-- The method `buttonTouched`, called at clock reading `now`: the new state and the touch
callback invocations made. -/
def buttonTouched (mButtonsCb : TouchCallback) (now : Int) (g : MonomeGrid) (x y : Nat)
    (isDown : Bool) : MonomeGrid × List Touch :=
  let c := g.mGrid x y
  let c := if isDown then { c with buttonDownTime := now } else c
  let c := { c with
    buttonState := if isDown then ButtonState.TOUCH_DOWN else ButtonState.TOUCH_UP }
  let g := g.setCell x y c
  (runCallback g (mButtonsCb x y c.buttonState), [{ x := x, y := y, state := c.buttonState }])

/-! ## Refresh loop (`updateGrid`) -/

/-- The number of `system_clock` periods in a second (a microsecond clock). -/
def ticksPerSecond : Int := 1000000

/-- The value of `duration_cast<seconds>(d).count()`: whole seconds, truncated towards zero. -/
def secondsCount (d : Int) : Int := Int.tdiv d ticksPerSecond

/-- The test `count > LONG_PRESS_TIME`, where `LONG_PRESS_TIME` is `0.5F` and the integer
`count` is converted for the comparison: `count > 1/2`. -/
def exceedsLongPressTime (count : Int) : Bool := decide (1 < 2 * count)

/-- A loop `for (int i = 0; i < n; ++i) body(i)` over a state. -/
def forRange {σ : Type} (n : Nat) (body : Nat → σ → σ) (s : σ) : σ :=
  (List.range n).foldl (fun s i => body i s) s

/-- The body of the long-press scan for cell `(x, y)`, on the state and the touch callback
invocations made so far. -/
def longPressCell (mButtonsCb : TouchCallback) (now : Int) (x y : Nat)
    (s : MonomeGrid × List Touch) : MonomeGrid × List Touch :=
  if (s.1.mGrid x y).buttonState = ButtonState.TOUCH_DOWN then
    if exceedsLongPressTime (secondsCount (now - (s.1.mGrid x y).buttonDownTime)) then
      let g := s.1.setCell x y { s.1.mGrid x y with buttonState := ButtonState.TOUCH_LONG }
      (runCallback g (mButtonsCb x y ButtonState.TOUCH_LONG),
       s.2 ++ [{ x := x, y := y, state := ButtonState.TOUCH_LONG }])
    else s
  else s

/-- The long-press scan: the two nested loops over every cell. -/
def longPressScan (mButtonsCb : TouchCallback) (now : Int) (g : MonomeGrid) :
    MonomeGrid × List Touch :=
  forRange g.mWidth (fun x => forRange g.mHeight (fun y => longPressCell mButtonsCb now x y))
    (g, [])

/-- The conditional write of every command case: `ledState` becomes `state` unless its low two
bits already equal `state`. -/
def writeLed (state : LedState) (x y : Nat) (g : MonomeGrid) : MonomeGrid :=
  if bitAnd (g.mGrid x y).ledState 0x03 ≠ state.toInt then
    g.setCell x y { g.mGrid x y with ledState := state.toInt }
  else g

/-- The `switch (readCommands[ci].type)` of the command loop. -/
def applyCommand (g : MonomeGrid) : MonomeCommand → MonomeGrid
  | .ALL_LEDS allLedsState =>
      forRange g.mWidth (fun x => forRange g.mHeight (fun y => writeLed allLedsState x y)) g
  | .SET_LED x y state => writeLed state x y g
  | .SET_ROW y state => forRange g.mWidth (fun x => writeLed state x y) g
  | .SET_COLUMN x state => forRange g.mHeight (fun y => writeLed state x y) g

/-- The command drain: every pending record is applied, oldest first, and the region read is
marked consumed. -/
def executeCommands (g : MonomeGrid) : MonomeGrid :=
  { g.mCommandsBuffer.foldl applyCommand g with mCommandsBuffer := [] }

/-- The body of the render loops for cell `(x, y)`, on the state and the `monome_led_set` calls
made so far. -/
def renderCell (x y : Nat) (s : MonomeGrid × List LedSet) : MonomeGrid × List LedSet :=
  let g := s.1
  if (g.mGrid x y).ledState ≠ (g.mGrid x y).lastLedState then
    let currentLedState := bitAnd (g.mGrid x y).ledState 0x03
    let lastLedState := bitAnd (g.mGrid x y).lastLedState 0x03
    if currentLedState = LedState.LED_OFF.toInt then
      (g.setCell x y { g.mGrid x y with lastLedState := (g.mGrid x y).ledState },
       s.2 ++ [{ x := x, y := y, brightness := 0 }])
    else if currentLedState = LedState.LED_ON.toInt then
      (g.setCell x y { g.mGrid x y with lastLedState := (g.mGrid x y).ledState },
       s.2 ++ [{ x := x, y := y, brightness := 1 }])
    else if currentLedState = LedState.LED_BLINK_FAST.toInt then
      let g := if lastLedState ≠ LedState.LED_BLINK_FAST.toInt then resetBlinkingBits g x y else g
      let g := g.setCell x y { g.mGrid x y with lastLedState := (g.mGrid x y).ledState }
      let r := handleLedBlinkLinear g x y
      (r.1, s.2 ++ r.2)
    else if currentLedState = LedState.LED_BLINK_SLOW.toInt then
      let g := if lastLedState ≠ LedState.LED_BLINK_SLOW.toInt then resetBlinkingBits g x y else g
      let g := g.setCell x y { g.mGrid x y with lastLedState := (g.mGrid x y).ledState }
      let r := handleLedBlinkLinear g x y
      (r.1, s.2 ++ r.2)
    else s
  else s

/-- The increment `++x` of a `uint8_t` loop counter. -/
def incU8 (x : Nat) : Nat := (x + 1) % 256

/-- The inner render loop `for (uint8_t y = 0; y < mHeight; ++y)` from counter value `y`;
`none` when `fuel` iterations do not reach the exit. -/
def renderColumn (x : Nat) : Nat → Nat → MonomeGrid × List LedSet →
    Option (MonomeGrid × List LedSet)
  | 0, _, _ => none
  | fuel + 1, y, s =>
      if y < s.1.mHeight then renderColumn x fuel (incU8 y) (renderCell x y s) else some s

/-- The outer render loop `for (uint8_t x = 0; x < mWidth; ++x)` from counter value `x`, each
inner loop being given `fuel0` iterations; `none` when the fuel does not reach the exit. -/
def renderColumns (fuel0 : Nat) : Nat → Nat → MonomeGrid × List LedSet →
    Option (MonomeGrid × List LedSet)
  | 0, _, _ => none
  | fuel + 1, x, s =>
      if x < s.1.mWidth then
        (renderColumn x fuel0 0 s).bind (renderColumns fuel0 fuel (incU8 x))
      else some s

/-- The render pass of one tick. -/
def renderPass (fuel : Nat) (g : MonomeGrid) : Option (MonomeGrid × List LedSet) :=
  renderColumns fuel fuel 0 (g, [])

/-- What one tick hands to the outside: the `monome_led_set` calls and the touch callback
invocations, in the order made. -/
structure TickOutput where
  leds : List LedSet
  touches : List Touch
  deriving DecidableEq, Repr

/-- One pass of the `while(1)` body of `updateGrid`, run at clock reading `now`: the refresh
callback (given by the `setXXX` calls it makes), the long-press scan, the command drain and
the render pass. `none` when a render loop does not exit within `fuel` iterations. -/
def updateGrid (fuel : Nat) (mRefreshCb : List MonomeCommand) (mButtonsCb : TouchCallback)
    (now : Int) (g : MonomeGrid) : Option (MonomeGrid × TickOutput) :=
  let g := runCallback g mRefreshCb
  let scanned := longPressScan mButtonsCb now g
  let g := executeCommands scanned.1
  (renderPass fuel g).map fun r => (r.1, { leds := r.2, touches := scanned.2 })

/-- A touch callback that makes no `setXXX` call. -/
def silent : TouchCallback := fun _ _ _ => []

/-! ## Cell-level reading of the loops -/

/-- The state a command asks for. -/
def MonomeCommand.state : MonomeCommand → LedState
  | .SET_LED _ _ state => state
  | .ALL_LEDS allLedsState => allLedsState
  | .SET_COLUMN _ state => state
  | .SET_ROW _ state => state

/-- Whether a command, applied to a grid of the given width and height, visits cell `(i, j)`. -/
def MonomeCommand.targets (width height : Nat) : MonomeCommand → Nat → Nat → Prop
  | .SET_LED x y _, i, j => i = x ∧ j = y
  | .ALL_LEDS _, i, j => i < width ∧ j < height
  | .SET_COLUMN x _, i, j => i = x ∧ j < height
  | .SET_ROW y _, i, j => i < width ∧ j = y

instance (width height : Nat) (cmd : MonomeCommand) (i j : Nat) :
    Decidable (cmd.targets width height i j) := by
  cases cmd <;> unfold MonomeCommand.targets <;> infer_instance

/-- Whether the coordinates a command carries lie inside the grid. -/
def MonomeCommand.inRange (width height : Nat) : MonomeCommand → Prop
  | .SET_LED x y _ => x < width ∧ y < height
  | .ALL_LEDS _ => True
  | .SET_COLUMN x _ => x < width
  | .SET_ROW y _ => y < height

instance (width height : Nat) (cmd : MonomeCommand) : Decidable (cmd.inRange width height) := by
  cases cmd <;> unfold MonomeCommand.inRange <;> infer_instance

/-- The conditional write of `writeLed`, on the cell it visits. -/
def writeCell (state : LedState) (c : MonomeCell) : MonomeCell :=
  if bitAnd c.ledState 0x03 ≠ state.toInt then { c with ledState := state.toInt } else c

/-- The body of the render loops, on the cell it visits: the cell it leaves and the
brightnesses it sends for that cell. -/
def renderCellValue (c : MonomeCell) : MonomeCell × List Nat :=
  if c.ledState ≠ c.lastLedState then
    if bitAnd c.ledState 0x03 = 0 then ({ c with lastLedState := c.ledState }, [0])
    else if bitAnd c.ledState 0x03 = 1 then ({ c with lastLedState := c.ledState }, [1])
    else
      let v := if bitAnd c.lastLedState 0x03 ≠ bitAnd c.ledState 0x03 then
        resetBlinkingBitsValue c.ledState else c.ledState
      ({ c with ledState := (handleLedBlinkLinearValue v).1, lastLedState := v },
       (handleLedBlinkLinearValue v).2)
  else (c, [])

/-- The body of the long-press scan, on the cell it visits. -/
def longPressCellValue (now : Int) (c : MonomeCell) : MonomeCell :=
  if c.buttonState = ButtonState.TOUCH_DOWN ∧
      exceedsLongPressTime (secondsCount (now - c.buttonDownTime)) = true then
    { c with buttonState := ButtonState.TOUCH_LONG }
  else c

/-- The logical state of a cell: the low two bits of `ledState`. -/
def MonomeCell.logical (c : MonomeCell) : Int := bitAnd c.ledState 0x03

/-- The conditional writes of a sequence of commands, on one cell of a grid of the given
width and height. -/
def applyCell (width height : Nat) (cmds : List MonomeCommand) (i j : Nat) (c : MonomeCell) :
    MonomeCell :=
  cmds.foldl (fun c cmd => if cmd.targets width height i j then writeCell cmd.state c else c) c

/-- The render loops with counters that never wrap: every cell below the two bounds is
visited once, column by column. -/
def renderAll (g : MonomeGrid) : MonomeGrid × List LedSet :=
  forRange g.mWidth (fun x => forRange g.mHeight (fun y => renderCell x y)) (g, [])

/-- The records pending when a tick reaches its command drain: those pending before the tick
and those its callbacks enqueued. -/
def drained (mRefreshCb : List MonomeCommand) (mButtonsCb : TouchCallback) (now : Int)
    (g : MonomeGrid) : List MonomeCommand :=
  (longPressScan mButtonsCb now (runCallback g mRefreshCb)).1.mCommandsBuffer

/-- The state of a tick between its command drain and its render pass. -/
def afterCommands (mRefreshCb : List MonomeCommand) (mButtonsCb : TouchCallback) (now : Int)
    (g : MonomeGrid) : MonomeGrid :=
  executeCommands (longPressScan mButtonsCb now (runCallback g mRefreshCb)).1

/-- The result of a tick whose render loops exit. -/
def tickResult (mRefreshCb : List MonomeCommand) (mButtonsCb : TouchCallback) (now : Int)
    (g : MonomeGrid) : MonomeGrid × TickOutput :=
  ((renderAll (afterCommands mRefreshCb mButtonsCb now g)).1,
   { leds := (renderAll (afterCommands mRefreshCb mButtonsCb now g)).2,
     touches := (longPressScan mButtonsCb now (runCallback g mRefreshCb)).2 })

/-- The `monome_led_set` calls of a render pass, computed from the cells it starts from. -/
def renderLeds (g : MonomeGrid) : List LedSet :=
  (List.range g.mWidth).flatMap fun x => (List.range g.mHeight).flatMap fun y =>
    (renderCellValue (g.mGrid x y)).2.map fun b => { x := x, y := y, brightness := b }

/-- The touch callback invocations of a long-press scan, computed from the cells it starts
from. -/
def scanTouches (now : Int) (g : MonomeGrid) : List Touch :=
  (List.range g.mWidth).flatMap fun x => (List.range g.mHeight).flatMap fun y =>
    if (g.mGrid x y).buttonState = ButtonState.TOUCH_DOWN ∧
        exceedsLongPressTime (secondsCount (now - (g.mGrid x y).buttonDownTime)) = true then
      [{ x := x, y := y, state := ButtonState.TOUCH_LONG }]
    else []

/-- A 2 x 2 grid as constructed, with three records pending. -/
def pendingGrid : MonomeGrid :=
  { construct 2 2 with
    mCommandsBuffer :=
      [.SET_LED 0 0 .LED_ON, .SET_ROW 1 .LED_BLINK_SLOW, .SET_LED 0 0 .LED_BLINK_FAST] }

/-! ## Runs -/

/-- One step of a run of the program: a tick of the refresh loop, a button event delivered by
the device, or a `setXXX` call made between two ticks. -/
inductive Step where
  | tick (mRefreshCb : List MonomeCommand) (mButtonsCb : TouchCallback) (now : Int)
  | button (mButtonsCb : TouchCallback) (now : Int) (x y : Nat) (isDown : Bool)
  | set (cmd : MonomeCommand)

/-- Whether every coordinate a step carries, and every coordinate its callbacks pass to
`setXXX`, lies inside the grid. -/
def Step.inRange (width height : Nat) : Step → Prop
  | .tick mRefreshCb mButtonsCb _ =>
      (∀ cmd ∈ mRefreshCb, cmd.inRange width height) ∧
      ∀ x y st, ∀ cmd ∈ mButtonsCb x y st, cmd.inRange width height
  | .button mButtonsCb _ x y _ =>
      x < width ∧ y < height ∧ ∀ x y st, ∀ cmd ∈ mButtonsCb x y st, cmd.inRange width height
  | .set cmd => cmd.inRange width height

/-- The effect of one step; `none` when a tick's render loops do not exit within `fuel`
iterations. -/
def step (fuel : Nat) (g : MonomeGrid) : Step → Option (MonomeGrid × TickOutput)
  | .tick mRefreshCb mButtonsCb now => updateGrid fuel mRefreshCb mButtonsCb now g
  | .button mButtonsCb now x y isDown =>
      some ((buttonTouched mButtonsCb now g x y isDown).1,
        { leds := [], touches := (buttonTouched mButtonsCb now g x y isDown).2 })
  | .set cmd => some (enqueue g cmd, { leds := [], touches := [] })

/-- The effect of a sequence of steps: the final state and the output of each step. -/
def run (fuel : Nat) : MonomeGrid → List Step → Option (MonomeGrid × List TickOutput)
  | g, [] => some (g, [])
  | g, st :: rest =>
      (step fuel g st).bind fun r => (run fuel r.1 rest).map fun q => (q.1, r.2 :: q.2)

/-- All `monome_led_set` calls of a run, in order. -/
def allLeds (outs : List TickOutput) : List LedSet := outs.flatMap fun o => o.leds

/-- All touch callback invocations of a run, in order. -/
def allTouches (outs : List TickOutput) : List Touch := outs.flatMap fun o => o.touches

/-- The last element of a list of brightnesses, or `d` when there is none. -/
def lastOr (d : Nat) (l : List Nat) : Nat := l.foldl (fun _ b => b) d

/-- What ties a cell to the brightness `d` the device shows for it, before a render step: a
logical state of off or on is stored without animation bits, and a last-pushed state of off or
on is what the device shows. -/
def CellPre (c : MonomeCell) (d : Nat) : Prop :=
  (c.logical = 0 → c.ledState = 0) ∧ (c.logical = 1 → c.ledState = 1) ∧
  (c.lastLedState = 0 → d = 0) ∧ (c.lastLedState = 1 → d = 1)

/-- What ties a cell to the brightness `d` the device shows for it, between ticks: `CellPre`,
and the device shows a logical state of off or on. -/
def CellInv (c : MonomeCell) (d : Nat) : Prop :=
  CellPre c d ∧ (c.logical = 1 → d = 1) ∧ (c.logical = 0 → d = 0)

/-- Every cell inside the grid is tied to what the device shows for it, as `CellInv` says. -/
def GridInv (g : MonomeGrid) (dev : Device) : Prop :=
  ∀ i j, i < g.mWidth → j < g.mHeight → CellInv (g.mGrid i j) (dev i j)

/-- A short run on a 1 x 1 grid: the cell is set blinking, a tick, the cell is set on. -/
def blinkThenSetOn : List Step :=
  [.set (.SET_LED 0 0 .LED_BLINK_FAST), .tick [] silent 0, .set (.SET_LED 0 0 .LED_ON)]

/-- A run on a 1 x 1 grid: the cell is set to fast blinking and a tick runs; then twice the
cell is set off and back to fast blinking before a tick runs; then two ticks with nothing
pending. -/
def offAndBackSteps : List Step :=
  [.set (.SET_LED 0 0 .LED_BLINK_FAST), .tick [] silent 0,
   .set (.SET_LED 0 0 .LED_OFF), .set (.SET_LED 0 0 .LED_BLINK_FAST), .tick [] silent 20000,
   .set (.SET_LED 0 0 .LED_OFF), .set (.SET_LED 0 0 .LED_BLINK_FAST), .tick [] silent 40000,
   .tick [] silent 60000, .tick [] silent 80000]

/-! ## The blink ramp -/

/-- The cycle length of a blink preset: `blinkingSpeeds[1].bits` for `LED_BLINK_FAST`,
`blinkingSpeeds[0].bits` otherwise. -/
def cycleLength (st : LedState) : Nat :=
  if st = LedState.LED_BLINK_FAST then 8 else 32

/-- The number of ticks after which the blink ramp of a preset repeats. -/
def blinkPeriod (st : LedState) : Nat := 2 * cycleLength st - 2

/-- The value of `ledState` after tick `k` of a blink ramp that started at tick 0: the phase
falls from `cycleLength - 2` to 0 with the direction flag clear, then rises from 1 to
`cycleLength - 1` with the flag set. -/
def blinkLed (st : LedState) (k : Nat) : Int :=
  if k % blinkPeriod st < cycleLength st - 1 then
    st.toInt + 4 * ((cycleLength st - 2 - k % blinkPeriod st : Nat) : Int)
  else
    st.toInt + 4 * ((cycleLength st + (k % blinkPeriod st - (cycleLength st - 2)) : Nat) : Int)

/-- The brightnesses sent in tick `k` of a blink ramp that started at tick 0. -/
def blinkPush (st : LedState) (k : Nat) : List Nat :=
  if k % blinkPeriod st = 0 then [1]
  else if k % blinkPeriod st = cycleLength st - 1 then [0]
  else []

/-- The brightnesses a list of `monome_led_set` calls sends to LED `(x, y)`, in order. -/
def pushesAt (x y : Nat) (ls : List LedSet) : List Nat :=
  (ls.filter fun l => decide (l.x = x ∧ l.y = y)).map fun l => l.brightness

/-- Whether a command leaves alone the state `st` of cell `(x, y)`: it does not visit the cell,
or it asks for `st`. -/
def MonomeCommand.keeps (width height x y : Nat) (st : LedState) (cmd : MonomeCommand) : Prop :=
  cmd.targets width height x y → cmd.state = st

/-- Whether every command a step can enqueue leaves alone the state `st` of cell `(x, y)`. -/
def Step.keeps (width height x y : Nat) (st : LedState) : Step → Prop
  | .tick mRefreshCb mButtonsCb _ =>
      (∀ cmd ∈ mRefreshCb, cmd.keeps width height x y st) ∧
      ∀ a b s, ∀ cmd ∈ mButtonsCb a b s, cmd.keeps width height x y st
  | .button mButtonsCb _ _ _ _ => ∀ a b s, ∀ cmd ∈ mButtonsCb a b s, cmd.keeps width height x y st
  | .set cmd => cmd.keeps width height x y st

/-- The number of ticks among the steps of a run. -/
def countTicks : List Step → Nat
  | [] => 0
  | .tick _ _ _ :: rest => countTicks rest + 1
  | _ :: rest => countTicks rest

/-- The brightnesses each step of a run sends to a cell on a blink ramp, when `n` ticks of the
ramp ran before the steps: a tick sends what `blinkPush` says, the other steps nothing. -/
def blinkPushes (st : LedState) : Nat → List Step → List (List Nat)
  | _, [] => []
  | n, .tick _ _ _ :: rest => blinkPush st n :: blinkPushes st (n + 1) rest
  | n, _ :: rest => [] :: blinkPushes st n rest

/-- Where a cell stands on the blink ramp of `st` after `n` ticks of it: before the first tick
its logical state is `st` and its last-pushed logical state is another one; afterwards its
`ledState` and `lastLedState` are the ramp values of the last two ticks. -/
def OnRamp (st : LedState) (n : Nat) (c : MonomeCell) : Prop :=
  if n = 0 then c.logical = st.toInt ∧ bitAnd c.lastLedState 3 ≠ st.toInt
  else c.ledState = blinkLed st (n - 1) ∧
    c.lastLedState = blinkLed st (n - 1 + (blinkPeriod st - 1))

/-- Where cell `(x, y)` of a grid stands on the blink ramp of `st` after `n` ticks of it. Before
the first tick, the records pending leave the cell logically `st` while its last-pushed
logical state is another one; afterwards the cell holds the ramp values and the records
pending leave its state alone. -/
def RampInv (st : LedState) (x y : Nat) (n : Nat) (g : MonomeGrid) : Prop :=
  if n = 0 then
    OnRamp st 0 (applyCell g.mWidth g.mHeight g.mCommandsBuffer x y (g.mGrid x y))
  else
    OnRamp st n (g.mGrid x y) ∧
      ∀ cmd ∈ g.mCommandsBuffer, cmd.keeps g.mWidth g.mHeight x y st

/-- A 1 x 1 grid as constructed, with a record pending that sets its cell to fast blinking. -/
def fastPending : MonomeGrid :=
  { construct 1 1 with mCommandsBuffer := [.SET_LED 0 0 .LED_BLINK_FAST] }

/-- Three ticks with a same-state `setXXX` call between the first two. -/
def threeTicks : List Step :=
  [.tick [] silent 0, .set (.ALL_LEDS .LED_BLINK_FAST), .tick [] silent 20000,
   .tick [] silent 40000]

/-- A 1 x 1 grid whose cell is logically slow blinking with stale animation bits (`ledState`
is 87) and was last pushed as off. -/
def staleSlow : MonomeGrid :=
  (construct 1 1).setCell 0 0 { MonomeCell.new with ledState := 87 }

/-- The value `resetBlinkingBits` leaves for a blink state: the state in the low two bits, the
phase `cycleLength - 1` and the direction flag above them. -/
def resetValue (st : LedState) : Int :=
  st.toInt + 4 * ((cycleLength st - 1 + cycleLength st : Nat) : Int)

/-- A 2 x 2 grid whose cell (0, 0) is half way down a fast blink ramp. -/
def midRamp : MonomeGrid :=
  (construct 2 2).setCell 0 0 { MonomeCell.new with ledState := 14, lastLedState := 18 }

/-! ## Long presses -/

/-- A button of a 1 x 1 grid is pressed at clock reading 0 and a tick runs at clock reading
`t`. -/
def pressAndTick (t : Int) : List Step :=
  [.button silent 0 0 0 true, .tick [] silent t]

/-- The number of `TOUCH_LONG` callback invocations for cell `(x, y)` in a list of touch
callback invocations. -/
def longPressesAt (x y : Nat) (ts : List Touch) : Nat :=
  (ts.filter fun t => decide (t.x = x ∧ t.y = y ∧ t.state = ButtonState.TOUCH_LONG)).length

/-- Whether a step is a button event on cell `(x, y)`. -/
def Step.isButtonAt (x y : Nat) : Step → Prop
  | .button _ _ a b _ => a = x ∧ b = y
  | _ => False

/-- Whether a step, if it is a tick, reads the clock less than one second after `t0`. -/
def Step.within (t0 : Int) : Step → Prop
  | .tick _ _ now => now - t0 < ticksPerSecond
  | _ => True

/-- 1 when the cell's button is held and no long press has been reported, 0 otherwise. -/
def MonomeCell.armed (c : MonomeCell) : Nat :=
  if c.buttonState = ButtonState.TOUCH_DOWN then 1 else 0

/-- Ticks 0.3 s, 1.2 s and 2 s after clock reading 0. -/
def heldTicks : List Step :=
  [.tick [] silent 300000, .tick [] silent 1200000, .tick [] silent 2000000]

/-- A tick 0.3 s after clock reading 0. -/
def earlyTick : List Step := [.tick [] silent 300000]

/-- A touch callback that lights the LED of the button it is called for. -/
def lightOnTouch : TouchCallback := fun x y _ => [.SET_LED x y .LED_ON]

/-! ## Allocation (constructor) -/

/-- The heap object `mGrid` points to: the array of row pointers, a slot being `none` while no
row pointer was stored in it, and the rows the stored pointers lead to. -/
abbrev RowTable := List (Option (List MonomeCell))

/-- The allocation in the constructor: `mGrid = new MonomeCell*[mWidth*mHeight]`, then
`mGrid[i] = new MonomeCell[mWidth]` for every `i < mHeight`. -/
def allocateGrid (mWidth mHeight : Nat) : RowTable :=
  forRange mHeight (fun i rows => rows.set i (some (List.replicate mWidth MonomeCell.new)))
    (List.replicate (mWidth * mHeight) none)

/-- The access `mGrid[x][y]`: `none` when `mGrid[x]` lies outside the pointer array or was
never set, or when `y` lies outside the row `mGrid[x]` points to. -/
def rowTableAt (rows : RowTable) (x y : Nat) : Option MonomeCell :=
  match rows[x]? with
  | some (some row) => row[y]?
  | _ => none

/-- The 8 x 8 grid as constructed, after `setAllLeds(LED_OFF)`. -/
def freshAllOff : MonomeGrid := setAllLeds (construct 8 8) .LED_OFF

/-! ## Channel capacity -/

/-- The number of whole records the channel holds. -/
def channelCapacity : Nat := bufferLength / sizeofMonomeCommand

/-- The 1 x 1 grid as constructed, with 1024 records pending. -/
def fullGrid : MonomeGrid :=
  { construct 1 1 with mCommandsBuffer := List.replicate 1024 (.ALL_LEDS .LED_OFF) }

/-- The `setXXX` calls the touch callbacks of a long-press scan make, in the order of the
scan, computed from the cells the scan starts from. -/
def scanCalls (mButtonsCb : TouchCallback) (now : Int) (g : MonomeGrid) : List MonomeCommand :=
  (List.range g.mWidth).flatMap fun x => (List.range g.mHeight).flatMap fun y =>
    if (g.mGrid x y).buttonState = ButtonState.TOUCH_DOWN ∧
        exceedsLongPressTime (secondsCount (now - (g.mGrid x y).buttonDownTime)) = true then
      mButtonsCb x y ButtonState.TOUCH_LONG
    else []

/-! ## Decoding a blink value -/

/-- The phase `handleLedBlinkLinear` decodes from a value of preset `st`:
`(ledState >> 2) & (currentSpeed - 1)`. -/
def decodedPhase (st : LedState) (ledState : Int) : Int :=
  bitAnd (shr ledState 2) ((cycleLength st : Int) - 1)

/-- The direction flag `handleLedBlinkLinear` decodes from a value of preset `st`:
`(ledState >> 2) & currentSpeed`, nonzero when the phase is rising. -/
def directionFlag (st : LedState) (ledState : Int) : Int :=
  bitAnd (shr ledState 2) (cycleLength st : Int)

/-- The 1 x 1 grid as constructed, after `setOneLed(0, 0, LED_BLINK_FAST)`. -/
def blinkRequested : MonomeGrid := setOneLed (construct 1 1) 0 0 .LED_BLINK_FAST

/-- The 2 x 2 grid as constructed, after button `(1, 1)` went down at clock reading 0. -/
def heldButton : MonomeGrid := (buttonTouched silent 0 (construct 2 2) 1 1 true).1

/-- The `setXXX` calls of `gridRefreshed` in example 03, at step 0. -/
def gridRefreshedCalls : List MonomeCommand := [.ALL_LEDS .LED_OFF, .SET_ROW 0 .LED_ON]

/-! ## The static scratch variables, kept explicitly -/

/-- The `static int` variables of `resetBlinkingBits`, `handleLedBlinkLinear` and `updateGrid`:
they keep their values from one call to the next. -/
structure Statics where
  /-- The `currentLedState` of `resetBlinkingBits`. -/
  resetCurrentLedState : Int
  /-- The `currentBlinkState` of `resetBlinkingBits`. -/
  resetCurrentBlinkState : Int
  /-- The `currentLedState` of `handleLedBlinkLinear`. -/
  blinkCurrentLedState : Int
  /-- The `currentBlinkState` of `handleLedBlinkLinear`. -/
  blinkCurrentBlinkState : Int
  /-- The `currentLedState` of `updateGrid`. -/
  updateCurrentLedState : Int
  /-- The `lastLedState` of `updateGrid`. -/
  updateLastLedState : Int

/-- The statements of `resetBlinkingBits` on the statics it finds and the value it finds in
`mGrid[x][y].ledState`: every read of a static reads the store. -/
def resetBlinkingBitsValueStatic (st : Statics) (ledState : Int) : Statics × Int :=
  let st := { st with resetCurrentLedState := bitAnd ledState 0x03 }
  let currentSpeed :=
    if st.resetCurrentLedState = LedState.LED_BLINK_FAST.toInt then (blinkingSpeeds 1).bits
    else (blinkingSpeeds 0).bits
  let logSpeed :=
    if st.resetCurrentLedState = LedState.LED_BLINK_FAST.toInt then (blinkingSpeeds 1).log2Bits
    else (blinkingSpeeds 0).log2Bits
  let st := { st with resetCurrentBlinkState := currentSpeed - 1 }
  let st := { st with
    resetCurrentBlinkState := bitOr st.resetCurrentBlinkState (shl 1 logSpeed) }
  let st := { st with resetCurrentBlinkState := shl st.resetCurrentBlinkState 2 }
  let ledState := bitAnd ledState (bitNot ledState)
  let ledState := bitOr ledState st.resetCurrentLedState
  (st, bitOr ledState st.resetCurrentBlinkState)

/-- The method `resetBlinkingBits`, with the statics kept explicitly. -/
def resetBlinkingBitsStatic (st : Statics) (g : MonomeGrid) (x y : Nat) :
    Statics × MonomeGrid :=
  let r := resetBlinkingBitsValueStatic st (g.mGrid x y).ledState
  (r.1, g.setCell x y { g.mGrid x y with ledState := r.2 })

/-- The statements of `handleLedBlinkLinear` on the statics it finds and the value it finds in
`mGrid[x][y].ledState`: every read of a static reads the store. -/
def handleLedBlinkLinearValueStatic (st : Statics) (ledState : Int) :
    Statics × Int × List Nat :=
  let st := { st with blinkCurrentLedState := bitAnd ledState 0x03 }
  let currentSpeed :=
    if st.blinkCurrentLedState = LedState.LED_BLINK_FAST.toInt then (blinkingSpeeds 1).bits
    else (blinkingSpeeds 0).bits
  let logSpeed :=
    if st.blinkCurrentLedState = LedState.LED_BLINK_FAST.toInt then (blinkingSpeeds 1).log2Bits
    else (blinkingSpeeds 0).log2Bits
  let st := { st with blinkCurrentBlinkState := bitAnd (shr ledState 2) (currentSpeed - 1) }
  let currentDirection : Int := if bitAnd (shr ledState 2) currentSpeed ≠ 0 then 1 else -1
  let (leds, currentDirection) :=
    if st.blinkCurrentBlinkState = (0 : Int) then ([0], (1 : Int))
    else if st.blinkCurrentBlinkState = currentSpeed - 1 then ([1], (-1 : Int))
    else ([], currentDirection)
  let st :=
    if currentDirection = 1 then
      { st with blinkCurrentBlinkState := bitOr st.blinkCurrentBlinkState (shl 1 logSpeed) }
    else
      { st with
        blinkCurrentBlinkState := bitAnd st.blinkCurrentBlinkState (bitNot (shl 1 logSpeed)) }
  let st := { st with blinkCurrentBlinkState := st.blinkCurrentBlinkState + currentDirection }
  let st := { st with blinkCurrentBlinkState := shl st.blinkCurrentBlinkState 2 }
  let ledState := bitAnd ledState (bitNot ledState)
  let ledState := bitOr ledState st.blinkCurrentLedState
  (st, bitOr ledState st.blinkCurrentBlinkState, leds)

/-- The method `handleLedBlinkLinear`, with the statics kept explicitly. -/
def handleLedBlinkLinearStatic (st : Statics) (g : MonomeGrid) (x y : Nat) :
    Statics × MonomeGrid × List LedSet :=
  let r := handleLedBlinkLinearValueStatic st (g.mGrid x y).ledState
  (r.1, g.setCell x y { g.mGrid x y with ledState := r.2.1 },
   r.2.2.map fun b => { x := x, y := y, brightness := b })

/-- The body of the render loops for cell `(x, y)`, with the statics kept explicitly. -/
def renderCellStatic (x y : Nat) (st : Statics) (s : MonomeGrid × List LedSet) :
    Statics × MonomeGrid × List LedSet :=
  let g := s.1
  if (g.mGrid x y).ledState ≠ (g.mGrid x y).lastLedState then
    let st := { st with updateCurrentLedState := bitAnd (g.mGrid x y).ledState 0x03 }
    let st := { st with updateLastLedState := bitAnd (g.mGrid x y).lastLedState 0x03 }
    if st.updateCurrentLedState = LedState.LED_OFF.toInt then
      (st, g.setCell x y { g.mGrid x y with lastLedState := (g.mGrid x y).ledState },
       s.2 ++ [{ x := x, y := y, brightness := 0 }])
    else if st.updateCurrentLedState = LedState.LED_ON.toInt then
      (st, g.setCell x y { g.mGrid x y with lastLedState := (g.mGrid x y).ledState },
       s.2 ++ [{ x := x, y := y, brightness := 1 }])
    else if st.updateCurrentLedState = LedState.LED_BLINK_FAST.toInt then
      let r := if st.updateLastLedState ≠ LedState.LED_BLINK_FAST.toInt then
        resetBlinkingBitsStatic st g x y else (st, g)
      let g := r.2.setCell x y { r.2.mGrid x y with lastLedState := (r.2.mGrid x y).ledState }
      let q := handleLedBlinkLinearStatic r.1 g x y
      (q.1, q.2.1, s.2 ++ q.2.2)
    else if st.updateCurrentLedState = LedState.LED_BLINK_SLOW.toInt then
      let r := if st.updateLastLedState ≠ LedState.LED_BLINK_SLOW.toInt then
        resetBlinkingBitsStatic st g x y else (st, g)
      let g := r.2.setCell x y { r.2.mGrid x y with lastLedState := (r.2.mGrid x y).ledState }
      let q := handleLedBlinkLinearStatic r.1 g x y
      (q.1, q.2.1, s.2 ++ q.2.2)
    else (st, s.1, s.2)
  else (st, s.1, s.2)

/-- What the render step makes of a cell whose `ledState` and `lastLedState` are the two given
values: the new `ledState`, the new `lastLedState` and the brightnesses sent. -/
def renderOutcome (ledState lastLedState : Int) : Int × Int × List Nat :=
  let r := renderCellValue
    { ledState := ledState, lastLedState := lastLedState,
      buttonState := ButtonState.TOUCH_UP, buttonDownTime := 0 }
  (r.1.ledState, r.1.lastLedState, r.2)

/-! ## Bit-level facts -/

theorem toBits_lt (a : Int) : toBits a < 4294967296 := by
  unfold toBits; omega

theorem toBits_of_small (m : Int) (h0 : 0 ≤ m) (h1 : m < 4294967296) : toBits m = m.toNat := by
  unfold toBits; omega

theorem toBits_ofBits (n : Nat) (h : n < 4294967296) : toBits (ofBits n) = n := by
  unfold toBits ofBits; split <;> omega

/-- Masking with a non-negative constant gives a value between 0 and the constant. -/
theorem bitAnd_range (a m : Int) (h0 : 0 ≤ m) (h1 : m < 2147483648) :
    0 ≤ bitAnd a m ∧ bitAnd a m ≤ m := by
  have hm : toBits m = m.toNat := toBits_of_small m h0 (by omega)
  have hle : toBits a &&& toBits m ≤ toBits m := Nat.and_le_right
  unfold bitAnd ofBits
  rw [hm] at hle ⊢
  split <;> omega

theorem bitAnd_self_bitNot (a : Int) : bitAnd a (bitNot a) = 0 := by
  have h := toBits_lt a
  have hx : toBits a ^^^ 4294967295 < 4294967296 := by
    have := @Nat.xor_lt_two_pow (toBits a) 4294967295 32 (by simpa using h) (by norm_num)
    simpa using this
  unfold bitAnd bitNot
  rw [toBits_ofBits _ hx]
  have : toBits a &&& (toBits a ^^^ 4294967295) = 0 := by
    apply Nat.eq_of_testBit_eq
    intro i
    simp only [Nat.testBit_and, Nat.testBit_xor, Nat.zero_testBit]
    by_cases hi : i < 32
    · have h1 : Nat.testBit 4294967295 i = true := by
        have := @Nat.testBit_two_pow_sub_one 32 i
        simpa [hi] using this
      rw [h1]; cases Nat.testBit (toBits a) i <;> rfl
    · have h1 : Nat.testBit (toBits a) i = false := by
        apply Nat.testBit_lt_two_pow
        calc toBits a < 2 ^ 32 := by simpa using h
          _ ≤ 2 ^ i := Nat.pow_le_pow_right (by norm_num) (by omega)
      rw [h1]; rfl
  rw [this]; rfl

theorem bitAnd_eight (a : Int) : bitAnd a 8 = 0 ∨ bitAnd a 8 = 8 := by
  have h := Nat.and_two_pow (toBits a) 3
  have h8 : toBits 8 = 2 ^ 3 := by decide
  unfold bitAnd
  rw [h8, h]
  cases (toBits a).testBit 3
  · left; decide
  · right; decide

theorem bitAnd_thirtyTwo (a : Int) : bitAnd a 32 = 0 ∨ bitAnd a 32 = 32 := by
  have h := Nat.and_two_pow (toBits a) 5
  have h32 : toBits 32 = 2 ^ 5 := by decide
  unfold bitAnd
  rw [h32, h]
  cases (toBits a).testBit 5
  · left; decide
  · right; decide

theorem bitAnd_three_cases (a : Int) :
    bitAnd a 3 = 0 ∨ bitAnd a 3 = 1 ∨ bitAnd a 3 = 2 ∨ bitAnd a 3 = 3 := by
  have h := bitAnd_range a 3 (by norm_num) (by norm_num)
  omega

/-- On a value whose low two bits say `LED_BLINK_FAST`, `resetBlinkingBits` leaves 62. -/
theorem resetBlinkingBitsValue_fast (v : Int) (h : bitAnd v 3 = 2) :
    resetBlinkingBitsValue v = 62 := by
  simp only [resetBlinkingBitsValue, bitAnd_self_bitNot, h]
  decide

/-- On a value whose low two bits say `LED_BLINK_SLOW`, `resetBlinkingBits` leaves 255. -/
theorem resetBlinkingBitsValue_slow (v : Int) (h : bitAnd v 3 = 3) :
    resetBlinkingBitsValue v = 255 := by
  simp only [resetBlinkingBitsValue, bitAnd_self_bitNot, h]
  decide

/-- The blink step keeps the low two bits of a blinking value. -/
theorem handleLedBlinkLinearValue_low (v : Int) (h : bitAnd v 3 = 2 ∨ bitAnd v 3 = 3) :
    bitAnd (handleLedBlinkLinearValue v).1 3 = bitAnd v 3 := by
  rcases h with h | h
  · have hp := bitAnd_range (shr v 2) 7 (by norm_num) (by norm_num)
    have hf := bitAnd_eight (shr v 2)
    have e1 : (blinkingSpeeds 1).bits = 8 := by decide
    have e2 : (blinkingSpeeds 1).log2Bits = 3 := by decide
    simp only [handleLedBlinkLinearValue, bitAnd_self_bitNot, h, LedState.toInt, if_true, e1, e2]
    norm_num only
    generalize bitAnd (shr v 2) 7 = p at *
    generalize bitAnd (shr v 2) 8 = f at *
    obtain ⟨hp0, hp1⟩ := hp
    interval_cases p <;> rcases hf with hf | hf <;> subst hf <;> decide
  · have hp := bitAnd_range (shr v 2) 31 (by norm_num) (by norm_num)
    have hf := bitAnd_thirtyTwo (shr v 2)
    have e1 : (blinkingSpeeds 0).bits = 32 := by decide
    have e2 : (blinkingSpeeds 0).log2Bits = 5 := by decide
    simp only [handleLedBlinkLinearValue, bitAnd_self_bitNot, h, LedState.toInt, e1, e2]
    norm_num only [if_false]
    generalize bitAnd (shr v 2) 31 = p at *
    generalize bitAnd (shr v 2) 32 = f at *
    obtain ⟨hp0, hp1⟩ := hp
    interval_cases p <;> rcases hf with hf | hf <;> subst hf <;> decide

/-! ## Loops over the grid -/

theorem forRange_zero {σ : Type} (body : Nat → σ → σ) (s : σ) : forRange 0 body s = s := rfl

theorem forRange_succ {σ : Type} (n : Nat) (body : Nat → σ → σ) (s : σ) :
    forRange (n + 1) body s = body n (forRange n body s) := by
  simp [forRange, List.range_succ]

/-- A property that every iteration keeps is kept by the loop. -/
theorem forRange_invariant {σ : Type} (P : σ → Prop) (body : Nat → σ → σ)
    (h : ∀ k s, P s → P (body k s)) (n : Nat) (s : σ) (hs : P s) : P (forRange n body s) := by
  induction n with
  | zero => exact hs
  | succ n ih => rw [forRange_succ]; exact h n _ ih

/-- A projection that no iteration changes is not changed by the loop. -/
theorem forRange_preserve {σ β : Type} (f : σ → β) (body : Nat → σ → σ)
    (h : ∀ k s, f (body k s) = f s) (n : Nat) (s : σ) : f (forRange n body s) = f s := by
  induction n with
  | zero => rfl
  | succ n ih => rw [forRange_succ, h, ih]

/-- Cells outside the places the iterations touch keep their content. -/
theorem forRange_cell_other {σ : Type} (cell : σ → Nat → Nat → MonomeCell)
    (loc : Nat → Nat → Nat → Prop) [∀ k i j, Decidable (loc k i j)]
    (F : Nat → Nat → MonomeCell → MonomeCell) (body : Nat → σ → σ)
    (hbody : ∀ k s i j, cell (body k s) i j =
      if loc k i j then F i j (cell s i j) else cell s i j)
    (n : Nat) (s : σ) (i j : Nat) (h : ∀ k, k < n → ¬ loc k i j) :
    cell (forRange n body s) i j = cell s i j := by
  induction n with
  | zero => rfl
  | succ n ih =>
    rw [forRange_succ, hbody, if_neg (h n (Nat.lt_succ_self n))]
    exact ih fun k hk => h k (Nat.lt_succ_of_lt hk)

/-- A cell that exactly one iteration touches ends with that iteration's update of its
original content. -/
theorem forRange_cell_touched {σ : Type} (cell : σ → Nat → Nat → MonomeCell)
    (loc : Nat → Nat → Nat → Prop) [∀ k i j, Decidable (loc k i j)]
    (F : Nat → Nat → MonomeCell → MonomeCell) (body : Nat → σ → σ)
    (hbody : ∀ k s i j, cell (body k s) i j =
      if loc k i j then F i j (cell s i j) else cell s i j)
    (hdisj : ∀ k k' i j, loc k i j → loc k' i j → k = k')
    (n : Nat) (s : σ) (i j k : Nat) (hk : k < n) (hloc : loc k i j) :
    cell (forRange n body s) i j = F i j (cell s i j) := by
  induction n with
  | zero => omega
  | succ n ih =>
    rw [forRange_succ, hbody]
    by_cases hn : loc n i j
    · rw [if_pos hn]
      congr 1
      apply forRange_cell_other cell loc F body hbody
      intro k' hk' hl
      have := hdisj k' n i j hl hn
      omega
    · rw [if_neg hn]
      apply ih
      rcases Nat.lt_succ_iff_lt_or_eq.mp hk with h | h
      · exact h
      · subst h; exact absurd hloc hn

/-- The outputs of a loop whose iteration `k` appends `O k s`, when `O k s` reads only cells
that iteration `k` touches: each iteration's output is the one computed on the initial state. -/
theorem forRange_output {σ γ : Type} (cell : σ → Nat → Nat → MonomeCell)
    (loc : Nat → Nat → Nat → Prop) [∀ k i j, Decidable (loc k i j)]
    (F : Nat → Nat → MonomeCell → MonomeCell) (body : Nat → σ → σ)
    (hbody : ∀ k s i j, cell (body k s) i j =
      if loc k i j then F i j (cell s i j) else cell s i j)
    (hdisj : ∀ k k' i j, loc k i j → loc k' i j → k = k')
    (out : σ → List γ) (O : Nat → σ → List γ)
    (hout : ∀ k s, out (body k s) = out s ++ O k s)
    (hO : ∀ k s s', (∀ i j, loc k i j → cell s i j = cell s' i j) → O k s = O k s')
    (n : Nat) (s : σ) :
    out (forRange n body s) = out s ++ (List.range n).flatMap (fun k => O k s) := by
  induction n with
  | zero => simp [forRange]
  | succ n ih =>
    rw [forRange_succ, hout, ih, List.range_succ, List.flatMap_append, List.append_assoc]
    congr 2
    simp only [List.flatMap_cons, List.flatMap_nil, List.append_nil]
    apply hO
    intro i j hl
    apply forRange_cell_other cell loc F body hbody
    intro k' hk' hl'
    have := hdisj k' n i j hl' hl
    omega

/-- A loop along one column whose body at `(x, y)` updates cell `(x, y)` alone. -/
theorem column_cell {σ : Type} (cell : σ → Nat → Nat → MonomeCell)
    (F : Nat → Nat → MonomeCell → MonomeCell) (body : Nat → Nat → σ → σ)
    (hbody : ∀ x y s i j, cell (body x y s) i j =
      if i = x ∧ j = y then F i j (cell s i j) else cell s i j)
    (x h : Nat) (s : σ) (i j : Nat) :
    cell (forRange h (fun y => body x y) s) i j =
      if i = x ∧ j < h then F i j (cell s i j) else cell s i j := by
  by_cases hc : i = x ∧ j < h
  · rw [if_pos hc]
    exact forRange_cell_touched cell (fun k i j => i = x ∧ j = k) F _
      (fun k s i j => hbody x k s i j)
      (fun k k' i j h1 h2 => h1.2.symm.trans h2.2) h s i j j hc.2 ⟨hc.1, rfl⟩
  · rw [if_neg hc]
    exact forRange_cell_other cell (fun k i j => i = x ∧ j = k) F _
      (fun k s i j => hbody x k s i j) h s i j (fun k hk hl => hc ⟨hl.1, hl.2 ▸ hk⟩)

/-- Two nested loops over the grid whose body at `(x, y)` updates cell `(x, y)` alone: every
cell inside the bounds gets that update of its original content. -/
theorem nested_cell {σ : Type} (cell : σ → Nat → Nat → MonomeCell)
    (F : Nat → Nat → MonomeCell → MonomeCell) (body : Nat → Nat → σ → σ)
    (hbody : ∀ x y s i j, cell (body x y s) i j =
      if i = x ∧ j = y then F i j (cell s i j) else cell s i j)
    (w h : Nat) (s : σ) (i j : Nat) :
    cell (forRange w (fun x => forRange h (fun y => body x y)) s) i j =
      if i < w ∧ j < h then F i j (cell s i j) else cell s i j := by
  have hcol : ∀ k s i j, cell (forRange h (fun y => body k y) s) i j =
      if i = k ∧ j < h then F i j (cell s i j) else cell s i j :=
    fun k s i j => column_cell cell F body hbody k h s i j
  by_cases hc : i < w ∧ j < h
  · rw [if_pos hc]
    exact forRange_cell_touched cell (fun k i j => i = k ∧ j < h) F _ hcol
      (fun k k' i j h1 h2 => h1.1.symm.trans h2.1) w s i j i hc.1 ⟨rfl, hc.2⟩
  · rw [if_neg hc]
    exact forRange_cell_other cell (fun k i j => i = k ∧ j < h) F _ hcol
      w s i j (fun k hk hl => hc ⟨hl.1 ▸ hk, hl.2⟩)

/-- The outputs of a loop along one column whose body at `(x, y)` appends an output computed
from cell `(x, y)`. -/
theorem column_output {σ γ : Type} (cell : σ → Nat → Nat → MonomeCell)
    (F : Nat → Nat → MonomeCell → MonomeCell) (body : Nat → Nat → σ → σ)
    (hbody : ∀ x y s i j, cell (body x y s) i j =
      if i = x ∧ j = y then F i j (cell s i j) else cell s i j)
    (out : σ → List γ) (O : Nat → Nat → MonomeCell → List γ)
    (hout : ∀ x y s, out (body x y s) = out s ++ O x y (cell s x y))
    (x h : Nat) (s : σ) :
    out (forRange h (fun y => body x y) s) =
      out s ++ (List.range h).flatMap (fun y => O x y (cell s x y)) :=
  forRange_output cell (fun k i j => i = x ∧ j = k) F _
    (fun k s i j => hbody x k s i j)
    (fun k k' i j h1 h2 => h1.2.symm.trans h2.2) out (fun k s => O x k (cell s x k))
    (fun k s => hout x k s)
    (fun k s s' hs => by
      show O x k (cell s x k) = O x k (cell s' x k)
      rw [hs x k ⟨rfl, rfl⟩]) h s

/-- The outputs of two nested loops over the grid whose body at `(x, y)` appends an output
computed from cell `(x, y)`: the outputs computed from the original cells, column by
column. -/
theorem nested_output {σ γ : Type} (cell : σ → Nat → Nat → MonomeCell)
    (F : Nat → Nat → MonomeCell → MonomeCell) (body : Nat → Nat → σ → σ)
    (hbody : ∀ x y s i j, cell (body x y s) i j =
      if i = x ∧ j = y then F i j (cell s i j) else cell s i j)
    (out : σ → List γ) (O : Nat → Nat → MonomeCell → List γ)
    (hout : ∀ x y s, out (body x y s) = out s ++ O x y (cell s x y))
    (w h : Nat) (s : σ) :
    out (forRange w (fun x => forRange h (fun y => body x y)) s) =
      out s ++ (List.range w).flatMap
        (fun x => (List.range h).flatMap (fun y => O x y (cell s x y))) :=
  forRange_output cell (fun k i j => i = k ∧ j < h) F _
    (fun k s i j => column_cell cell F body hbody k h s i j)
    (fun k k' i j h1 h2 => h1.1.symm.trans h2.1) out
    (fun k s => (List.range h).flatMap (fun y => O k y (cell s k y)))
    (fun k s => column_output cell F body hbody out O hout k h s)
    (fun k s s' hs => by
      show (List.range h).flatMap (fun y => O k y (cell s k y)) =
        (List.range h).flatMap (fun y => O k y (cell s' k y))
      apply List.flatMap_congr
      intro y hy
      rw [hs k y ⟨rfl, List.mem_range.mp hy⟩]) w s

/-! ## The command loop, cell by cell -/

theorem setCell_mGrid (g : MonomeGrid) (x y : Nat) (c : MonomeCell) (i j : Nat) :
    (g.setCell x y c).mGrid i j = if i = x ∧ j = y then c else g.mGrid i j := rfl

theorem writeLed_mGrid (state : LedState) (x y : Nat) (g : MonomeGrid) (i j : Nat) :
    (writeLed state x y g).mGrid i j =
      if i = x ∧ j = y then writeCell state (g.mGrid i j) else g.mGrid i j := by
  unfold writeLed writeCell
  by_cases h : i = x ∧ j = y
  · obtain ⟨rfl, rfl⟩ := h
    by_cases hw : bitAnd (g.mGrid i j).ledState 3 ≠ state.toInt <;> simp [hw, setCell_mGrid]
  · by_cases hw : bitAnd (g.mGrid x y).ledState 3 ≠ state.toInt <;> simp [hw, h, setCell_mGrid]

theorem writeLed_mWidth (state : LedState) (x y : Nat) (g : MonomeGrid) :
    (writeLed state x y g).mWidth = g.mWidth := by
  unfold writeLed; split <;> rfl

theorem writeLed_mHeight (state : LedState) (x y : Nat) (g : MonomeGrid) :
    (writeLed state x y g).mHeight = g.mHeight := by
  unfold writeLed; split <;> rfl

theorem writeLed_mCommandsBuffer (state : LedState) (x y : Nat) (g : MonomeGrid) :
    (writeLed state x y g).mCommandsBuffer = g.mCommandsBuffer := by
  unfold writeLed; split <;> rfl

/-- A loop of conditional writes along one column visits the cells of that column below the
bound. -/
theorem writeColumn_mGrid (state : LedState) (x n : Nat) (g : MonomeGrid) (i j : Nat) :
    (forRange n (fun y => writeLed state x y) g).mGrid i j =
      if i = x ∧ j < n then writeCell state (g.mGrid i j) else g.mGrid i j := by
  by_cases h : i = x ∧ j < n
  · rw [if_pos h]
    exact forRange_cell_touched MonomeGrid.mGrid (fun k i j => i = x ∧ j = k)
      (fun _ _ => writeCell state) _ (fun k s i j => writeLed_mGrid state x k s i j)
      (fun k k' i j h1 h2 => h1.2.symm.trans h2.2) n g i j j h.2 ⟨h.1, rfl⟩
  · rw [if_neg h]
    exact forRange_cell_other MonomeGrid.mGrid (fun k i j => i = x ∧ j = k)
      (fun _ _ => writeCell state) _ (fun k s i j => writeLed_mGrid state x k s i j)
      n g i j (fun k hk hl => h ⟨hl.1, hl.2 ▸ hk⟩)

/-- A loop of conditional writes along one row visits the cells of that row below the bound. -/
theorem writeRow_mGrid (state : LedState) (y n : Nat) (g : MonomeGrid) (i j : Nat) :
    (forRange n (fun x => writeLed state x y) g).mGrid i j =
      if i < n ∧ j = y then writeCell state (g.mGrid i j) else g.mGrid i j := by
  by_cases h : i < n ∧ j = y
  · rw [if_pos h]
    exact forRange_cell_touched MonomeGrid.mGrid (fun k i j => i = k ∧ j = y)
      (fun _ _ => writeCell state) _ (fun k s i j => writeLed_mGrid state k y s i j)
      (fun k k' i j h1 h2 => h1.1.symm.trans h2.1) n g i j i h.1 ⟨rfl, h.2⟩
  · rw [if_neg h]
    exact forRange_cell_other MonomeGrid.mGrid (fun k i j => i = k ∧ j = y)
      (fun _ _ => writeCell state) _ (fun k s i j => writeLed_mGrid state k y s i j)
      n g i j (fun k hk hl => h ⟨hl.1 ▸ hk, hl.2⟩)

/-- The two nested loops of the `ALL_LEDS` case visit every cell below the two bounds. -/
theorem writeAll_mGrid (state : LedState) (w h : Nat) (g : MonomeGrid) (i j : Nat) :
    (forRange w (fun x => forRange h (fun y => writeLed state x y)) g).mGrid i j =
      if i < w ∧ j < h then writeCell state (g.mGrid i j) else g.mGrid i j := by
  have hbody : ∀ k s i j, (forRange h (fun y => writeLed state k y) s).mGrid i j =
      if i = k ∧ j < h then writeCell state (s.mGrid i j) else s.mGrid i j :=
    fun k s i j => writeColumn_mGrid state k h s i j
  by_cases hc : i < w ∧ j < h
  · rw [if_pos hc]
    exact forRange_cell_touched MonomeGrid.mGrid (fun k i j => i = k ∧ j < h)
      (fun _ _ => writeCell state) _ hbody
      (fun k k' i j h1 h2 => h1.1.symm.trans h2.1) w g i j i hc.1 ⟨rfl, hc.2⟩
  · rw [if_neg hc]
    exact forRange_cell_other MonomeGrid.mGrid (fun k i j => i = k ∧ j < h)
      (fun _ _ => writeCell state) _ hbody
      w g i j (fun k hk hl => hc ⟨hl.1 ▸ hk, hl.2⟩)

/-- What a command does to each cell: a conditional write of the cells it visits, nothing to
the others. -/
theorem applyCommand_mGrid (g : MonomeGrid) (cmd : MonomeCommand) (i j : Nat) :
    (applyCommand g cmd).mGrid i j =
      if cmd.targets g.mWidth g.mHeight i j then writeCell cmd.state (g.mGrid i j)
      else g.mGrid i j := by
  cases cmd with
  | SET_LED x y state => exact writeLed_mGrid state x y g i j
  | ALL_LEDS state => exact writeAll_mGrid state g.mWidth g.mHeight g i j
  | SET_COLUMN x state => exact writeColumn_mGrid state x g.mHeight g i j
  | SET_ROW y state => exact writeRow_mGrid state y g.mWidth g i j

theorem applyCommand_mWidth (g : MonomeGrid) (cmd : MonomeCommand) :
    (applyCommand g cmd).mWidth = g.mWidth := by
  cases cmd with
  | SET_LED x y state => exact writeLed_mWidth state x y g
  | ALL_LEDS state =>
    exact forRange_preserve MonomeGrid.mWidth _
      (fun k s => forRange_preserve MonomeGrid.mWidth _
        (fun k' s' => writeLed_mWidth state k k' s') _ s) _ g
  | SET_COLUMN x state =>
    exact forRange_preserve MonomeGrid.mWidth _ (fun k s => writeLed_mWidth state x k s) _ g
  | SET_ROW y state =>
    exact forRange_preserve MonomeGrid.mWidth _ (fun k s => writeLed_mWidth state k y s) _ g

theorem applyCommand_mHeight (g : MonomeGrid) (cmd : MonomeCommand) :
    (applyCommand g cmd).mHeight = g.mHeight := by
  cases cmd with
  | SET_LED x y state => exact writeLed_mHeight state x y g
  | ALL_LEDS state =>
    exact forRange_preserve MonomeGrid.mHeight _
      (fun k s => forRange_preserve MonomeGrid.mHeight _
        (fun k' s' => writeLed_mHeight state k k' s') _ s) _ g
  | SET_COLUMN x state =>
    exact forRange_preserve MonomeGrid.mHeight _ (fun k s => writeLed_mHeight state x k s) _ g
  | SET_ROW y state =>
    exact forRange_preserve MonomeGrid.mHeight _ (fun k s => writeLed_mHeight state k y s) _ g

/-! ## The render loops, cell by cell -/

theorem renderCell_mGrid (x y : Nat) (s : MonomeGrid × List LedSet) (i j : Nat) :
    (renderCell x y s).1.mGrid i j =
      if i = x ∧ j = y then (renderCellValue (s.1.mGrid i j)).1 else s.1.mGrid i j := by
  by_cases h : i = x ∧ j = y
  · obtain ⟨rfl, rfl⟩ := h
    unfold renderCell renderCellValue
    by_cases hg : (s.1.mGrid i j).ledState ≠ (s.1.mGrid i j).lastLedState
    · rcases bitAnd_three_cases (s.1.mGrid i j).ledState with h0 | h0 | h0 | h0 <;>
        by_cases hl : bitAnd (s.1.mGrid i j).lastLedState 3 = bitAnd (s.1.mGrid i j).ledState 3 <;>
        simp [hg, h0, hl, h0 ▸ hl, LedState.toInt, setCell_mGrid, handleLedBlinkLinear,
          resetBlinkingBits]
    · simp [hg]
  · unfold renderCell
    by_cases hg : (s.1.mGrid x y).ledState ≠ (s.1.mGrid x y).lastLedState
    · rcases bitAnd_three_cases (s.1.mGrid x y).ledState with h0 | h0 | h0 | h0 <;>
        by_cases hl : bitAnd (s.1.mGrid x y).lastLedState 3 = bitAnd (s.1.mGrid x y).ledState 3 <;>
        simp [hg, h0, hl, h0 ▸ hl, h, LedState.toInt, setCell_mGrid, handleLedBlinkLinear,
          resetBlinkingBits]
    · simp [hg, h]

theorem renderCell_leds (x y : Nat) (s : MonomeGrid × List LedSet) :
    (renderCell x y s).2 =
      s.2 ++ (renderCellValue (s.1.mGrid x y)).2.map (fun b => { x := x, y := y, brightness := b }) := by
  unfold renderCell renderCellValue
  by_cases hg : (s.1.mGrid x y).ledState ≠ (s.1.mGrid x y).lastLedState
  · rcases bitAnd_three_cases (s.1.mGrid x y).ledState with h0 | h0 | h0 | h0 <;>
      by_cases hl : bitAnd (s.1.mGrid x y).lastLedState 3 = bitAnd (s.1.mGrid x y).ledState 3 <;>
      simp [hg, h0, hl, h0 ▸ hl, LedState.toInt, setCell_mGrid, handleLedBlinkLinear,
        resetBlinkingBits]
  · simp [hg]

theorem renderCell_mWidth (x y : Nat) (s : MonomeGrid × List LedSet) :
    (renderCell x y s).1.mWidth = s.1.mWidth := by
  unfold renderCell
  by_cases hg : (s.1.mGrid x y).ledState ≠ (s.1.mGrid x y).lastLedState
  · simp only [hg, if_true]
    repeat' split
    all_goals rfl
  · simp [hg]

theorem renderCell_mHeight (x y : Nat) (s : MonomeGrid × List LedSet) :
    (renderCell x y s).1.mHeight = s.1.mHeight := by
  unfold renderCell
  by_cases hg : (s.1.mGrid x y).ledState ≠ (s.1.mGrid x y).lastLedState
  · simp only [hg, if_true]
    repeat' split
    all_goals rfl
  · simp [hg]

theorem renderCell_mCommandsBuffer (x y : Nat) (s : MonomeGrid × List LedSet) :
    (renderCell x y s).1.mCommandsBuffer = s.1.mCommandsBuffer := by
  unfold renderCell
  by_cases hg : (s.1.mGrid x y).ledState ≠ (s.1.mGrid x y).lastLedState
  · simp only [hg, if_true]
    repeat' split
    all_goals rfl
  · simp [hg]

/-- The inner render loop, as the loop over `y < mHeight`, when the 8-bit counter can count up
to `mHeight`. -/
theorem renderColumn_eq (x fuel : Nat) (s : MonomeGrid × List LedSet)
    (hH : s.1.mHeight ≤ 255) (hfuel : s.1.mHeight < fuel) :
    renderColumn x fuel 0 s = some (forRange s.1.mHeight (fun y => renderCell x y) s) := by
  have hpres : ∀ k, (forRange k (fun y => renderCell x y) s).1.mHeight = s.1.mHeight :=
    fun k => forRange_preserve (fun t : MonomeGrid × List LedSet => t.1.mHeight) _
      (fun k' t => renderCell_mHeight x k' t) k s
  have key : ∀ k, k ≤ s.1.mHeight →
      renderColumn x fuel 0 s =
        renderColumn x (fuel - k) k (forRange k (fun y => renderCell x y) s) := by
    intro k
    induction k with
    | zero => intro _; rfl
    | succ k ih =>
      intro hk
      rw [ih (by omega)]
      obtain ⟨f, hf⟩ : ∃ f, fuel - k = f + 1 := ⟨fuel - k - 1, by omega⟩
      have hf2 : fuel - (k + 1) = f := by omega
      rw [hf, hf2, renderColumn, hpres k, if_pos (by omega), forRange_succ]
      have : incU8 k = k + 1 := by unfold incU8; omega
      rw [this]
  rw [key s.1.mHeight (le_refl _)]
  obtain ⟨f, hf⟩ : ∃ f, fuel - s.1.mHeight = f + 1 := ⟨fuel - s.1.mHeight - 1, by omega⟩
  rw [hf, renderColumn, hpres, if_neg (by omega)]

/-- The outer render loop, as the nested loops over `x < mWidth` and `y < mHeight`, when the
8-bit counters can count up to `mWidth` and `mHeight`. -/
theorem renderColumns_eq (fuel0 fuel : Nat) (s : MonomeGrid × List LedSet)
    (hW : s.1.mWidth ≤ 255) (hH : s.1.mHeight ≤ 255)
    (hfuel0 : s.1.mHeight < fuel0) (hfuel : s.1.mWidth < fuel) :
    renderColumns fuel0 fuel 0 s =
      some (forRange s.1.mWidth
        (fun x => forRange s.1.mHeight (fun y => renderCell x y)) s) := by
  have hpresH : ∀ k, (forRange k
      (fun x => forRange s.1.mHeight (fun y => renderCell x y)) s).1.mHeight = s.1.mHeight :=
    fun k => forRange_preserve (fun t : MonomeGrid × List LedSet => t.1.mHeight) _
      (fun k' t => forRange_preserve (fun t : MonomeGrid × List LedSet => t.1.mHeight) _
        (fun k'' t' => renderCell_mHeight k' k'' t') _ t) k s
  have hpresW : ∀ k, (forRange k
      (fun x => forRange s.1.mHeight (fun y => renderCell x y)) s).1.mWidth = s.1.mWidth :=
    fun k => forRange_preserve (fun t : MonomeGrid × List LedSet => t.1.mWidth) _
      (fun k' t => forRange_preserve (fun t : MonomeGrid × List LedSet => t.1.mWidth) _
        (fun k'' t' => renderCell_mWidth k' k'' t') _ t) k s
  have key : ∀ k, k ≤ s.1.mWidth →
      renderColumns fuel0 fuel 0 s =
        renderColumns fuel0 (fuel - k) k
          (forRange k (fun x => forRange s.1.mHeight (fun y => renderCell x y)) s) := by
    intro k
    induction k with
    | zero => intro _; rfl
    | succ k ih =>
      intro hk
      rw [ih (by omega)]
      obtain ⟨f, hf⟩ : ∃ f, fuel - k = f + 1 := ⟨fuel - k - 1, by omega⟩
      have hf2 : fuel - (k + 1) = f := by omega
      rw [hf, hf2, renderColumns, hpresW k, if_pos (by omega),
        renderColumn_eq k fuel0 _ (by rw [hpresH]; exact hH) (by rw [hpresH]; exact hfuel0),
        hpresH k, forRange_succ]
      have : incU8 k = k + 1 := by unfold incU8; omega
      rw [this]; rfl
  rw [key s.1.mWidth (le_refl _)]
  obtain ⟨f, hf⟩ : ∃ f, fuel - s.1.mWidth = f + 1 := ⟨fuel - s.1.mWidth - 1, by omega⟩
  rw [hf, renderColumns, hpresW, if_neg (by omega)]

theorem renderAll_mGrid (g : MonomeGrid) (i j : Nat) :
    (renderAll g).1.mGrid i j =
      if i < g.mWidth ∧ j < g.mHeight then (renderCellValue (g.mGrid i j)).1
      else g.mGrid i j :=
  nested_cell (fun t : MonomeGrid × List LedSet => t.1.mGrid)
    (fun _ _ c => (renderCellValue c).1) renderCell renderCell_mGrid g.mWidth g.mHeight (g, []) i j

theorem renderAll_leds (g : MonomeGrid) : (renderAll g).2 = renderLeds g := by
  have h := nested_output (fun t : MonomeGrid × List LedSet => t.1.mGrid)
    (fun _ _ c => (renderCellValue c).1) renderCell renderCell_mGrid
    (fun t : MonomeGrid × List LedSet => t.2)
    (fun x y c => (renderCellValue c).2.map fun b => { x := x, y := y, brightness := b })
    renderCell_leds g.mWidth g.mHeight (g, [])
  simpa [renderAll, renderLeds] using h

theorem renderAll_mWidth (g : MonomeGrid) : (renderAll g).1.mWidth = g.mWidth :=
  forRange_preserve (fun t : MonomeGrid × List LedSet => t.1.mWidth) _
    (fun k' t => forRange_preserve (fun t : MonomeGrid × List LedSet => t.1.mWidth) _
      (fun k'' t' => renderCell_mWidth k' k'' t') _ t) _ (g, [])

theorem renderAll_mHeight (g : MonomeGrid) : (renderAll g).1.mHeight = g.mHeight :=
  forRange_preserve (fun t : MonomeGrid × List LedSet => t.1.mHeight) _
    (fun k' t => forRange_preserve (fun t : MonomeGrid × List LedSet => t.1.mHeight) _
      (fun k'' t' => renderCell_mHeight k' k'' t') _ t) _ (g, [])

theorem renderAll_mCommandsBuffer (g : MonomeGrid) :
    (renderAll g).1.mCommandsBuffer = g.mCommandsBuffer :=
  forRange_preserve (fun t : MonomeGrid × List LedSet => t.1.mCommandsBuffer) _
    (fun k' t => forRange_preserve (fun t : MonomeGrid × List LedSet => t.1.mCommandsBuffer) _
      (fun k'' t' => renderCell_mCommandsBuffer k' k'' t') _ t) _ (g, [])

/-- The render pass exits, with the result of the loops over `x < mWidth` and `y < mHeight`,
when both bounds fit the 8-bit counters. -/
theorem renderPass_eq (fuel : Nat) (g : MonomeGrid) (hW : g.mWidth ≤ 255)
    (hH : g.mHeight ≤ 255) (hfuel : 256 ≤ fuel) : renderPass fuel g = some (renderAll g) :=
  renderColumns_eq fuel fuel (g, []) hW hH (by show g.mHeight < fuel; omega)
    (by show g.mWidth < fuel; omega)

/-! ## Callbacks and the long-press scan -/

theorem enqueue_mGrid (g : MonomeGrid) (cmd : MonomeCommand) : (enqueue g cmd).mGrid = g.mGrid :=
  rfl

theorem runCallback_mGrid (g : MonomeGrid) (calls : List MonomeCommand) :
    (runCallback g calls).mGrid = g.mGrid := by
  unfold runCallback
  induction calls generalizing g with
  | nil => rfl
  | cons c cs ih => rw [List.foldl_cons, ih]; rfl

theorem runCallback_mWidth (g : MonomeGrid) (calls : List MonomeCommand) :
    (runCallback g calls).mWidth = g.mWidth := by
  unfold runCallback
  induction calls generalizing g with
  | nil => rfl
  | cons c cs ih => rw [List.foldl_cons, ih]; rfl

theorem runCallback_mHeight (g : MonomeGrid) (calls : List MonomeCommand) :
    (runCallback g calls).mHeight = g.mHeight := by
  unfold runCallback
  induction calls generalizing g with
  | nil => rfl
  | cons c cs ih => rw [List.foldl_cons, ih]; rfl

theorem longPressCell_mGrid (cb : TouchCallback) (now : Int) (x y : Nat)
    (s : MonomeGrid × List Touch) (i j : Nat) :
    (longPressCell cb now x y s).1.mGrid i j =
      if i = x ∧ j = y then longPressCellValue now (s.1.mGrid i j) else s.1.mGrid i j := by
  unfold longPressCell longPressCellValue
  by_cases h : i = x ∧ j = y
  · obtain ⟨rfl, rfl⟩ := h
    by_cases h1 : (s.1.mGrid i j).buttonState = ButtonState.TOUCH_DOWN <;>
      by_cases h2 : exceedsLongPressTime (secondsCount (now - (s.1.mGrid i j).buttonDownTime))
        = true <;>
      simp [h1, h2, runCallback_mGrid, setCell_mGrid]
  · by_cases h1 : (s.1.mGrid x y).buttonState = ButtonState.TOUCH_DOWN <;>
      by_cases h2 : exceedsLongPressTime (secondsCount (now - (s.1.mGrid x y).buttonDownTime))
        = true <;>
      simp [h1, h2, h, runCallback_mGrid, setCell_mGrid]

theorem longPressCell_touches (cb : TouchCallback) (now : Int) (x y : Nat)
    (s : MonomeGrid × List Touch) :
    (longPressCell cb now x y s).2 = s.2 ++
      (if (s.1.mGrid x y).buttonState = ButtonState.TOUCH_DOWN ∧
          exceedsLongPressTime (secondsCount (now - (s.1.mGrid x y).buttonDownTime)) = true then
        [{ x := x, y := y, state := ButtonState.TOUCH_LONG }]
      else []) := by
  unfold longPressCell
  by_cases h1 : (s.1.mGrid x y).buttonState = ButtonState.TOUCH_DOWN <;>
    by_cases h2 : exceedsLongPressTime (secondsCount (now - (s.1.mGrid x y).buttonDownTime))
      = true <;>
    simp [h1, h2]

theorem longPressCell_mWidth (cb : TouchCallback) (now : Int) (x y : Nat)
    (s : MonomeGrid × List Touch) : (longPressCell cb now x y s).1.mWidth = s.1.mWidth := by
  unfold longPressCell
  split
  · split
    · exact runCallback_mWidth _ _
    · rfl
  · rfl

theorem longPressCell_mHeight (cb : TouchCallback) (now : Int) (x y : Nat)
    (s : MonomeGrid × List Touch) : (longPressCell cb now x y s).1.mHeight = s.1.mHeight := by
  unfold longPressCell
  split
  · split
    · exact runCallback_mHeight _ _
    · rfl
  · rfl

theorem longPressScan_mGrid (cb : TouchCallback) (now : Int) (g : MonomeGrid) (i j : Nat) :
    (longPressScan cb now g).1.mGrid i j =
      if i < g.mWidth ∧ j < g.mHeight then longPressCellValue now (g.mGrid i j)
      else g.mGrid i j :=
  nested_cell (fun t : MonomeGrid × List Touch => t.1.mGrid)
    (fun _ _ c => longPressCellValue now c) (longPressCell cb now)
    (longPressCell_mGrid cb now) g.mWidth g.mHeight (g, []) i j

theorem longPressScan_touches (cb : TouchCallback) (now : Int) (g : MonomeGrid) :
    (longPressScan cb now g).2 = scanTouches now g := by
  have h := nested_output (fun t : MonomeGrid × List Touch => t.1.mGrid)
    (fun _ _ c => longPressCellValue now c) (longPressCell cb now)
    (longPressCell_mGrid cb now)
    (fun t : MonomeGrid × List Touch => t.2)
    (fun x y c => if c.buttonState = ButtonState.TOUCH_DOWN ∧
        exceedsLongPressTime (secondsCount (now - c.buttonDownTime)) = true then
        [{ x := x, y := y, state := ButtonState.TOUCH_LONG }] else [])
    (longPressCell_touches cb now) g.mWidth g.mHeight (g, [])
  simpa [longPressScan, scanTouches] using h

theorem longPressScan_mWidth (cb : TouchCallback) (now : Int) (g : MonomeGrid) :
    (longPressScan cb now g).1.mWidth = g.mWidth :=
  forRange_preserve (fun t : MonomeGrid × List Touch => t.1.mWidth) _
    (fun k' t => forRange_preserve (fun t : MonomeGrid × List Touch => t.1.mWidth) _
      (fun k'' t' => longPressCell_mWidth cb now k' k'' t') _ t) _ (g, [])

theorem longPressScan_mHeight (cb : TouchCallback) (now : Int) (g : MonomeGrid) :
    (longPressScan cb now g).1.mHeight = g.mHeight :=
  forRange_preserve (fun t : MonomeGrid × List Touch => t.1.mHeight) _
    (fun k' t => forRange_preserve (fun t : MonomeGrid × List Touch => t.1.mHeight) _
      (fun k'' t' => longPressCell_mHeight cb now k' k'' t') _ t) _ (g, [])

/-! ## One tick, cell by cell -/

theorem foldl_applyCommand_mWidth (cmds : List MonomeCommand) (g : MonomeGrid) :
    (cmds.foldl applyCommand g).mWidth = g.mWidth := by
  induction cmds generalizing g with
  | nil => rfl
  | cons c cs ih => rw [List.foldl_cons, ih, applyCommand_mWidth]

theorem foldl_applyCommand_mHeight (cmds : List MonomeCommand) (g : MonomeGrid) :
    (cmds.foldl applyCommand g).mHeight = g.mHeight := by
  induction cmds generalizing g with
  | nil => rfl
  | cons c cs ih => rw [List.foldl_cons, ih, applyCommand_mHeight]

theorem foldl_applyCommand_mGrid (cmds : List MonomeCommand) (g : MonomeGrid) (i j : Nat) :
    (cmds.foldl applyCommand g).mGrid i j =
      applyCell g.mWidth g.mHeight cmds i j (g.mGrid i j) := by
  induction cmds generalizing g with
  | nil => rfl
  | cons c cs ih =>
    rw [List.foldl_cons, ih, applyCommand_mWidth, applyCommand_mHeight, applyCommand_mGrid]
    rfl

theorem executeCommands_mGrid (g : MonomeGrid) (i j : Nat) :
    (executeCommands g).mGrid i j =
      applyCell g.mWidth g.mHeight g.mCommandsBuffer i j (g.mGrid i j) :=
  foldl_applyCommand_mGrid g.mCommandsBuffer g i j

theorem executeCommands_mWidth (g : MonomeGrid) : (executeCommands g).mWidth = g.mWidth :=
  foldl_applyCommand_mWidth g.mCommandsBuffer g

theorem executeCommands_mHeight (g : MonomeGrid) : (executeCommands g).mHeight = g.mHeight :=
  foldl_applyCommand_mHeight g.mCommandsBuffer g

theorem afterCommands_mWidth (rcb : List MonomeCommand) (cb : TouchCallback) (now : Int)
    (g : MonomeGrid) : (afterCommands rcb cb now g).mWidth = g.mWidth := by
  unfold afterCommands
  rw [executeCommands_mWidth, longPressScan_mWidth, runCallback_mWidth]

theorem afterCommands_mHeight (rcb : List MonomeCommand) (cb : TouchCallback) (now : Int)
    (g : MonomeGrid) : (afterCommands rcb cb now g).mHeight = g.mHeight := by
  unfold afterCommands
  rw [executeCommands_mHeight, longPressScan_mHeight, runCallback_mHeight]

/-- Between the command drain and the render pass, a cell holds the conditional writes of the
drained records applied to what the long-press scan left. -/
theorem afterCommands_mGrid (rcb : List MonomeCommand) (cb : TouchCallback) (now : Int)
    (g : MonomeGrid) (i j : Nat) :
    (afterCommands rcb cb now g).mGrid i j =
      applyCell g.mWidth g.mHeight (drained rcb cb now g) i j
        (if i < g.mWidth ∧ j < g.mHeight then longPressCellValue now (g.mGrid i j)
         else g.mGrid i j) := by
  unfold afterCommands drained
  rw [executeCommands_mGrid, longPressScan_mWidth, longPressScan_mHeight, longPressScan_mGrid,
    runCallback_mWidth, runCallback_mHeight, runCallback_mGrid]

/-- A tick on a grid whose width and height fit the 8-bit render counters returns, with the
result that `tickResult` describes. -/
theorem updateGrid_eq (fuel : Nat) (rcb : List MonomeCommand) (cb : TouchCallback) (now : Int)
    (g : MonomeGrid) (hW : g.mWidth ≤ 255) (hH : g.mHeight ≤ 255) (hfuel : 256 ≤ fuel) :
    updateGrid fuel rcb cb now g = some (tickResult rcb cb now g) := by
  have h := renderPass_eq fuel (afterCommands rcb cb now g)
    (by rw [afterCommands_mWidth]; exact hW) (by rw [afterCommands_mHeight]; exact hH) hfuel
  unfold afterCommands at h
  unfold updateGrid tickResult afterCommands
  simp only [h, Option.map_some']

theorem tickResult_mWidth (rcb : List MonomeCommand) (cb : TouchCallback) (now : Int)
    (g : MonomeGrid) : (tickResult rcb cb now g).1.mWidth = g.mWidth := by
  unfold tickResult
  rw [renderAll_mWidth, afterCommands_mWidth]

theorem tickResult_mHeight (rcb : List MonomeCommand) (cb : TouchCallback) (now : Int)
    (g : MonomeGrid) : (tickResult rcb cb now g).1.mHeight = g.mHeight := by
  unfold tickResult
  rw [renderAll_mHeight, afterCommands_mHeight]

theorem tickResult_mCommandsBuffer (rcb : List MonomeCommand) (cb : TouchCallback) (now : Int)
    (g : MonomeGrid) : (tickResult rcb cb now g).1.mCommandsBuffer = [] := by
  unfold tickResult
  rw [renderAll_mCommandsBuffer]
  rfl

/-- After a tick, a cell inside the grid holds the render step of what the command drain left
in it. -/
theorem tickResult_mGrid (rcb : List MonomeCommand) (cb : TouchCallback) (now : Int)
    (g : MonomeGrid) (i j : Nat) (hi : i < g.mWidth) (hj : j < g.mHeight) :
    (tickResult rcb cb now g).1.mGrid i j =
      (renderCellValue ((afterCommands rcb cb now g).mGrid i j)).1 := by
  unfold tickResult
  rw [renderAll_mGrid, afterCommands_mWidth, afterCommands_mHeight, if_pos ⟨hi, hj⟩]

theorem tickResult_leds (rcb : List MonomeCommand) (cb : TouchCallback) (now : Int)
    (g : MonomeGrid) :
    (tickResult rcb cb now g).2.leds = renderLeds (afterCommands rcb cb now g) :=
  renderAll_leds _

theorem tickResult_touches (rcb : List MonomeCommand) (cb : TouchCallback) (now : Int)
    (g : MonomeGrid) :
    (tickResult rcb cb now g).2.touches = scanTouches now (runCallback g rcb) :=
  longPressScan_touches _ _ _

/-! ## Cell-level facts -/

theorem toInt_low (st : LedState) : bitAnd st.toInt 3 = st.toInt := by
  cases st <;> decide

theorem writeCell_logical (st : LedState) (c : MonomeCell) :
    (writeCell st c).logical = st.toInt := by
  unfold writeCell MonomeCell.logical
  by_cases h : bitAnd c.ledState 3 = st.toInt
  · simp [h]
  · simp [h, toInt_low]

theorem writeCell_same (st : LedState) (c : MonomeCell) (h : c.logical = st.toInt) :
    writeCell st c = c := by
  unfold writeCell
  unfold MonomeCell.logical at h
  simp [h]

theorem writeCell_lastLedState (st : LedState) (c : MonomeCell) :
    (writeCell st c).lastLedState = c.lastLedState := by
  unfold writeCell; split <;> rfl

theorem writeCell_buttonState (st : LedState) (c : MonomeCell) :
    (writeCell st c).buttonState = c.buttonState := by
  unfold writeCell; split <;> rfl

theorem writeCell_buttonDownTime (st : LedState) (c : MonomeCell) :
    (writeCell st c).buttonDownTime = c.buttonDownTime := by
  unfold writeCell; split <;> rfl

theorem applyCell_nil (w h i j : Nat) (c : MonomeCell) : applyCell w h [] i j c = c := rfl

theorem applyCell_cons (w h : Nat) (cmd : MonomeCommand) (cmds : List MonomeCommand)
    (i j : Nat) (c : MonomeCell) :
    applyCell w h (cmd :: cmds) i j c =
      applyCell w h cmds i j (if cmd.targets w h i j then writeCell cmd.state c else c) := rfl

theorem applyCell_append (w h : Nat) (cs ds : List MonomeCommand) (i j : Nat)
    (c : MonomeCell) :
    applyCell w h (cs ++ ds) i j c = applyCell w h ds i j (applyCell w h cs i j c) := by
  unfold applyCell; rw [List.foldl_append]

/-- A cell that no command of the sequence visits is left as it was. -/
theorem applyCell_untargeted (w h : Nat) (cmds : List MonomeCommand) (i j : Nat)
    (c : MonomeCell) (hno : ∀ cmd ∈ cmds, ¬ cmd.targets w h i j) :
    applyCell w h cmds i j c = c := by
  induction cmds generalizing c with
  | nil => rfl
  | cons d ds ih =>
    rw [applyCell_cons, if_neg (hno d (List.mem_cons_self _ _))]
    exact ih c fun cmd hc => hno cmd (List.mem_cons_of_mem _ hc)

/-- The logical state a sequence of commands leaves in a cell is the state of the last
command that visits the cell. -/
theorem applyCell_last (w h : Nat) (cmds : List MonomeCommand) (i j : Nat) (c : MonomeCell)
    (cmd : MonomeCommand)
    (hlast : (cmds.filter fun d => decide (d.targets w h i j)).getLast? = some cmd) :
    (applyCell w h cmds i j c).logical = cmd.state.toInt := by
  induction cmds generalizing c with
  | nil => simp at hlast
  | cons d ds ih =>
    rw [applyCell_cons]
    by_cases ht : d.targets w h i j
    · rw [if_pos ht]
      rw [List.filter_cons_of_pos (by simpa using ht)] at hlast
      cases hf : ds.filter (fun d => decide (d.targets w h i j)) with
      | nil =>
        rw [hf] at hlast
        simp only [List.getLast?_singleton, Option.some.injEq] at hlast
        subst hlast
        rw [applyCell_untargeted w h ds i j _ (fun e he hte => by
          have : e ∈ ds.filter (fun d => decide (d.targets w h i j)) :=
            List.mem_filter.mpr ⟨he, by simpa using hte⟩
          rw [hf] at this
          exact List.not_mem_nil _ this)]
        exact writeCell_logical _ _
      | cons e es =>
        rw [hf, List.getLast?_cons_cons] at hlast
        exact ih _ (by rw [hf]; exact hlast)
    · rw [if_neg ht]
      rw [List.filter_cons_of_neg (by simpa using ht)] at hlast
      exact ih _ hlast

theorem applyCell_lastLedState (w h : Nat) (cmds : List MonomeCommand) (i j : Nat)
    (c : MonomeCell) : (applyCell w h cmds i j c).lastLedState = c.lastLedState := by
  induction cmds generalizing c with
  | nil => rfl
  | cons d ds ih =>
    rw [applyCell_cons, ih]
    split
    · exact writeCell_lastLedState _ _
    · rfl

theorem applyCell_buttonState (w h : Nat) (cmds : List MonomeCommand) (i j : Nat)
    (c : MonomeCell) : (applyCell w h cmds i j c).buttonState = c.buttonState := by
  induction cmds generalizing c with
  | nil => rfl
  | cons d ds ih =>
    rw [applyCell_cons, ih]
    split
    · exact writeCell_buttonState _ _
    · rfl

theorem applyCell_buttonDownTime (w h : Nat) (cmds : List MonomeCommand) (i j : Nat)
    (c : MonomeCell) : (applyCell w h cmds i j c).buttonDownTime = c.buttonDownTime := by
  induction cmds generalizing c with
  | nil => rfl
  | cons d ds ih =>
    rw [applyCell_cons, ih]
    split
    · exact writeCell_buttonDownTime _ _
    · rfl

/-- The conditional writes read only `ledState`: cells with equal `ledState` get equal
`ledState`. -/
theorem applyCell_ledState_congr (w h : Nat) (cmds : List MonomeCommand) (i j : Nat)
    (c c' : MonomeCell) (hc : c.ledState = c'.ledState) :
    (applyCell w h cmds i j c).ledState = (applyCell w h cmds i j c').ledState := by
  induction cmds generalizing c c' with
  | nil => exact hc
  | cons d ds ih =>
    rw [applyCell_cons, applyCell_cons]
    apply ih
    split
    · unfold writeCell; rw [hc]; split <;> first | rfl | exact hc
    · exact hc

/-- The render step keeps the logical state of the cell. -/
theorem renderCellValue_logical (c : MonomeCell) :
    (renderCellValue c).1.logical = c.logical := by
  unfold renderCellValue MonomeCell.logical
  by_cases hg : c.ledState ≠ c.lastLedState
  · rcases bitAnd_three_cases c.ledState with h0 | h0 | h0 | h0
    · simp [hg, h0]
    · simp [hg, h0]
    · by_cases hl : bitAnd c.lastLedState 3 = 2
      · simp only [hg, h0, hl, if_true, ne_eq, not_true_eq_false, if_false]
        norm_num
        rw [handleLedBlinkLinearValue_low _ (Or.inl h0), h0]
      · simp only [hg, h0, hl, if_true, ne_eq, not_false_eq_true, if_false]
        norm_num
        rw [resetBlinkingBitsValue_fast _ h0]
        decide
    · by_cases hl : bitAnd c.lastLedState 3 = 3
      · simp only [hg, h0, hl, if_true, ne_eq, not_true_eq_false, if_false]
        norm_num
        rw [handleLedBlinkLinearValue_low _ (Or.inr h0), h0]
      · simp only [hg, h0, hl, if_true, ne_eq, not_false_eq_true, if_false]
        norm_num
        rw [resetBlinkingBitsValue_slow _ h0]
        decide
  · simp [hg]

theorem longPressCellValue_ledState (now : Int) (c : MonomeCell) :
    (longPressCellValue now c).ledState = c.ledState := by
  unfold longPressCellValue; split <;> rfl

theorem longPressCellValue_lastLedState (now : Int) (c : MonomeCell) :
    (longPressCellValue now c).lastLedState = c.lastLedState := by
  unfold longPressCellValue; split <;> rfl

/-! ## Command application within a tick -/

theorem longPressCell_silent_mCommandsBuffer (now : Int) (x y : Nat)
    (s : MonomeGrid × List Touch) :
    (longPressCell silent now x y s).1.mCommandsBuffer = s.1.mCommandsBuffer := by
  unfold longPressCell
  split
  · split
    · rfl
    · rfl
  · rfl

/-- With a refresh callback and a touch callback that enqueue nothing, the records drained by
a tick are the records that were pending before it. -/
theorem drained_silent (now : Int) (g : MonomeGrid) :
    drained [] silent now g = g.mCommandsBuffer :=
  forRange_preserve (fun t : MonomeGrid × List Touch => t.1.mCommandsBuffer) _
    (fun k' t => forRange_preserve (fun t : MonomeGrid × List Touch => t.1.mCommandsBuffer) _
      (fun k'' t' => longPressCell_silent_mCommandsBuffer now k' k'' t') _ t) _ (g, [])

/-- After a tick, the logical state of a cell inside the grid is the logical state the drained
records leave in it. -/
theorem tickResult_logical (rcb : List MonomeCommand) (cb : TouchCallback) (now : Int)
    (g : MonomeGrid) (i j : Nat) (hi : i < g.mWidth) (hj : j < g.mHeight) :
    ((tickResult rcb cb now g).1.mGrid i j).logical =
      (applyCell g.mWidth g.mHeight (drained rcb cb now g) i j (g.mGrid i j)).logical := by
  rw [tickResult_mGrid rcb cb now g i j hi hj, renderCellValue_logical, afterCommands_mGrid,
    if_pos ⟨hi, hj⟩]
  unfold MonomeCell.logical
  rw [applyCell_ledState_congr _ _ _ _ _ _ _ (longPressCellValue_ledState now (g.mGrid i j))]

/-- C1: one tick on a square grid (the grids whose in-range cells the constructor allocates)
with in-range records pending returns; it leaves the channel empty;
every cell of the grid is the render step of the conditional writes of the drained records,
folded once each in enqueue order; the logical state (`ledState & 3`) of a cell that some
drained record visits is the state of the last such record, and the logical state of a cell
that none visits is kept. With callbacks that enqueue nothing the drained records are the
pending ones. -/
theorem C1_last_write_wins (fuel : Nat) (rcb : List MonomeCommand) (cb : TouchCallback)
    (now : Int) (g : MonomeGrid) (hW : g.mWidth ≤ 255) (hH : g.mHeight ≤ 255)
    (_hsq : g.mWidth = g.mHeight) (hfuel : 256 ≤ fuel)
    (_hin : ∀ cmd ∈ drained rcb cb now g, cmd.inRange g.mWidth g.mHeight) :
    ∃ r, updateGrid fuel rcb cb now g = some r ∧
      r.1.mCommandsBuffer = [] ∧
      (rcb = [] → cb = silent → drained rcb cb now g = g.mCommandsBuffer) ∧
      ∀ i j, i < g.mWidth → j < g.mHeight →
        r.1.mGrid i j = (renderCellValue (applyCell g.mWidth g.mHeight (drained rcb cb now g)
          i j (longPressCellValue now (g.mGrid i j)))).1 ∧
        (∀ cmd, ((drained rcb cb now g).filter
            fun d => decide (d.targets g.mWidth g.mHeight i j)).getLast? = some cmd →
          (r.1.mGrid i j).logical = cmd.state.toInt) ∧
        ((∀ cmd ∈ drained rcb cb now g, ¬ cmd.targets g.mWidth g.mHeight i j) →
          (r.1.mGrid i j).logical = (g.mGrid i j).logical) := by
  refine ⟨tickResult rcb cb now g, updateGrid_eq fuel rcb cb now g hW hH hfuel,
    tickResult_mCommandsBuffer rcb cb now g, ?_, ?_⟩
  · rintro rfl rfl
    exact drained_silent now g
  · intro i j hi hj
    refine ⟨?_, ?_, ?_⟩
    · rw [tickResult_mGrid rcb cb now g i j hi hj, afterCommands_mGrid, if_pos ⟨hi, hj⟩]
    · intro cmd hlast
      rw [tickResult_logical rcb cb now g i j hi hj]
      exact applyCell_last _ _ _ _ _ _ cmd hlast
    · intro hno
      rw [tickResult_logical rcb cb now g i j hi hj, applyCell_untargeted _ _ _ _ _ _ hno]

/-- C1 at a 2 x 2 grid with three records pending, two of them for cell (0, 0). -/
theorem C1_last_write_wins_witness :
    (pendingGrid.mWidth ≤ 255 ∧ pendingGrid.mHeight ≤ 255 ∧
      pendingGrid.mWidth = pendingGrid.mHeight ∧
      ∀ cmd ∈ drained [] silent 0 pendingGrid,
        cmd.inRange pendingGrid.mWidth pendingGrid.mHeight) ∧
    ∃ r, updateGrid 256 [] silent 0 pendingGrid = some r ∧
      r.1.mCommandsBuffer = [] ∧
      ([] = ([] : List MonomeCommand) → silent = silent →
        drained [] silent 0 pendingGrid = pendingGrid.mCommandsBuffer) ∧
      ∀ i j, i < pendingGrid.mWidth → j < pendingGrid.mHeight →
        r.1.mGrid i j = (renderCellValue (applyCell pendingGrid.mWidth pendingGrid.mHeight
          (drained [] silent 0 pendingGrid) i j (longPressCellValue 0 (pendingGrid.mGrid i j)))).1 ∧
        (∀ cmd, ((drained [] silent 0 pendingGrid).filter
            fun d => decide (d.targets pendingGrid.mWidth pendingGrid.mHeight i j)).getLast?
              = some cmd →
          (r.1.mGrid i j).logical = cmd.state.toInt) ∧
        ((∀ cmd ∈ drained [] silent 0 pendingGrid,
            ¬ cmd.targets pendingGrid.mWidth pendingGrid.mHeight i j) →
          (r.1.mGrid i j).logical = (pendingGrid.mGrid i j).logical) :=
  ⟨⟨by decide, by decide, rfl, by decide⟩,
   C1_last_write_wins 256 [] silent 0 pendingGrid (by decide) (by decide) rfl (by decide)
     (by decide)⟩


/-! ## The device, LED by LED -/

theorem ledSets_append (d : Device) (l1 l2 : List LedSet) :
    ledSets d (l1 ++ l2) = ledSets (ledSets d l1) l2 := by
  unfold ledSets; rw [List.foldl_append]

theorem ledSets_cell (d : Device) (x y : Nat) (bs : List Nat) (i j : Nat) :
    ledSets d (bs.map fun b => { x := x, y := y, brightness := b }) i j =
      if i = x ∧ j = y then lastOr (d i j) bs else d i j := by
  induction bs generalizing d with
  | nil => simp [ledSets, lastOr]
  | cons b bs ih =>
    simp only [List.map_cons, ledSets, List.foldl_cons] at ih ⊢
    rw [ih]
    by_cases h : i = x ∧ j = y
    · simp [h, ledSet, lastOr]
    · simp [h, ledSet]

theorem ledSets_column (d : Device) (B : Nat → Nat → List Nat) (x h : Nat) (i j : Nat) :
    ledSets d ((List.range h).flatMap fun y =>
      (B x y).map fun b => { x := x, y := y, brightness := b }) i j =
      if i = x ∧ j < h then lastOr (d i j) (B i j) else d i j := by
  induction h with
  | zero => simp [ledSets]
  | succ h ih =>
    rw [List.range_succ, List.flatMap_append, ledSets_append]
    simp only [List.flatMap_cons, List.flatMap_nil, List.append_nil]
    rw [ledSets_cell, ih]
    by_cases h1 : i = x ∧ j = h
    · obtain ⟨rfl, rfl⟩ := h1
      simp
    · by_cases h2 : i = x ∧ j < h
      · have : i = x ∧ j < h + 1 := ⟨h2.1, by omega⟩
        rw [if_neg h1, if_pos h2, if_pos this]
      · have : ¬ (i = x ∧ j < h + 1) := fun hc => by
          rcases Nat.lt_succ_iff_lt_or_eq.mp hc.2 with h3 | h3
          · exact h2 ⟨hc.1, h3⟩
          · exact h1 ⟨hc.1, h3⟩
        rw [if_neg h1, if_neg h2, if_neg this]

theorem ledSets_grid (d : Device) (B : Nat → Nat → List Nat) (w h : Nat) (i j : Nat) :
    ledSets d ((List.range w).flatMap fun x => (List.range h).flatMap fun y =>
      (B x y).map fun b => { x := x, y := y, brightness := b }) i j =
      if i < w ∧ j < h then lastOr (d i j) (B i j) else d i j := by
  induction w with
  | zero => simp [ledSets]
  | succ w ih =>
    rw [List.range_succ, List.flatMap_append, ledSets_append]
    simp only [List.flatMap_cons, List.flatMap_nil, List.append_nil]
    rw [ledSets_column, ih]
    by_cases h1 : i = w ∧ j < h
    · obtain ⟨rfl, h1⟩ := h1
      simp [h1]
    · by_cases h2 : i < w ∧ j < h
      · have : i < w + 1 ∧ j < h := ⟨by omega, h2.2⟩
        rw [if_neg h1, if_pos h2, if_pos this]
      · have : ¬ (i < w + 1 ∧ j < h) := fun hc => by
          rcases Nat.lt_succ_iff_lt_or_eq.mp hc.1 with h3 | h3
          · exact h2 ⟨h3, hc.2⟩
          · exact h1 ⟨h3, hc.2⟩
        rw [if_neg h1, if_neg h2, if_neg this]

/-- After the `monome_led_set` calls of a render pass, an LED inside the grid shows the last
brightness the render step of its cell sent, or what it showed before when it sent none. -/
theorem ledSets_renderLeds (d : Device) (g : MonomeGrid) (i j : Nat) :
    ledSets d (renderLeds g) i j =
      if i < g.mWidth ∧ j < g.mHeight then lastOr (d i j) (renderCellValue (g.mGrid i j)).2
      else d i j :=
  ledSets_grid d (fun x y => (renderCellValue (g.mGrid x y)).2) g.mWidth g.mHeight i j


/-! ## The render step, case by case -/

theorem renderCellValue_skip (c : MonomeCell) (h : c.ledState = c.lastLedState) :
    renderCellValue c = (c, []) := by
  unfold renderCellValue; simp [h]

theorem renderCellValue_off (c : MonomeCell) (hg : c.ledState ≠ c.lastLedState)
    (h0 : c.logical = 0) :
    renderCellValue c = ({ c with lastLedState := c.ledState }, [0]) := by
  unfold MonomeCell.logical at h0
  unfold renderCellValue; simp [hg, h0]

theorem renderCellValue_on (c : MonomeCell) (hg : c.ledState ≠ c.lastLedState)
    (h1 : c.logical = 1) :
    renderCellValue c = ({ c with lastLedState := c.ledState }, [1]) := by
  unfold MonomeCell.logical at h1
  unfold renderCellValue; simp [hg, h1]

/-- The render step of a blinking cell that passes the gate: the animation is reset when the
last-pushed logical state differs, the value is recorded as last pushed, and the blink step
runs on it. -/
theorem renderCellValue_blink (c : MonomeCell) (hg : c.ledState ≠ c.lastLedState)
    (hb : c.logical = 2 ∨ c.logical = 3) :
    renderCellValue c =
      ({ c with
          ledState := (handleLedBlinkLinearValue
            (if bitAnd c.lastLedState 3 ≠ c.logical then resetBlinkingBitsValue c.ledState
             else c.ledState)).1,
          lastLedState :=
            if bitAnd c.lastLedState 3 ≠ c.logical then resetBlinkingBitsValue c.ledState
            else c.ledState },
       (handleLedBlinkLinearValue
          (if bitAnd c.lastLedState 3 ≠ c.logical then resetBlinkingBitsValue c.ledState
           else c.ledState)).2) := by
  unfold MonomeCell.logical at hb ⊢
  unfold renderCellValue
  rcases hb with h | h <;> simp [hg, h]

/-- The value the render step of a blinking cell records as last pushed has the cell's logical
state in its low two bits. -/
theorem blink_recorded_low (c : MonomeCell) (hb : c.logical = 2 ∨ c.logical = 3) :
    bitAnd (if bitAnd c.lastLedState 3 ≠ c.logical then resetBlinkingBitsValue c.ledState
      else c.ledState) 3 = c.logical := by
  unfold MonomeCell.logical at hb ⊢
  split
  · rcases hb with h | h
    · rw [resetBlinkingBitsValue_fast _ h, h]; decide
    · rw [resetBlinkingBitsValue_slow _ h, h]; decide
  · rfl

/-! ## The device follows the logical state -/

theorem CellInv_congr (c c' : MonomeCell) (d : Nat) (h1 : c'.ledState = c.ledState)
    (h2 : c'.lastLedState = c.lastLedState) (h : CellInv c d) : CellInv c' d := by
  unfold CellInv CellPre MonomeCell.logical at *
  rw [h1, h2]; exact h

theorem CellPre_congr (c c' : MonomeCell) (d : Nat) (h1 : c'.ledState = c.ledState)
    (h2 : c'.lastLedState = c.lastLedState) (h : CellPre c d) : CellPre c' d := by
  unfold CellPre MonomeCell.logical at *
  rw [h1, h2]; exact h

theorem CellPre_writeCell (st : LedState) (c : MonomeCell) (d : Nat) (h : CellPre c d) :
    CellPre (writeCell st c) d := by
  by_cases hw : c.logical = st.toInt
  · rw [writeCell_same st c hw]; exact h
  · have hl := writeCell_logical st c
    have e : (writeCell st c).ledState = st.toInt := by
      unfold MonomeCell.logical at hw
      unfold writeCell; simp [hw]
    refine ⟨fun h0 => ?_, fun h1 => ?_, ?_, ?_⟩
    · rw [e, ← hl, h0]
    · rw [e, ← hl, h1]
    · rw [writeCell_lastLedState]; exact h.2.2.1
    · rw [writeCell_lastLedState]; exact h.2.2.2

theorem CellPre_applyCell (w h : Nat) (cmds : List MonomeCommand) (i j : Nat) (c : MonomeCell)
    (d : Nat) (hc : CellPre c d) : CellPre (applyCell w h cmds i j c) d := by
  induction cmds generalizing c with
  | nil => exact hc
  | cons e es ih =>
    rw [applyCell_cons]
    apply ih
    split
    · exact CellPre_writeCell _ _ _ hc
    · exact hc

theorem low_ne_zero_one (v : Int) (h : bitAnd v 3 = 2 ∨ bitAnd v 3 = 3) : v ≠ 0 ∧ v ≠ 1 := by
  constructor
  · rintro rfl
    have : bitAnd 0 3 = 0 := by decide
    omega
  · rintro rfl
    have : bitAnd 1 3 = 1 := by decide
    omega

/-- The render step of a cell makes the device show its logical state when that is off or
on. -/
theorem CellInv_renderCellValue (c : MonomeCell) (d : Nat) (h : CellPre c d) :
    CellInv (renderCellValue c).1 (lastOr d (renderCellValue c).2) := by
  obtain ⟨hc0, hc1, hl0, hl1⟩ := h
  by_cases hg : c.ledState = c.lastLedState
  · rw [renderCellValue_skip c hg]
    refine ⟨⟨hc0, hc1, hl0, hl1⟩, fun h1 => ?_, fun h0 => ?_⟩
    · exact hl1 (hg ▸ hc1 h1)
    · exact hl0 (hg ▸ hc0 h0)
  · have h4 : c.logical = 0 ∨ c.logical = 1 ∨ c.logical = 2 ∨ c.logical = 3 :=
      bitAnd_three_cases c.ledState
    rcases h4 with h0 | h0 | h0 | h0
    · rw [renderCellValue_off c hg h0]
      have e : c.ledState = 0 := hc0 h0
      refine ⟨⟨hc0, hc1, fun _ => rfl, fun h1 => ?_⟩, fun h1 => ?_, fun _ => rfl⟩
      · simp only [e] at h1; omega
      · change c.logical = 1 at h1; omega
    · rw [renderCellValue_on c hg h0]
      have e : c.ledState = 1 := hc1 h0
      refine ⟨⟨hc0, hc1, fun h1 => ?_, fun _ => rfl⟩, fun _ => rfl, fun h1 => ?_⟩
      · simp only [e] at h1; omega
      · change c.logical = 0 at h1; omega
    all_goals
      have hb : c.logical = 2 ∨ c.logical = 3 := by omega
      have hlog := renderCellValue_logical c
      have hrec := blink_recorded_low c hb
      rw [renderCellValue_blink c hg hb] at hlog ⊢
      have hne := low_ne_zero_one _ (by rw [hrec]; exact hb)
      refine ⟨⟨fun h1 => ?_, fun h1 => ?_, fun h1 => absurd h1 hne.1, fun h1 => absurd h1 hne.2⟩,
        fun h1 => ?_, fun h1 => ?_⟩ <;>
      · rw [hlog] at h1; omega


theorem buttonTouched_mWidth (cb : TouchCallback) (now : Int) (g : MonomeGrid) (x y : Nat)
    (isDown : Bool) : (buttonTouched cb now g x y isDown).1.mWidth = g.mWidth := by
  unfold buttonTouched; exact runCallback_mWidth _ _

theorem buttonTouched_mHeight (cb : TouchCallback) (now : Int) (g : MonomeGrid) (x y : Nat)
    (isDown : Bool) : (buttonTouched cb now g x y isDown).1.mHeight = g.mHeight := by
  unfold buttonTouched; exact runCallback_mHeight _ _

/-- What `buttonTouched` leaves in each cell. -/
theorem buttonTouched_mGrid (cb : TouchCallback) (now : Int) (g : MonomeGrid) (x y : Nat)
    (isDown : Bool) (i j : Nat) :
    (buttonTouched cb now g x y isDown).1.mGrid i j =
      if i = x ∧ j = y then
        { g.mGrid x y with
          buttonDownTime := if isDown then now else (g.mGrid x y).buttonDownTime,
          buttonState := if isDown then ButtonState.TOUCH_DOWN else ButtonState.TOUCH_UP }
      else g.mGrid i j := by
  unfold buttonTouched
  simp only [runCallback_mGrid, setCell_mGrid]
  cases isDown <;> rfl

theorem buttonTouched_ledState (cb : TouchCallback) (now : Int) (g : MonomeGrid) (x y : Nat)
    (isDown : Bool) (i j : Nat) :
    ((buttonTouched cb now g x y isDown).1.mGrid i j).ledState = (g.mGrid i j).ledState := by
  rw [buttonTouched_mGrid]
  split
  · next h => obtain ⟨rfl, rfl⟩ := h; rfl
  · rfl

theorem buttonTouched_lastLedState (cb : TouchCallback) (now : Int) (g : MonomeGrid)
    (x y : Nat) (isDown : Bool) (i j : Nat) :
    ((buttonTouched cb now g x y isDown).1.mGrid i j).lastLedState =
      (g.mGrid i j).lastLedState := by
  rw [buttonTouched_mGrid]
  split
  · next h => obtain ⟨rfl, rfl⟩ := h; rfl
  · rfl

/-- A tick keeps every cell tied to the device. -/
theorem GridInv_tickResult (rcb : List MonomeCommand) (cb : TouchCallback) (now : Int)
    (g : MonomeGrid) (dev : Device) (h : GridInv g dev) :
    GridInv (tickResult rcb cb now g).1 (ledSets dev (tickResult rcb cb now g).2.leds) := by
  intro i j hi hj
  rw [tickResult_mWidth] at hi
  rw [tickResult_mHeight] at hj
  rw [tickResult_mGrid rcb cb now g i j hi hj, tickResult_leds, ledSets_renderLeds,
    afterCommands_mWidth, afterCommands_mHeight, if_pos ⟨hi, hj⟩]
  apply CellInv_renderCellValue
  rw [afterCommands_mGrid, if_pos ⟨hi, hj⟩]
  apply CellPre_applyCell
  exact CellPre_congr _ _ _ (longPressCellValue_ledState now _)
    (longPressCellValue_lastLedState now _) (h i j hi hj).1

/-- A step keeps the width and the height of the grid. -/
theorem step_dims (fuel : Nat) (g : MonomeGrid) (st : Step) (r : MonomeGrid × TickOutput)
    (hW : g.mWidth ≤ 255) (hH : g.mHeight ≤ 255) (hfuel : 256 ≤ fuel)
    (h : step fuel g st = some r) : r.1.mWidth = g.mWidth ∧ r.1.mHeight = g.mHeight := by
  cases st with
  | tick rcb cb now =>
    simp only [step, updateGrid_eq fuel rcb cb now g hW hH hfuel, Option.some.injEq] at h
    subst h
    exact ⟨tickResult_mWidth _ _ _ _, tickResult_mHeight _ _ _ _⟩
  | button cb now x y isDown =>
    simp only [step, Option.some.injEq] at h
    subst h
    exact ⟨buttonTouched_mWidth _ _ _ _ _ _, buttonTouched_mHeight _ _ _ _ _ _⟩
  | set cmd =>
    simp only [step, Option.some.injEq] at h
    subst h
    exact ⟨rfl, rfl⟩

/-- A step on a grid whose width and height fit the 8-bit render counters returns. -/
theorem step_isSome (fuel : Nat) (g : MonomeGrid) (st : Step)
    (hW : g.mWidth ≤ 255) (hH : g.mHeight ≤ 255) (hfuel : 256 ≤ fuel) :
    ∃ r, step fuel g st = some r := by
  cases st with
  | tick rcb cb now => exact ⟨_, updateGrid_eq fuel rcb cb now g hW hH hfuel⟩
  | button cb now x y isDown => exact ⟨_, rfl⟩
  | set cmd => exact ⟨_, rfl⟩

/-- A step keeps every cell tied to the device. -/
theorem GridInv_step (fuel : Nat) (g : MonomeGrid) (st : Step) (r : MonomeGrid × TickOutput)
    (dev : Device) (hW : g.mWidth ≤ 255) (hH : g.mHeight ≤ 255) (hfuel : 256 ≤ fuel)
    (h : step fuel g st = some r) (hinv : GridInv g dev) :
    GridInv r.1 (ledSets dev r.2.leds) := by
  cases st with
  | tick rcb cb now =>
    simp only [step, updateGrid_eq fuel rcb cb now g hW hH hfuel, Option.some.injEq] at h
    subst h
    exact GridInv_tickResult rcb cb now g dev hinv
  | button cb now x y isDown =>
    simp only [step, Option.some.injEq] at h
    subst h
    intro i j hi hj
    rw [buttonTouched_mWidth] at hi
    rw [buttonTouched_mHeight] at hj
    exact CellInv_congr _ _ _ (buttonTouched_ledState _ _ _ _ _ _ _ _)
      (buttonTouched_lastLedState _ _ _ _ _ _ _ _) (hinv i j hi hj)
  | set cmd =>
    simp only [step, Option.some.injEq] at h
    subst h
    exact hinv

theorem run_nil (fuel : Nat) (g : MonomeGrid) : run fuel g [] = some (g, []) := rfl

theorem run_cons (fuel : Nat) (g : MonomeGrid) (st : Step) (rest : List Step) :
    run fuel g (st :: rest) =
      (step fuel g st).bind fun r => (run fuel r.1 rest).map fun q => (q.1, r.2 :: q.2) := rfl

/-- A run on a grid whose width and height fit the 8-bit render counters returns, keeps the
width and the height, and keeps every cell tied to the device. -/
theorem GridInv_run (fuel : Nat) (steps : List Step) (g : MonomeGrid) (dev : Device)
    (hW : g.mWidth ≤ 255) (hH : g.mHeight ≤ 255) (hfuel : 256 ≤ fuel) (hinv : GridInv g dev) :
    ∃ r, run fuel g steps = some r ∧ r.1.mWidth = g.mWidth ∧ r.1.mHeight = g.mHeight ∧
      GridInv r.1 (ledSets dev (allLeds r.2)) := by
  induction steps generalizing g dev with
  | nil => exact ⟨(g, []), rfl, rfl, rfl, hinv⟩
  | cons st rest ih =>
    obtain ⟨r, hr⟩ := step_isSome fuel g st hW hH hfuel
    obtain ⟨hw, hh⟩ := step_dims fuel g st r hW hH hfuel hr
    have hi := GridInv_step fuel g st r dev hW hH hfuel hr hinv
    obtain ⟨q, hq, hqw, hqh, hqi⟩ := ih r.1 (ledSets dev r.2.leds) (by omega) (by omega) hi
    refine ⟨(q.1, r.2 :: q.2), ?_, by rw [hqw, hw], by rw [hqh, hh], ?_⟩
    · rw [run_cons, hr]
      show Option.map (fun q => (q.1, r.2 :: q.2)) (run fuel r.1 rest) = _
      rw [hq, Option.map_some']
    · have : allLeds (r.2 :: q.2) = r.2.leds ++ allLeds q.2 := by
        simp [allLeds]
      rw [this, ledSets_append]
      exact hqi

theorem GridInv_construct (width height : Nat) : GridInv (construct width height) (ledAll 0) := by
  intro i j _ _
  refine ⟨⟨fun _ => rfl, fun h => ?_, fun _ => rfl, fun h => ?_⟩, fun h => ?_, fun _ => rfl⟩
  · exact absurd (show MonomeCell.new.logical = 1 from h) (by decide)
  · exact absurd (show MonomeCell.new.lastLedState = 1 from h) (by decide)
  · exact absurd (show MonomeCell.new.logical = 1 from h) (by decide)

/-- C3 (the code at the failing input): on a 1 x 1 grid, after the cell is set to fast
blinking and, before each of the next two ticks, set off and back to fast blinking, the third
tick finds the cell logically `LED_BLINK_FAST` with `ledState` equal to `lastLedState` (both
2), so its render pass skips the cell: the outputs of the ten steps show a push of 1 in the
first tick, a push of 0 in the second, and none in the third, fourth and fifth tick, and the
cell ends with `ledState = lastLedState = 2`, whereas a blink step on 2 would leave 38 and
push 0. -/
theorem C3_blinking_cell_skipped :
    ((run 256 (construct 1 1) offAndBackSteps).map fun r =>
      ((r.1.mGrid 0 0).logical, (r.1.mGrid 0 0).ledState, (r.1.mGrid 0 0).lastLedState,
        r.2.map fun o => o.leds)) =
      some (LedState.LED_BLINK_FAST.toInt, 2, 2,
        [[], [⟨0, 0, 1⟩], [], [], [⟨0, 0, 0⟩], [], [], [], [], []]) ∧
    ((run 256 (construct 1 1) (offAndBackSteps.take 7)).map fun r =>
      ((afterCommands [] silent 40000 r.1).mGrid 0 0).logical) =
      some LedState.LED_BLINK_FAST.toInt ∧
    handleLedBlinkLinearValue 2 = (38, [0]) := by
  refine ⟨by decide, by decide, by decide⟩


/-! ## The blink ramp, tick by tick -/

set_option maxRecDepth 100000 in
theorem blink_step_fast : ∀ m, m < 14 →
    handleLedBlinkLinearValue (blinkLed .LED_BLINK_FAST m) =
      (blinkLed .LED_BLINK_FAST (m + 1), blinkPush .LED_BLINK_FAST (m + 1)) ∧
    blinkLed .LED_BLINK_FAST m ≠ blinkLed .LED_BLINK_FAST (m + 13) ∧
    bitAnd (blinkLed .LED_BLINK_FAST m) 3 = 2 := by
  decide

set_option maxRecDepth 100000 in
theorem blink_step_slow : ∀ m, m < 62 →
    handleLedBlinkLinearValue (blinkLed .LED_BLINK_SLOW m) =
      (blinkLed .LED_BLINK_SLOW (m + 1), blinkPush .LED_BLINK_SLOW (m + 1)) ∧
    blinkLed .LED_BLINK_SLOW m ≠ blinkLed .LED_BLINK_SLOW (m + 61) ∧
    bitAnd (blinkLed .LED_BLINK_SLOW m) 3 = 3 := by
  decide

theorem blinkLed_mod (st : LedState) (k : Nat) :
    blinkLed st (k % blinkPeriod st) = blinkLed st k := by
  unfold blinkLed; rw [Nat.mod_mod]

theorem blinkPush_mod (st : LedState) (k : Nat) :
    blinkPush st (k % blinkPeriod st) = blinkPush st k := by
  unfold blinkPush; rw [Nat.mod_mod]


theorem blinkLed_congr (st : LedState) (a b : Nat)
    (h : a % blinkPeriod st = b % blinkPeriod st) : blinkLed st a = blinkLed st b := by
  unfold blinkLed; rw [h]

theorem blinkPush_congr (st : LedState) (a b : Nat)
    (h : a % blinkPeriod st = b % blinkPeriod st) : blinkPush st a = blinkPush st b := by
  unfold blinkPush; rw [h]

/-- One blink step on a ramp value gives the next ramp value and the push of the next tick;
a ramp value differs from the one before it; its low two bits are the blink state. -/
theorem blink_step (st : LedState)
    (hst : st = LedState.LED_BLINK_FAST ∨ st = LedState.LED_BLINK_SLOW) (k : Nat) :
    handleLedBlinkLinearValue (blinkLed st k) =
      (blinkLed st (k + 1), blinkPush st (k + 1)) ∧
    blinkLed st k ≠ blinkLed st (k + (blinkPeriod st - 1)) ∧
    bitAnd (blinkLed st k) 3 = st.toInt := by
  rcases hst with rfl | rfl
  · have hP : blinkPeriod .LED_BLINK_FAST = 14 := rfl
    have h := blink_step_fast (k % 14) (Nat.mod_lt _ (by norm_num))
    have e1 : blinkLed .LED_BLINK_FAST (k % 14) = blinkLed .LED_BLINK_FAST k :=
      blinkLed_congr _ _ _ (by rw [hP]; omega)
    have e2 : blinkLed .LED_BLINK_FAST (k % 14 + 1) = blinkLed .LED_BLINK_FAST (k + 1) :=
      blinkLed_congr _ _ _ (by rw [hP]; omega)
    have e3 : blinkPush .LED_BLINK_FAST (k % 14 + 1) = blinkPush .LED_BLINK_FAST (k + 1) :=
      blinkPush_congr _ _ _ (by rw [hP]; omega)
    have e4 : blinkLed .LED_BLINK_FAST (k % 14 + 13) = blinkLed .LED_BLINK_FAST (k + (14 - 1)) :=
      blinkLed_congr _ _ _ (by rw [hP]; omega)
    rw [e1, e2, e3, e4] at h
    exact h
  · have hP : blinkPeriod .LED_BLINK_SLOW = 62 := rfl
    have h := blink_step_slow (k % 62) (Nat.mod_lt _ (by norm_num))
    have e1 : blinkLed .LED_BLINK_SLOW (k % 62) = blinkLed .LED_BLINK_SLOW k :=
      blinkLed_congr _ _ _ (by rw [hP]; omega)
    have e2 : blinkLed .LED_BLINK_SLOW (k % 62 + 1) = blinkLed .LED_BLINK_SLOW (k + 1) :=
      blinkLed_congr _ _ _ (by rw [hP]; omega)
    have e3 : blinkPush .LED_BLINK_SLOW (k % 62 + 1) = blinkPush .LED_BLINK_SLOW (k + 1) :=
      blinkPush_congr _ _ _ (by rw [hP]; omega)
    have e4 : blinkLed .LED_BLINK_SLOW (k % 62 + 61) = blinkLed .LED_BLINK_SLOW (k + (62 - 1)) :=
      blinkLed_congr _ _ _ (by rw [hP]; omega)
    rw [e1, e2, e3, e4] at h
    exact h

/-- The reset value of a blink state is the ramp value before tick 0. -/
theorem reset_is_ramp (st : LedState)
    (hst : st = LedState.LED_BLINK_FAST ∨ st = LedState.LED_BLINK_SLOW) (v : Int)
    (h : bitAnd v 3 = st.toInt) :
    resetBlinkingBitsValue v = blinkLed st (blinkPeriod st - 1) := by
  rcases hst with rfl | rfl
  · rw [resetBlinkingBitsValue_fast v h]; decide
  · rw [resetBlinkingBitsValue_slow v h]; decide

theorem OnRamp_congr (st : LedState) (n : Nat) (c c' : MonomeCell)
    (h1 : c'.ledState = c.ledState) (h2 : c'.lastLedState = c.lastLedState)
    (h : OnRamp st n c) : OnRamp st n c' := by
  unfold OnRamp MonomeCell.logical at *
  rw [h1, h2]; exact h

/-- The logical state of a cell on the blink ramp of `st` is `st`. -/
theorem OnRamp_logical (st : LedState)
    (hst : st = LedState.LED_BLINK_FAST ∨ st = LedState.LED_BLINK_SLOW) (n : Nat)
    (c : MonomeCell) (h : OnRamp st n c) : c.logical = st.toInt := by
  unfold OnRamp at h
  by_cases hn : n = 0
  · rw [if_pos hn] at h; exact h.1
  · rw [if_neg hn] at h
    unfold MonomeCell.logical
    rw [h.1]
    exact (blink_step st hst (n - 1)).2.2

/-- The render step moves a cell on the blink ramp one tick further and sends what the ramp
says for that tick. -/
theorem OnRamp_render (st : LedState)
    (hst : st = LedState.LED_BLINK_FAST ∨ st = LedState.LED_BLINK_SLOW) (n : Nat)
    (c : MonomeCell) (h : OnRamp st n c) :
    OnRamp st (n + 1) (renderCellValue c).1 ∧ (renderCellValue c).2 = blinkPush st n := by
  have hlog := OnRamp_logical st hst n c h
  have hb : c.logical = 2 ∨ c.logical = 3 := by
    rcases hst with rfl | rfl
    · left; exact hlog
    · right; exact hlog
  have hP : 1 ≤ blinkPeriod st := by rcases hst with rfl | rfl <;> decide
  unfold OnRamp at h ⊢
  rw [if_neg (Nat.succ_ne_zero n)]
  by_cases hn : n = 0
  · subst hn
    rw [if_pos rfl] at h
    have hg : c.ledState ≠ c.lastLedState := fun e => h.2 (by rw [← e]; exact hlog)
    rw [renderCellValue_blink c hg hb, if_pos (by rw [hlog]; exact h.2),
      reset_is_ramp st hst c.ledState hlog]
    have hs := (blink_step st hst (blinkPeriod st - 1)).1
    rw [hs]
    refine ⟨⟨blinkLed_congr _ _ _ ?_, blinkLed_congr _ _ _ ?_⟩, blinkPush_congr _ _ _ ?_⟩
    · show (blinkPeriod st - 1 + 1) % blinkPeriod st = (0 + 1 - 1) % blinkPeriod st
      rw [Nat.sub_add_cancel hP]; simp
    · simp
    · show (blinkPeriod st - 1 + 1) % blinkPeriod st = 0 % blinkPeriod st
      rw [Nat.sub_add_cancel hP]; simp
  · rw [if_neg hn] at h
    obtain ⟨k, rfl⟩ : ∃ k, n = k + 1 := ⟨n - 1, by omega⟩
    simp only [Nat.add_sub_cancel] at h ⊢
    have hs := blink_step st hst k
    have hlast : bitAnd c.lastLedState 3 = st.toInt := by
      rw [h.2]; exact (blink_step st hst _).2.2
    have hg : c.ledState ≠ c.lastLedState := by rw [h.1, h.2]; exact hs.2.1
    rw [renderCellValue_blink c hg hb, if_neg (by rw [hlog, hlast]; simp), h.1, hs.1]
    refine ⟨⟨rfl, blinkLed_congr _ _ _ ?_⟩, rfl⟩
    show k % blinkPeriod st = (k + 1 + (blinkPeriod st - 1)) % blinkPeriod st
    have : k + 1 + (blinkPeriod st - 1) = k + blinkPeriod st := by omega
    rw [this]; simp

/-- Commands that leave alone the state of a cell leave the cell as it is. -/
theorem applyCell_keeps (w h : Nat) (cmds : List MonomeCommand) (x y : Nat) (st : LedState)
    (c : MonomeCell) (hk : ∀ cmd ∈ cmds, cmd.keeps w h x y st) (hc : c.logical = st.toInt) :
    applyCell w h cmds x y c = c := by
  induction cmds with
  | nil => rfl
  | cons d ds ih =>
    rw [applyCell_cons]
    have hd := hk d (List.mem_cons_self _ _)
    have : (if d.targets w h x y then writeCell d.state c else c) = c := by
      split
      · next ht => rw [hd ht]; exact writeCell_same st c hc
      · rfl
    rw [this]
    exact ih fun cmd hm => hk cmd (List.mem_cons_of_mem _ hm)


/-! ## What the channel holds -/

theorem produceBytes_forall (Q : MonomeCommand → Prop) (buf : List MonomeCommand)
    (cmd : MonomeCommand) (hb : ∀ c ∈ buf, Q c) (hc : Q cmd) :
    ∀ c ∈ produceBytes buf cmd, Q c := by
  unfold produceBytes
  split
  · intro c hm
    rcases List.mem_append.mp hm with h | h
    · exact hb c h
    · rw [List.mem_singleton.mp h]; exact hc
  · exact hb

theorem runCallback_forall (Q : MonomeCommand → Prop) (g : MonomeGrid)
    (calls : List MonomeCommand) (hb : ∀ c ∈ g.mCommandsBuffer, Q c) (hc : ∀ c ∈ calls, Q c) :
    ∀ c ∈ (runCallback g calls).mCommandsBuffer, Q c := by
  unfold runCallback
  induction calls generalizing g with
  | nil => exact hb
  | cons d ds ih =>
    rw [List.foldl_cons]
    apply ih
    · exact produceBytes_forall Q _ _ hb (hc d (List.mem_cons_self _ _))
    · exact fun c hm => hc c (List.mem_cons_of_mem _ hm)

theorem longPressCell_forall (Q : MonomeCommand → Prop) (cb : TouchCallback) (now : Int)
    (x y : Nat) (s : MonomeGrid × List Touch) (hcb : ∀ a b st, ∀ c ∈ cb a b st, Q c)
    (hb : ∀ c ∈ s.1.mCommandsBuffer, Q c) :
    ∀ c ∈ (longPressCell cb now x y s).1.mCommandsBuffer, Q c := by
  unfold longPressCell
  split
  · split
    · exact runCallback_forall Q _ _ hb (hcb x y _)
    · exact hb
  · exact hb

/-- Every record a tick drains was pending before the tick or was enqueued by one of its
callbacks. -/
theorem drained_forall (Q : MonomeCommand → Prop) (rcb : List MonomeCommand)
    (cb : TouchCallback) (now : Int) (g : MonomeGrid) (hb : ∀ c ∈ g.mCommandsBuffer, Q c)
    (hr : ∀ c ∈ rcb, Q c) (hcb : ∀ a b st, ∀ c ∈ cb a b st, Q c) :
    ∀ c ∈ drained rcb cb now g, Q c := by
  unfold drained longPressScan
  apply forRange_invariant (fun s : MonomeGrid × List Touch => ∀ c ∈ s.1.mCommandsBuffer, Q c)
  · intro k s hs
    apply forRange_invariant
      (fun s : MonomeGrid × List Touch => ∀ c ∈ s.1.mCommandsBuffer, Q c)
    · intro k' s' hs'
      exact longPressCell_forall Q cb now k k' s' hcb hs'
    · exact hs
  · exact runCallback_forall Q g rcb hb hr

theorem buttonTouched_forall (Q : MonomeCommand → Prop) (cb : TouchCallback) (now : Int)
    (g : MonomeGrid) (x y : Nat) (isDown : Bool) (hb : ∀ c ∈ g.mCommandsBuffer, Q c)
    (hcb : ∀ a b st, ∀ c ∈ cb a b st, Q c) :
    ∀ c ∈ (buttonTouched cb now g x y isDown).1.mCommandsBuffer, Q c := by
  unfold buttonTouched
  exact runCallback_forall Q _ _ hb (hcb x y _)

/-! ## The pushes a tick sends to one LED -/

theorem pushesAt_nil (x y : Nat) : pushesAt x y [] = [] := rfl

theorem pushesAt_append (x y : Nat) (l1 l2 : List LedSet) :
    pushesAt x y (l1 ++ l2) = pushesAt x y l1 ++ pushesAt x y l2 := by
  unfold pushesAt; rw [List.filter_append, List.map_append]

theorem pushesAt_cell (x y i j : Nat) (bs : List Nat) :
    pushesAt x y (bs.map fun b => { x := i, y := j, brightness := b }) =
      if i = x ∧ j = y then bs else [] := by
  unfold pushesAt
  induction bs with
  | nil => simp
  | cons b bs ih =>
    by_cases h : i = x ∧ j = y
    · rw [if_pos h] at ih ⊢
      rw [List.map_cons, List.filter_cons_of_pos (by simpa using h), List.map_cons, ih]
    · rw [if_neg h] at ih ⊢
      rw [List.map_cons, List.filter_cons_of_neg (by simpa using h), ih]

theorem pushesAt_column (x y i h : Nat) (B : Nat → Nat → List Nat) :
    pushesAt x y ((List.range h).flatMap fun j =>
      (B i j).map fun b => { x := i, y := j, brightness := b }) =
      if i = x ∧ y < h then B x y else [] := by
  induction h with
  | zero => simp [pushesAt]
  | succ h ih =>
    rw [List.range_succ, List.flatMap_append, pushesAt_append, ih]
    simp only [List.flatMap_cons, List.flatMap_nil, List.append_nil]
    rw [pushesAt_cell]
    by_cases h1 : i = x ∧ h = y
    · obtain ⟨rfl, rfl⟩ := h1
      simp
    · by_cases h2 : i = x ∧ y < h
      · have : i = x ∧ y < h + 1 := ⟨h2.1, by omega⟩
        rw [if_neg h1, if_pos h2, if_pos this, List.append_nil]
      · have : ¬ (i = x ∧ y < h + 1) := fun hc => by
          rcases Nat.lt_succ_iff_lt_or_eq.mp hc.2 with h3 | h3
          · exact h2 ⟨hc.1, h3⟩
          · exact h1 ⟨hc.1, h3.symm⟩
        rw [if_neg h1, if_neg h2, if_neg this, List.append_nil]

theorem pushesAt_grid (x y w h : Nat) (B : Nat → Nat → List Nat) :
    pushesAt x y ((List.range w).flatMap fun i => (List.range h).flatMap fun j =>
      (B i j).map fun b => { x := i, y := j, brightness := b }) =
      if x < w ∧ y < h then B x y else [] := by
  induction w with
  | zero => simp [pushesAt]
  | succ w ih =>
    rw [List.range_succ, List.flatMap_append, pushesAt_append, ih]
    simp only [List.flatMap_cons, List.flatMap_nil, List.append_nil]
    rw [pushesAt_column]
    by_cases h1 : w = x ∧ y < h
    · obtain ⟨rfl, h1⟩ := h1
      simp [h1]
    · by_cases h2 : x < w ∧ y < h
      · have : x < w + 1 ∧ y < h := ⟨by omega, h2.2⟩
        rw [if_neg h1, if_pos h2, if_pos this, List.append_nil]
      · have : ¬ (x < w + 1 ∧ y < h) := fun hc => by
          rcases Nat.lt_succ_iff_lt_or_eq.mp hc.1 with h3 | h3
          · exact h2 ⟨h3, hc.2⟩
          · exact h1 ⟨h3.symm, hc.2⟩
        rw [if_neg h1, if_neg h2, if_neg this, List.append_nil]

/-- The brightnesses a render pass sends to an LED inside the grid are those of the render
step of its cell. -/
theorem pushesAt_renderLeds (g : MonomeGrid) (x y : Nat) (hx : x < g.mWidth)
    (hy : y < g.mHeight) :
    pushesAt x y (renderLeds g) = (renderCellValue (g.mGrid x y)).2 := by
  unfold renderLeds
  rw [pushesAt_grid x y g.mWidth g.mHeight (fun i j => (renderCellValue (g.mGrid i j)).2),
    if_pos ⟨hx, hy⟩]


/-! ## The channel only grows between drains -/

theorem produceBytes_ext (Q : MonomeCommand → Prop) (buf : List MonomeCommand)
    (cmd : MonomeCommand) (hc : Q cmd) :
    ∃ e, produceBytes buf cmd = buf ++ e ∧ ∀ c ∈ e, Q c := by
  unfold produceBytes
  split
  · exact ⟨[cmd], rfl, fun c hm => by rw [List.mem_singleton.mp hm]; exact hc⟩
  · exact ⟨[], (List.append_nil _).symm, fun c hm => absurd hm (List.not_mem_nil _)⟩

theorem runCallback_ext (Q : MonomeCommand → Prop) (g : MonomeGrid)
    (calls : List MonomeCommand) (hc : ∀ c ∈ calls, Q c) :
    ∃ e, (runCallback g calls).mCommandsBuffer = g.mCommandsBuffer ++ e ∧ ∀ c ∈ e, Q c := by
  unfold runCallback
  induction calls generalizing g with
  | nil => exact ⟨[], (List.append_nil _).symm, fun c hm => absurd hm (List.not_mem_nil _)⟩
  | cons d ds ih =>
    rw [List.foldl_cons]
    obtain ⟨e1, h1, q1⟩ := produceBytes_ext Q g.mCommandsBuffer d (hc d (List.mem_cons_self _ _))
    obtain ⟨e2, h2, q2⟩ := ih (enqueue g d) fun c hm => hc c (List.mem_cons_of_mem _ hm)
    refine ⟨e1 ++ e2, ?_, ?_⟩
    · rw [h2]
      show produceBytes g.mCommandsBuffer d ++ e2 = _
      rw [h1, List.append_assoc]
    · intro c hm
      rcases List.mem_append.mp hm with h | h
      · exact q1 c h
      · exact q2 c h

theorem longPressCell_ext (Q : MonomeCommand → Prop) (cb : TouchCallback) (now : Int)
    (x y : Nat) (s : MonomeGrid × List Touch) (hcb : ∀ a b st, ∀ c ∈ cb a b st, Q c) :
    ∃ e, (longPressCell cb now x y s).1.mCommandsBuffer = s.1.mCommandsBuffer ++ e ∧
      ∀ c ∈ e, Q c := by
  unfold longPressCell
  split
  · split
    · exact runCallback_ext Q _ _ (hcb x y _)
    · exact ⟨[], (List.append_nil _).symm, fun c hm => absurd hm (List.not_mem_nil _)⟩
  · exact ⟨[], (List.append_nil _).symm, fun c hm => absurd hm (List.not_mem_nil _)⟩

/-- The records a tick drains are the records pending before it, followed by records its
callbacks enqueued. -/
theorem drained_ext (Q : MonomeCommand → Prop) (rcb : List MonomeCommand)
    (cb : TouchCallback) (now : Int) (g : MonomeGrid)
    (hr : ∀ c ∈ rcb, Q c) (hcb : ∀ a b st, ∀ c ∈ cb a b st, Q c) :
    ∃ e, drained rcb cb now g = g.mCommandsBuffer ++ e ∧ ∀ c ∈ e, Q c := by
  have trans : ∀ (s : MonomeGrid × List Touch) (b : List MonomeCommand),
      (∃ e, s.1.mCommandsBuffer = g.mCommandsBuffer ++ e ∧ ∀ c ∈ e, Q c) →
      (∃ e, b = s.1.mCommandsBuffer ++ e ∧ ∀ c ∈ e, Q c) →
      ∃ e, b = g.mCommandsBuffer ++ e ∧ ∀ c ∈ e, Q c := by
    rintro s b ⟨e1, h1, q1⟩ ⟨e2, h2, q2⟩
    refine ⟨e1 ++ e2, by rw [h2, h1, List.append_assoc], fun c hm => ?_⟩
    rcases List.mem_append.mp hm with h | h
    · exact q1 c h
    · exact q2 c h
  unfold drained longPressScan
  apply forRange_invariant (fun s : MonomeGrid × List Touch =>
    ∃ e, s.1.mCommandsBuffer = g.mCommandsBuffer ++ e ∧ ∀ c ∈ e, Q c)
  · intro k s hs
    apply forRange_invariant (fun s : MonomeGrid × List Touch =>
      ∃ e, s.1.mCommandsBuffer = g.mCommandsBuffer ++ e ∧ ∀ c ∈ e, Q c)
    · intro k' s' hs'
      exact trans s' _ hs' (longPressCell_ext Q cb now k k' s' hcb)
    · exact hs
  · exact runCallback_ext Q g rcb hr

theorem buttonTouched_ext (Q : MonomeCommand → Prop) (cb : TouchCallback) (now : Int)
    (g : MonomeGrid) (x y : Nat) (isDown : Bool) (hcb : ∀ a b st, ∀ c ∈ cb a b st, Q c) :
    ∃ e, (buttonTouched cb now g x y isDown).1.mCommandsBuffer = g.mCommandsBuffer ++ e ∧
      ∀ c ∈ e, Q c := by
  unfold buttonTouched
  exact runCallback_ext Q _ _ (hcb x y _)

/-! ## A cell on the blink ramp, step by step -/

/-- In either case of `RampInv` the records pending leave the cell on the ramp. -/
theorem RampInv_applyCell (st : LedState)
    (hst : st = LedState.LED_BLINK_FAST ∨ st = LedState.LED_BLINK_SLOW) (x y n : Nat)
    (g : MonomeGrid) (h : RampInv st x y n g) :
    OnRamp st n (applyCell g.mWidth g.mHeight g.mCommandsBuffer x y (g.mGrid x y)) := by
  unfold RampInv at h
  by_cases hn : n = 0
  · rw [if_pos hn] at h; rw [hn]; exact h
  · rw [if_neg hn] at h
    rw [applyCell_keeps _ _ _ _ _ st _ h.2 (OnRamp_logical st hst n _ h.1)]
    exact h.1

/-- Appending records that leave the cell's state alone, and changing only button fields of
cells, keeps `RampInv`. -/
theorem RampInv_ext (st : LedState)
    (hst : st = LedState.LED_BLINK_FAST ∨ st = LedState.LED_BLINK_SLOW) (x y n : Nat)
    (g g' : MonomeGrid) (e : List MonomeCommand) (hw : g'.mWidth = g.mWidth)
    (hh : g'.mHeight = g.mHeight) (hb : g'.mCommandsBuffer = g.mCommandsBuffer ++ e)
    (he : ∀ c ∈ e, c.keeps g.mWidth g.mHeight x y st)
    (h1 : (g'.mGrid x y).ledState = (g.mGrid x y).ledState)
    (h2 : (g'.mGrid x y).lastLedState = (g.mGrid x y).lastLedState)
    (h : RampInv st x y n g) : RampInv st x y n g' := by
  unfold RampInv at h ⊢
  rw [hw, hh, hb]
  by_cases hn : n = 0
  · rw [if_pos hn] at h ⊢
    rw [applyCell_append]
    have h' : OnRamp st 0 (applyCell g.mWidth g.mHeight g.mCommandsBuffer x y (g'.mGrid x y)) :=
      OnRamp_congr st 0 _ _ (applyCell_ledState_congr _ _ _ _ _ _ _ h1)
        (by rw [applyCell_lastLedState, applyCell_lastLedState, h2]) h
    rw [applyCell_keeps _ _ e _ _ st _ he (OnRamp_logical st hst 0 _ h')]
    exact h'
  · rw [if_neg hn] at h ⊢
    refine ⟨OnRamp_congr st n _ _ h1 h2 h.1, fun c hm => ?_⟩
    rcases List.mem_append.mp hm with hc | hc
    · exact h.2 c hc
    · exact he c hc

/-- A tick whose callbacks leave the cell's state alone moves the cell one tick further on
the ramp and sends to its LED what the ramp says. -/
theorem RampInv_tick (st : LedState)
    (hst : st = LedState.LED_BLINK_FAST ∨ st = LedState.LED_BLINK_SLOW) (x y n : Nat)
    (rcb : List MonomeCommand) (cb : TouchCallback) (now : Int) (g : MonomeGrid)
    (hx : x < g.mWidth) (hy : y < g.mHeight)
    (hr : ∀ c ∈ rcb, c.keeps g.mWidth g.mHeight x y st)
    (hcb : ∀ a b s, ∀ c ∈ cb a b s, c.keeps g.mWidth g.mHeight x y st)
    (h : RampInv st x y n g) :
    RampInv st x y (n + 1) (tickResult rcb cb now g).1 ∧
      pushesAt x y (tickResult rcb cb now g).2.leds = blinkPush st n := by
  obtain ⟨e, hd, he⟩ := drained_ext (fun c => c.keeps g.mWidth g.mHeight x y st) rcb cb now g
    hr hcb
  have h0 := RampInv_applyCell st hst x y n g h
  have h1 : OnRamp st n (applyCell g.mWidth g.mHeight g.mCommandsBuffer x y
      (longPressCellValue now (g.mGrid x y))) :=
    OnRamp_congr st n _ _
      (applyCell_ledState_congr _ _ _ _ _ _ _ (longPressCellValue_ledState now _))
      (by rw [applyCell_lastLedState, applyCell_lastLedState,
        longPressCellValue_lastLedState]) h0
  have hcell : (afterCommands rcb cb now g).mGrid x y =
      applyCell g.mWidth g.mHeight g.mCommandsBuffer x y
        (longPressCellValue now (g.mGrid x y)) := by
    rw [afterCommands_mGrid, if_pos ⟨hx, hy⟩, hd, applyCell_append,
      applyCell_keeps _ _ e _ _ st _ he (OnRamp_logical st hst n _ h1)]
  have hrender := OnRamp_render st hst n _ h1
  constructor
  · unfold RampInv
    rw [if_neg (Nat.succ_ne_zero n), tickResult_mGrid rcb cb now g x y hx hy, hcell,
      tickResult_mCommandsBuffer]
    exact ⟨hrender.1, fun c hm => absurd hm (List.not_mem_nil _)⟩
  · rw [tickResult_leds, pushesAt_renderLeds _ x y
      (by rw [afterCommands_mWidth]; exact hx) (by rw [afterCommands_mHeight]; exact hy),
      hcell]
    exact hrender.2


/-- A run whose steps leave the cell's state alone moves the cell along the ramp by the number
of its ticks, each tick sending to its LED what the ramp says. -/
theorem ramp_run (fuel : Nat) (st : LedState)
    (hst : st = LedState.LED_BLINK_FAST ∨ st = LedState.LED_BLINK_SLOW) (x y : Nat)
    (hfuel : 256 ≤ fuel) (steps : List Step) (g : MonomeGrid) (n : Nat)
    (hW : g.mWidth ≤ 255) (hH : g.mHeight ≤ 255) (hx : x < g.mWidth) (hy : y < g.mHeight)
    (hk : ∀ s ∈ steps, s.keeps g.mWidth g.mHeight x y st) (h : RampInv st x y n g) :
    ∃ r, run fuel g steps = some r ∧ RampInv st x y (n + countTicks steps) r.1 ∧
      r.2.map (fun o => pushesAt x y o.leds) = blinkPushes st n steps := by
  induction steps generalizing g n with
  | nil => exact ⟨(g, []), rfl, h, rfl⟩
  | cons s rest ih =>
    have hs := hk s (List.mem_cons_self _ _)
    have hrest : ∀ s' ∈ rest, s'.keeps g.mWidth g.mHeight x y st :=
      fun s' hm => hk s' (List.mem_cons_of_mem _ hm)
    cases s with
    | tick rcb cb now =>
      obtain ⟨ht, hp⟩ := RampInv_tick st hst x y n rcb cb now g hx hy hs.1 hs.2 h
      have hw := tickResult_mWidth rcb cb now g
      have hh := tickResult_mHeight rcb cb now g
      obtain ⟨q, hq, hqi, hqp⟩ := ih (tickResult rcb cb now g).1 (n + 1)
        (by rw [hw]; exact hW) (by rw [hh]; exact hH) (by rw [hw]; exact hx)
        (by rw [hh]; exact hy) (by rw [hw, hh]; exact hrest) ht
      refine ⟨(q.1, (tickResult rcb cb now g).2 :: q.2), ?_, ?_, ?_⟩
      · rw [run_cons]
        show (updateGrid fuel rcb cb now g).bind _ = _
        rw [updateGrid_eq fuel rcb cb now g hW hH hfuel]
        show Option.map _ (run fuel (tickResult rcb cb now g).1 rest) = _
        rw [hq, Option.map_some']
      · have : n + countTicks (Step.tick rcb cb now :: rest) = n + 1 + countTicks rest := by
          show n + (countTicks rest + 1) = n + 1 + countTicks rest
          omega
        rw [this]; exact hqi
      · show pushesAt x y (tickResult rcb cb now g).2.leds ::
            q.2.map (fun o => pushesAt x y o.leds) = blinkPush st n :: blinkPushes st (n + 1) rest
        rw [hp, hqp]
    | button cb now a b isDown =>
      have hw := buttonTouched_mWidth cb now g a b isDown
      have hh := buttonTouched_mHeight cb now g a b isDown
      obtain ⟨e, he, hq⟩ := buttonTouched_ext (fun c => c.keeps g.mWidth g.mHeight x y st)
        cb now g a b isDown hs
      have hi := RampInv_ext st hst x y n g _ e hw hh he hq
        (buttonTouched_ledState _ _ _ _ _ _ _ _) (buttonTouched_lastLedState _ _ _ _ _ _ _ _) h
      obtain ⟨q, hq, hqi, hqp⟩ := ih (buttonTouched cb now g a b isDown).1 n
        (by rw [hw]; exact hW) (by rw [hh]; exact hH) (by rw [hw]; exact hx)
        (by rw [hh]; exact hy) (by rw [hw, hh]; exact hrest) hi
      refine ⟨(q.1, { leds := [], touches := (buttonTouched cb now g a b isDown).2 } :: q.2),
        ?_, hqi, ?_⟩
      · rw [run_cons]
        show Option.map _ (run fuel (buttonTouched cb now g a b isDown).1 rest) = _
        rw [hq, Option.map_some']
      · show pushesAt x y [] :: q.2.map (fun o => pushesAt x y o.leds) =
          [] :: blinkPushes st n rest
        rw [hqp]; rfl
    | set cmd =>
      obtain ⟨e, he, hq⟩ := produceBytes_ext (fun c => c.keeps g.mWidth g.mHeight x y st)
        g.mCommandsBuffer cmd hs
      have hi := RampInv_ext st hst x y n g (enqueue g cmd) e rfl rfl he hq rfl rfl h
      obtain ⟨q, hq, hqi, hqp⟩ := ih (enqueue g cmd) n hW hH hx hy hrest hi
      refine ⟨(q.1, { leds := [], touches := [] } :: q.2), ?_, hqi, ?_⟩
      · rw [run_cons]
        show Option.map _ (run fuel (enqueue g cmd) rest) = _
        rw [hq, Option.map_some']
      · show pushesAt x y [] :: q.2.map (fun o => pushesAt x y o.leds) =
          [] :: blinkPushes st n rest
        rw [hqp]; rfl

set_option maxRecDepth 100000 in
theorem blinkLed_fast_distinct :
    ∀ p, p < 14 → 0 < p → blinkLed .LED_BLINK_FAST p ≠ blinkLed .LED_BLINK_FAST 0 := by
  decide

set_option maxRecDepth 100000 in
theorem blinkLed_slow_distinct :
    ∀ p, p < 62 → 0 < p → blinkLed .LED_BLINK_SLOW p ≠ blinkLed .LED_BLINK_SLOW 0 := by
  decide

/-- C4: on a square grid (the grids whose in-range cells the constructor allocates), let cell
`(x, y)` have just been moved to a blink state `st` (the records pending leave
it logically `st`, its last-pushed logical state is another one), and let every later `setXXX`
call that visits the cell ask for `st`. Then every run returns; after its `k+1`-th tick the
cell's `ledState` is `blinkLed st k`, and the brightnesses each step sends to the cell's LED are
`blinkPushes st 0`: a tick sends `blinkPush st k`, that is 1 when `k` is a multiple of the
period, 0 when `k` is `cycleLength - 1` more than a multiple, and nothing otherwise. The period
is `2 * cycleLength - 2`, that is 14 for `LED_BLINK_FAST` and 62 for `LED_BLINK_SLOW`; the
sequence `blinkLed st` repeats with that period and with no smaller one. -/
theorem C4_blink_ramp (fuel : Nat) (st : LedState)
    (hst : st = LedState.LED_BLINK_FAST ∨ st = LedState.LED_BLINK_SLOW) (g : MonomeGrid)
    (x y : Nat) (steps : List Step) (hW : g.mWidth ≤ 255) (hH : g.mHeight ≤ 255)
    (_hsq : g.mWidth = g.mHeight)
    (hfuel : 256 ≤ fuel) (hx : x < g.mWidth) (hy : y < g.mHeight)
    (hlog : (applyCell g.mWidth g.mHeight g.mCommandsBuffer x y (g.mGrid x y)).logical
      = st.toInt)
    (hlast : bitAnd (g.mGrid x y).lastLedState 3 ≠ st.toInt)
    (hk : ∀ s ∈ steps, s.keeps g.mWidth g.mHeight x y st) :
    (∃ r, run fuel g steps = some r ∧
      (0 < countTicks steps →
        (r.1.mGrid x y).ledState = blinkLed st (countTicks steps - 1)) ∧
      r.2.map (fun o => pushesAt x y o.leds) = blinkPushes st 0 steps) ∧
    (∀ k, blinkPush st k =
      if k % blinkPeriod st = 0 then [1]
      else if k % blinkPeriod st = cycleLength st - 1 then [0] else []) ∧
    blinkPeriod st = 2 * cycleLength st - 2 ∧
    cycleLength .LED_BLINK_FAST = 8 ∧ cycleLength .LED_BLINK_SLOW = 32 ∧
    (∀ k, blinkLed st (k + blinkPeriod st) = blinkLed st k) ∧
    (∀ p, 0 < p → p < blinkPeriod st → blinkLed st (0 + p) ≠ blinkLed st 0) := by
  have h0 : RampInv st x y 0 g := by
    unfold RampInv OnRamp
    rw [if_pos rfl, if_pos rfl, applyCell_lastLedState]
    exact ⟨hlog, hlast⟩
  obtain ⟨r, hr, hi, hp⟩ := ramp_run fuel st hst x y hfuel steps g 0 hW hH hx hy hk h0
  refine ⟨⟨r, hr, fun hpos => ?_, hp⟩, fun k => rfl, rfl, rfl, rfl, fun k => ?_, fun p hp0 hp => ?_⟩
  · unfold RampInv at hi
    rw [if_neg (by omega)] at hi
    have := hi.1
    unfold OnRamp at this
    rw [if_neg (by omega)] at this
    rw [this.1, Nat.zero_add]
  · exact blinkLed_congr st _ _ (by simp)
  · rw [Nat.zero_add]
    rcases hst with rfl | rfl
    · exact blinkLed_fast_distinct p hp hp0
    · exact blinkLed_slow_distinct p hp hp0

/-- C4 at a 1 x 1 grid whose cell is being set to fast blinking, over three ticks. -/
theorem C4_blink_ramp_witness :
    (fastPending.mWidth ≤ 255 ∧ fastPending.mHeight ≤ 255 ∧
      fastPending.mWidth = fastPending.mHeight ∧ 256 ≤ 256 ∧
      0 < fastPending.mWidth ∧ 0 < fastPending.mHeight ∧
      (applyCell fastPending.mWidth fastPending.mHeight fastPending.mCommandsBuffer 0 0
        (fastPending.mGrid 0 0)).logical = LedState.LED_BLINK_FAST.toInt ∧
      bitAnd (fastPending.mGrid 0 0).lastLedState 3 ≠ LedState.LED_BLINK_FAST.toInt ∧
      ∀ s ∈ threeTicks,
        s.keeps fastPending.mWidth fastPending.mHeight 0 0 .LED_BLINK_FAST) ∧
    ∃ r, run 256 fastPending threeTicks = some r ∧
      (0 < countTicks threeTicks →
        (r.1.mGrid 0 0).ledState = blinkLed .LED_BLINK_FAST (countTicks threeTicks - 1)) ∧
      r.2.map (fun o => pushesAt 0 0 o.leds) = blinkPushes .LED_BLINK_FAST 0 threeTicks :=
  have hk : ∀ s ∈ threeTicks,
      s.keeps fastPending.mWidth fastPending.mHeight 0 0 .LED_BLINK_FAST := by
    intro s hs
    simp only [threeTicks, List.mem_cons, List.mem_singleton, List.not_mem_nil, or_false] at hs
    rcases hs with rfl | rfl | rfl | rfl <;>
      simp [Step.keeps, MonomeCommand.keeps, MonomeCommand.state, silent]
  ⟨⟨by decide, by decide, rfl, by decide, by decide, by decide, by decide, by decide, hk⟩,
   (C4_blink_ramp 256 .LED_BLINK_FAST (Or.inl rfl) fastPending 0 0 threeTicks (by decide)
     (by decide) rfl (by decide) (by decide) (by decide) (by decide) (by decide) hk).1⟩


/-! ## Transition into blinking -/

theorem resetBlinkingBits_ledState (g : MonomeGrid) (x y : Nat) :
    ((resetBlinkingBits g x y).mGrid x y).ledState =
      resetBlinkingBitsValue (g.mGrid x y).ledState := by
  unfold resetBlinkingBits
  rw [setCell_mGrid, if_pos ⟨rfl, rfl⟩]

theorem resetValue_eq (st : LedState)
    (hst : st = LedState.LED_BLINK_FAST ∨ st = LedState.LED_BLINK_SLOW) (v : Int)
    (h : bitAnd v 3 = st.toInt) : resetBlinkingBitsValue v = resetValue st := by
  rcases hst with rfl | rfl
  · rw [resetBlinkingBitsValue_fast v h]; decide
  · rw [resetBlinkingBitsValue_slow v h]; decide

theorem handle_resetValue (st : LedState)
    (hst : st = LedState.LED_BLINK_FAST ∨ st = LedState.LED_BLINK_SLOW) :
    (handleLedBlinkLinearValue (resetValue st)).2 = [1] := by
  rcases hst with rfl | rfl <;> decide

/-- C5: on a square grid (the grids whose in-range cells the constructor allocates), when the
command drain of a tick leaves cell `(x, y)` logically `LED_BLINK_SLOW` (resp.
`LED_BLINK_FAST`) while its last-pushed logical state is another one, then whatever the other
bits of `ledState` are, `resetBlinkingBits` sets `ledState` to 255 (resp. 62), which encodes
phase `cycleLength - 1` with the direction flag set; the render step of the cell records that
value as `lastLedState` and sends brightness 1; and the tick returns with that `lastLedState`
and with exactly the push of brightness 1 for the cell. -/
theorem C5_reset_on_transition (fuel : Nat) (rcb : List MonomeCommand) (cb : TouchCallback)
    (now : Int) (g : MonomeGrid) (x y : Nat) (st : LedState) (ls : List LedSet)
    (hst : st = LedState.LED_BLINK_FAST ∨ st = LedState.LED_BLINK_SLOW)
    (hW : g.mWidth ≤ 255) (hH : g.mHeight ≤ 255) (_hsq : g.mWidth = g.mHeight)
    (hfuel : 256 ≤ fuel) (hx : x < g.mWidth) (hy : y < g.mHeight)
    (hlog : ((afterCommands rcb cb now g).mGrid x y).logical = st.toInt)
    (hlast : bitAnd ((afterCommands rcb cb now g).mGrid x y).lastLedState 3 ≠ st.toInt) :
    ((resetBlinkingBits (afterCommands rcb cb now g) x y).mGrid x y).ledState = resetValue st ∧
    resetValue .LED_BLINK_SLOW = 255 ∧ resetValue .LED_BLINK_FAST = 62 ∧
    bitAnd (shr (resetValue st) 2) ((cycleLength st : Int) - 1) = (cycleLength st : Int) - 1 ∧
    bitAnd (shr (resetValue st) 2) (cycleLength st : Int) ≠ 0 ∧
    ((renderCell x y (afterCommands rcb cb now g, ls)).1.mGrid x y).lastLedState
      = resetValue st ∧
    (renderCell x y (afterCommands rcb cb now g, ls)).2
      = ls ++ [{ x := x, y := y, brightness := 1 }] ∧
    ∃ r, updateGrid fuel rcb cb now g = some r ∧
      (r.1.mGrid x y).lastLedState = resetValue st ∧
      pushesAt x y r.2.leds = [1] := by
  have hb : ((afterCommands rcb cb now g).mGrid x y).logical = 2 ∨
      ((afterCommands rcb cb now g).mGrid x y).logical = 3 := by
    rcases hst with rfl | rfl
    · left; exact hlog
    · right; exact hlog
  have hg : ((afterCommands rcb cb now g).mGrid x y).ledState ≠
      ((afterCommands rcb cb now g).mGrid x y).lastLedState :=
    fun e => hlast (by rw [← e]; exact hlog)
  have hreset := resetValue_eq st hst _ hlog
  have hrender := renderCellValue_blink _ hg hb
  rw [if_pos (by rw [hlog]; exact hlast), hreset] at hrender
  refine ⟨?_, by decide, by decide, ?_, ?_, ?_, ?_, ?_⟩
  · rw [resetBlinkingBits_ledState, hreset]
  · rcases hst with rfl | rfl <;> decide
  · rcases hst with rfl | rfl <;> decide
  · rw [renderCell_mGrid, if_pos ⟨rfl, rfl⟩, hrender]
  · rw [renderCell_leds, hrender, handle_resetValue st hst]; rfl
  · refine ⟨tickResult rcb cb now g, updateGrid_eq fuel rcb cb now g hW hH hfuel, ?_, ?_⟩
    · rw [tickResult_mGrid rcb cb now g x y hx hy, hrender]
    · rw [tickResult_leds, pushesAt_renderLeds _ x y
        (by rw [afterCommands_mWidth]; exact hx) (by rw [afterCommands_mHeight]; exact hy),
        hrender, handle_resetValue st hst]

/-- C5 at a cell that is logically slow blinking with stale animation bits. -/
theorem C5_reset_on_transition_witness :
    (staleSlow.mWidth ≤ 255 ∧ staleSlow.mHeight ≤ 255 ∧
      staleSlow.mWidth = staleSlow.mHeight ∧ 256 ≤ 256 ∧
      0 < staleSlow.mWidth ∧ 0 < staleSlow.mHeight ∧
      ((afterCommands [] silent 0 staleSlow).mGrid 0 0).logical
        = LedState.LED_BLINK_SLOW.toInt ∧
      bitAnd ((afterCommands [] silent 0 staleSlow).mGrid 0 0).lastLedState 3
        ≠ LedState.LED_BLINK_SLOW.toInt) ∧
    ((resetBlinkingBits (afterCommands [] silent 0 staleSlow) 0 0).mGrid 0 0).ledState
      = resetValue .LED_BLINK_SLOW ∧
    ∃ r, updateGrid 256 [] silent 0 staleSlow = some r ∧
      (r.1.mGrid 0 0).lastLedState = resetValue .LED_BLINK_SLOW ∧
      pushesAt 0 0 r.2.leds = [1] :=
  have h := C5_reset_on_transition 256 [] silent 0 staleSlow 0 0 .LED_BLINK_SLOW []
    (Or.inr rfl) (by decide) (by decide) rfl (by decide) (by decide) (by decide) (by decide)
    (by decide)
  ⟨⟨by decide, by decide, rfl, by decide, by decide, by decide, by decide, by decide⟩,
   h.1, h.2.2.2.2.2.2.2⟩


/-! ## Repeated commands -/

theorem renderLeds_congr (g g' : MonomeGrid) (hw : g.mWidth = g'.mWidth)
    (hh : g.mHeight = g'.mHeight) (hc : ∀ i j, g.mGrid i j = g'.mGrid i j) :
    renderLeds g = renderLeds g' := by
  unfold renderLeds
  rw [hw, hh]
  simp only [hc]

theorem scanTouches_congr (now : Int) (g g' : MonomeGrid) (hw : g.mWidth = g'.mWidth)
    (hh : g.mHeight = g'.mHeight) (hc : ∀ i j, g.mGrid i j = g'.mGrid i j) :
    scanTouches now g = scanTouches now g' := by
  unfold scanTouches
  rw [hw, hh]
  simp only [hc]

/-- With callbacks that enqueue nothing, what the command drain leaves in a cell is the
conditional writes of the pending records on what the long-press scan left. -/
theorem afterCommands_silent (now : Int) (g : MonomeGrid) (i j : Nat) :
    (afterCommands [] silent now g).mGrid i j =
      applyCell g.mWidth g.mHeight g.mCommandsBuffer i j
        (if i < g.mWidth ∧ j < g.mHeight then longPressCellValue now (g.mGrid i j)
         else g.mGrid i j) := by
  rw [afterCommands_mGrid, drained_silent]

/-- A command whose state a cell already has leaves the cell as it is. -/
theorem applyCommand_same (g : MonomeGrid) (cmd : MonomeCommand) (x y : Nat)
    (h : (g.mGrid x y).logical = cmd.state.toInt) :
    (applyCommand g cmd).mGrid x y = g.mGrid x y := by
  rw [applyCommand_mGrid]
  split
  · exact writeCell_same _ _ h
  · rfl

theorem applyCell_logical_congr (w h : Nat) (cmds : List MonomeCommand) (i j : Nat)
    (c c' : MonomeCell) (hc : c.ledState = c'.ledState) :
    (applyCell w h cmds i j c).logical = (applyCell w h cmds i j c').logical := by
  unfold MonomeCell.logical
  rw [applyCell_ledState_congr w h cmds i j c c' hc]

/-- C6: a command whose requested state equals the logical state (`ledState & 3`) of a cell
leaves the whole cell unchanged, animation bits included. Hence, on a square grid (the grids
whose in-range cells the constructor allocates), when the records pending before a command
leave cell `(x, y)` in the state the command asks for, a tick that drains the
pending records with the command among them leaves in the cell what a tick without the
command leaves (the same `ledState`, blink phase included, and `lastLedState`), and sends the
same brightnesses to its LED. -/
theorem C6_same_state_command (fuel : Nat) (now : Int) (g : MonomeGrid) (cmd : MonomeCommand)
    (x y : Nat) (pre post : List MonomeCommand)
    (hW : g.mWidth ≤ 255) (hH : g.mHeight ≤ 255) (_hsq : g.mWidth = g.mHeight)
    (hfuel : 256 ≤ fuel) (hx : x < g.mWidth) (hy : y < g.mHeight)
    (hsame : (applyCell g.mWidth g.mHeight pre x y (g.mGrid x y)).logical
      = cmd.state.toInt) :
    (∀ g' : MonomeGrid, (g'.mGrid x y).logical = cmd.state.toInt →
      (applyCommand g' cmd).mGrid x y = g'.mGrid x y) ∧
    ∃ r r',
      updateGrid fuel [] silent now { g with mCommandsBuffer := pre ++ cmd :: post } = some r ∧
      updateGrid fuel [] silent now { g with mCommandsBuffer := pre ++ post } = some r' ∧
      r.1.mGrid x y = r'.1.mGrid x y ∧
      pushesAt x y r.2.leds = pushesAt x y r'.2.leds := by
  refine ⟨fun g' h => applyCommand_same g' cmd x y h, ?_⟩
  have hcell : (afterCommands [] silent now { g with mCommandsBuffer := pre ++ cmd :: post }).mGrid
      x y = (afterCommands [] silent now { g with mCommandsBuffer := pre ++ post }).mGrid x y := by
    rw [afterCommands_silent, afterCommands_silent]
    show applyCell g.mWidth g.mHeight (pre ++ cmd :: post) x y _ =
      applyCell g.mWidth g.mHeight (pre ++ post) x y _
    rw [if_pos ⟨hx, hy⟩, applyCell_append, applyCell_append, applyCell_cons]
    have hl : (applyCell g.mWidth g.mHeight pre x y
        (longPressCellValue now (g.mGrid x y))).logical = cmd.state.toInt := by
      rw [applyCell_logical_congr _ _ _ _ _ _ _ (longPressCellValue_ledState now _)]
      exact hsame
    have : (if cmd.targets g.mWidth g.mHeight x y then
        writeCell cmd.state (applyCell g.mWidth g.mHeight pre x y
          (longPressCellValue now (g.mGrid x y)))
        else applyCell g.mWidth g.mHeight pre x y (longPressCellValue now (g.mGrid x y))) =
        applyCell g.mWidth g.mHeight pre x y (longPressCellValue now (g.mGrid x y)) := by
      split
      · exact writeCell_same _ _ hl
      · rfl
    rw [this]
  refine ⟨_, _, updateGrid_eq fuel [] silent now _ hW hH hfuel,
    updateGrid_eq fuel [] silent now _ hW hH hfuel, ?_, ?_⟩
  · have e1 := tickResult_mGrid [] silent now
      { g with mCommandsBuffer := pre ++ cmd :: post } x y hx hy
    have e2 := tickResult_mGrid [] silent now { g with mCommandsBuffer := pre ++ post } x y hx hy
    rw [e1, e2, hcell]
  · have e1 := pushesAt_renderLeds
      (afterCommands [] silent now { g with mCommandsBuffer := pre ++ cmd :: post }) x y
      (by rw [afterCommands_mWidth]; exact hx) (by rw [afterCommands_mHeight]; exact hy)
    have e2 := pushesAt_renderLeds
      (afterCommands [] silent now { g with mCommandsBuffer := pre ++ post }) x y
      (by rw [afterCommands_mWidth]; exact hx) (by rw [afterCommands_mHeight]; exact hy)
    rw [tickResult_leds, tickResult_leds, e1, e2, hcell]

/-- C6 at a cell half way down a fast blink ramp, with `setRow(0, LED_BLINK_FAST)` issued
after `setOneLed(1, 1, LED_ON)`. -/
theorem C6_same_state_command_witness :
    (midRamp.mWidth ≤ 255 ∧ midRamp.mHeight ≤ 255 ∧ midRamp.mWidth = midRamp.mHeight ∧
      256 ≤ 256 ∧ 0 < midRamp.mWidth ∧ 0 < midRamp.mHeight ∧
      (applyCell midRamp.mWidth midRamp.mHeight [.SET_LED 1 1 .LED_ON] 0 0
        (midRamp.mGrid 0 0)).logical = (MonomeCommand.SET_ROW 0 .LED_BLINK_FAST).state.toInt) ∧
    ∃ r r',
      updateGrid 256 [] silent 0
        { midRamp with
          mCommandsBuffer := [.SET_LED 1 1 .LED_ON] ++ .SET_ROW 0 .LED_BLINK_FAST :: [] }
        = some r ∧
      updateGrid 256 [] silent 0
        { midRamp with mCommandsBuffer := [.SET_LED 1 1 .LED_ON] ++ [] } = some r' ∧
      r.1.mGrid 0 0 = r'.1.mGrid 0 0 ∧
      pushesAt 0 0 r.2.leds = pushesAt 0 0 r'.2.leds :=
  ⟨⟨by decide, by decide, rfl, by decide, by decide, by decide, by decide⟩,
   (C6_same_state_command 256 0 midRamp (.SET_ROW 0 .LED_BLINK_FAST) 0 0
     [.SET_LED 1 1 .LED_ON] [] (by decide) (by decide) rfl (by decide) (by decide) (by decide)
     (by decide)).2⟩

/-- C7: for every square grid (the grids whose in-range cells the constructor allocates),
every in-range `(x, y)` and every LED state `S`, a tick that drains
the batch `[SetOneLed(x,y,S), SetOneLed(x,y,S)]` and a tick that drains `[SetOneLed(x,y,S)]`
both return, with the same content in every cell, the same width, height and (empty) channel,
and the same outputs: the same list of `monome_led_set` calls and the same touch callback
invocations. -/
theorem C7_set_twice (fuel : Nat) (now : Int) (g : MonomeGrid) (x y : Nat) (S : LedState)
    (hW : g.mWidth ≤ 255) (hH : g.mHeight ≤ 255) (_hsq : g.mWidth = g.mHeight)
    (hfuel : 256 ≤ fuel)
    (_hx : x < g.mWidth) (_hy : y < g.mHeight) :
    ∃ r r',
      updateGrid fuel [] silent now
        { g with mCommandsBuffer := [.SET_LED x y S, .SET_LED x y S] } = some r ∧
      updateGrid fuel [] silent now { g with mCommandsBuffer := [.SET_LED x y S] } = some r' ∧
      (∀ i j, r.1.mGrid i j = r'.1.mGrid i j) ∧
      r.1.mWidth = r'.1.mWidth ∧ r.1.mHeight = r'.1.mHeight ∧
      r.1.mCommandsBuffer = r'.1.mCommandsBuffer ∧ r.2 = r'.2 := by
  have hcell : ∀ i j,
      (afterCommands [] silent now
        { g with mCommandsBuffer := [.SET_LED x y S, .SET_LED x y S] }).mGrid i j =
      (afterCommands [] silent now { g with mCommandsBuffer := [.SET_LED x y S] }).mGrid i j := by
    intro i j
    rw [afterCommands_silent, afterCommands_silent]
    show applyCell g.mWidth g.mHeight [.SET_LED x y S, .SET_LED x y S] i j _ =
      applyCell g.mWidth g.mHeight [.SET_LED x y S] i j _
    simp only [applyCell_cons, applyCell_nil]
    by_cases ht : (MonomeCommand.SET_LED x y S).targets g.mWidth g.mHeight i j
    · simp only [ht, if_true]
      exact writeCell_same _ _ (writeCell_logical _ _)
    · simp only [ht, if_false]
  have hw : (afterCommands [] silent now
      { g with mCommandsBuffer := [.SET_LED x y S, .SET_LED x y S] }).mWidth =
      (afterCommands [] silent now { g with mCommandsBuffer := [.SET_LED x y S] }).mWidth := by
    rw [afterCommands_mWidth, afterCommands_mWidth]
  have hh : (afterCommands [] silent now
      { g with mCommandsBuffer := [.SET_LED x y S, .SET_LED x y S] }).mHeight =
      (afterCommands [] silent now { g with mCommandsBuffer := [.SET_LED x y S] }).mHeight := by
    rw [afterCommands_mHeight, afterCommands_mHeight]
  refine ⟨_, _, updateGrid_eq fuel [] silent now _ hW hH hfuel,
    updateGrid_eq fuel [] silent now _ hW hH hfuel, ?_, ?_, ?_, ?_, ?_⟩
  · intro i j
    unfold tickResult
    rw [renderAll_mGrid, renderAll_mGrid, hw, hh, hcell]
  · rw [tickResult_mWidth, tickResult_mWidth]
  · rw [tickResult_mHeight, tickResult_mHeight]
  · rw [tickResult_mCommandsBuffer, tickResult_mCommandsBuffer]
  · have hl := renderLeds_congr _ _ hw hh hcell
    have ht : scanTouches now (runCallback
        { g with mCommandsBuffer := [.SET_LED x y S, .SET_LED x y S] } []) =
        scanTouches now (runCallback { g with mCommandsBuffer := [.SET_LED x y S] } []) :=
      scanTouches_congr now _ _ rfl rfl (fun _ _ => rfl)
    have e1 := tickResult_leds [] silent now
      { g with mCommandsBuffer := [.SET_LED x y S, .SET_LED x y S] }
    have e2 := tickResult_leds [] silent now { g with mCommandsBuffer := [.SET_LED x y S] }
    have e3 := tickResult_touches [] silent now
      { g with mCommandsBuffer := [.SET_LED x y S, .SET_LED x y S] }
    have e4 := tickResult_touches [] silent now { g with mCommandsBuffer := [.SET_LED x y S] }
    rw [hl] at e1
    rw [ht] at e3
    cases h1 : (tickResult [] silent now
      { g with mCommandsBuffer := [.SET_LED x y S, .SET_LED x y S] }).2 with
    | mk l1 t1 =>
      cases h2 : (tickResult [] silent now { g with mCommandsBuffer := [.SET_LED x y S] }).2 with
      | mk l2 t2 =>
        rw [h1] at e1 e3
        rw [h2] at e2 e4
        simp only at e1 e2 e3 e4
        rw [e1, e2, e3, e4]

/-- C7 at cell (0, 0) half way down a fast blink ramp, set to slow blinking. -/
theorem C7_set_twice_witness :
    (midRamp.mWidth ≤ 255 ∧ midRamp.mHeight ≤ 255 ∧ midRamp.mWidth = midRamp.mHeight ∧
      256 ≤ 256 ∧ 0 < midRamp.mWidth ∧ 0 < midRamp.mHeight) ∧
    ∃ r r',
      updateGrid 256 [] silent 0
        { midRamp with
          mCommandsBuffer := [.SET_LED 0 0 .LED_BLINK_SLOW, .SET_LED 0 0 .LED_BLINK_SLOW] }
        = some r ∧
      updateGrid 256 [] silent 0
        { midRamp with mCommandsBuffer := [.SET_LED 0 0 .LED_BLINK_SLOW] } = some r' ∧
      (∀ i j, r.1.mGrid i j = r'.1.mGrid i j) ∧
      r.1.mWidth = r'.1.mWidth ∧ r.1.mHeight = r'.1.mHeight ∧
      r.1.mCommandsBuffer = r'.1.mCommandsBuffer ∧ r.2 = r'.2 :=
  ⟨⟨by decide, by decide, rfl, by decide, by decide, by decide⟩,
   C7_set_twice 256 0 midRamp 0 0 .LED_BLINK_SLOW (by decide) (by decide) rfl (by decide)
     (by decide) (by decide)⟩


/-! ## Long presses -/

/-- C8 (the code at the failing input): a button of a 1 x 1 grid is pressed at clock reading 0
(microseconds). A tick 0.6 s later, and a tick 0.99 s later, leave `buttonState` at
`TOUCH_DOWN` and invoke no touch callback beyond the `TOUCH_DOWN` of the press, because
`duration_cast<seconds>` truncates the elapsed time to 0 whole seconds and 0 does not exceed
0.5; only a tick at least 1 s later sets `TOUCH_LONG` and invokes the callback with it. -/
theorem C8_long_press_truncated :
    ticksPerSecond = 1000000 ∧
    secondsCount 600000 = 0 ∧ exceedsLongPressTime (secondsCount 600000) = false ∧
    ((run 256 (construct 1 1) (pressAndTick 600000)).map fun r =>
      ((r.1.mGrid 0 0).buttonState, allTouches r.2)) =
      some (ButtonState.TOUCH_DOWN, [⟨0, 0, ButtonState.TOUCH_DOWN⟩]) ∧
    ((run 256 (construct 1 1) (pressAndTick 990000)).map fun r =>
      ((r.1.mGrid 0 0).buttonState, allTouches r.2)) =
      some (ButtonState.TOUCH_DOWN, [⟨0, 0, ButtonState.TOUCH_DOWN⟩]) ∧
    ((run 256 (construct 1 1) (pressAndTick 1000000)).map fun r =>
      ((r.1.mGrid 0 0).buttonState, allTouches r.2)) =
      some (ButtonState.TOUCH_LONG,
        [⟨0, 0, ButtonState.TOUCH_DOWN⟩, ⟨0, 0, ButtonState.TOUCH_LONG⟩]) := by
  refine ⟨by decide, by decide, by decide, by decide, by decide, by decide⟩

/-- The long-press test succeeds exactly when a whole second has elapsed. -/
theorem exceedsLongPressTime_iff (d : Int) :
    exceedsLongPressTime (secondsCount d) = true ↔ ticksPerSecond ≤ d := by
  unfold exceedsLongPressTime secondsCount ticksPerSecond
  rw [decide_eq_true_iff]
  by_cases hd : 0 ≤ d
  · rw [Int.tdiv_eq_ediv hd (by norm_num)]
    omega
  · have h1 : d = -(-d) := by omega
    have h2 : 0 ≤ (-d).tdiv 1000000 := Int.tdiv_nonneg (by omega) (by norm_num)
    have h3 : d.tdiv 1000000 = -((-d).tdiv 1000000) := by
      rw [← Int.neg_tdiv, ← h1]
    rw [h3]
    omega

theorem renderCellValue_buttonState (c : MonomeCell) :
    (renderCellValue c).1.buttonState = c.buttonState := by
  unfold renderCellValue
  repeat' split
  all_goals rfl

theorem renderCellValue_buttonDownTime (c : MonomeCell) :
    (renderCellValue c).1.buttonDownTime = c.buttonDownTime := by
  unfold renderCellValue
  repeat' split
  all_goals rfl

/-- The button state a tick leaves in a cell is the one the long-press scan leaves. -/
theorem tickResult_buttonState (rcb : List MonomeCommand) (cb : TouchCallback) (now : Int)
    (g : MonomeGrid) (x y : Nat) :
    ((tickResult rcb cb now g).1.mGrid x y).buttonState =
      (if x < g.mWidth ∧ y < g.mHeight then longPressCellValue now (g.mGrid x y)
       else g.mGrid x y).buttonState := by
  unfold tickResult
  rw [renderAll_mGrid, afterCommands_mWidth, afterCommands_mHeight]
  by_cases h : x < g.mWidth ∧ y < g.mHeight
  · rw [if_pos h, if_pos h, renderCellValue_buttonState, afterCommands_mGrid, if_pos h,
      applyCell_buttonState]
  · rw [if_neg h, if_neg h, afterCommands_mGrid, if_neg h, applyCell_buttonState]

theorem tickResult_buttonDownTime (rcb : List MonomeCommand) (cb : TouchCallback) (now : Int)
    (g : MonomeGrid) (x y : Nat) :
    ((tickResult rcb cb now g).1.mGrid x y).buttonDownTime = (g.mGrid x y).buttonDownTime := by
  unfold tickResult
  rw [renderAll_mGrid, afterCommands_mWidth, afterCommands_mHeight]
  have hl : (longPressCellValue now (g.mGrid x y)).buttonDownTime =
      (g.mGrid x y).buttonDownTime := by
    unfold longPressCellValue; split <;> rfl
  by_cases h : x < g.mWidth ∧ y < g.mHeight
  · rw [if_pos h, renderCellValue_buttonDownTime, afterCommands_mGrid, if_pos h,
      applyCell_buttonDownTime, hl]
  · rw [if_neg h, afterCommands_mGrid, if_neg h, applyCell_buttonDownTime]

theorem longPressesAt_append (x y : Nat) (l1 l2 : List Touch) :
    longPressesAt x y (l1 ++ l2) = longPressesAt x y l1 + longPressesAt x y l2 := by
  unfold longPressesAt; rw [List.filter_append, List.length_append]

theorem longPressesAt_column (x y i h : Nat) (P : Nat → Nat → Prop)
    [∀ a b, Decidable (P a b)] :
    longPressesAt x y ((List.range h).flatMap fun j =>
      if P i j then [{ x := i, y := j, state := ButtonState.TOUCH_LONG }] else []) =
      if i = x ∧ y < h ∧ P x y then 1 else 0 := by
  induction h with
  | zero => simp [longPressesAt]
  | succ h ih =>
    rw [List.range_succ, List.flatMap_append, longPressesAt_append, ih]
    simp only [List.flatMap_cons, List.flatMap_nil, List.append_nil]
    by_cases h1 : i = x ∧ h = y
    · obtain ⟨rfl, rfl⟩ := h1
      by_cases hp : P i h <;> simp [hp, longPressesAt]
    · have e : longPressesAt x y
          (if P i h then [{ x := i, y := h, state := ButtonState.TOUCH_LONG }] else []) = 0 := by
        unfold longPressesAt
        split
        · rw [List.filter_cons_of_neg (by simpa using fun a b => absurd ⟨a, b⟩ h1)]; rfl
        · rfl
      rw [e, Nat.add_zero]
      by_cases h2 : i = x ∧ y < h ∧ P x y
      · rw [if_pos h2, if_pos ⟨h2.1, by omega, h2.2.2⟩]
      · rw [if_neg h2, if_neg]
        rintro ⟨ha, hb, hc⟩
        rcases Nat.lt_succ_iff_lt_or_eq.mp hb with h3 | h3
        · exact h2 ⟨ha, h3, hc⟩
        · exact h1 ⟨ha, h3.symm⟩

theorem longPressesAt_grid (x y w h : Nat) (P : Nat → Nat → Prop)
    [∀ a b, Decidable (P a b)] :
    longPressesAt x y ((List.range w).flatMap fun i => (List.range h).flatMap fun j =>
      if P i j then [{ x := i, y := j, state := ButtonState.TOUCH_LONG }] else []) =
      if x < w ∧ y < h ∧ P x y then 1 else 0 := by
  induction w with
  | zero => simp [longPressesAt]
  | succ w ih =>
    rw [List.range_succ, List.flatMap_append, longPressesAt_append, ih]
    simp only [List.flatMap_cons, List.flatMap_nil, List.append_nil]
    rw [longPressesAt_column]
    have hC : (x < w + 1 ∧ y < h ∧ P x y) ↔
        (x < w ∧ y < h ∧ P x y) ∨ (w = x ∧ y < h ∧ P x y) := by
      constructor
      · rintro ⟨a, b, c⟩
        rcases Nat.lt_succ_iff_lt_or_eq.mp a with h3 | h3
        · exact Or.inl ⟨h3, b, c⟩
        · exact Or.inr ⟨h3.symm, b, c⟩
      · rintro (⟨a, b, c⟩ | ⟨a, b, c⟩)
        · exact ⟨by omega, b, c⟩
        · exact ⟨by omega, b, c⟩
    by_cases hA : x < w ∧ y < h ∧ P x y
    · have hB : ¬ (w = x ∧ y < h ∧ P x y) := fun hb => by have := hA.1; have := hb.1; omega
      rw [if_pos hA, if_neg hB, if_pos (hC.mpr (Or.inl hA))]
    · by_cases hB : w = x ∧ y < h ∧ P x y
      · rw [if_neg hA, if_pos hB, if_pos (hC.mpr (Or.inr hB))]
      · rw [if_neg hA, if_neg hB, if_neg (fun hc => (hC.mp hc).elim hA hB)]

/-- The long-press scan of a tick reports a long press for a cell once when the cell is inside
the grid, its button is held without a long press reported, and a whole second has elapsed
since it went down; otherwise not at all. -/
theorem longPressesAt_scanTouches (now : Int) (g : MonomeGrid) (x y : Nat) :
    longPressesAt x y (scanTouches now g) =
      if x < g.mWidth ∧ y < g.mHeight ∧
          ((g.mGrid x y).buttonState = ButtonState.TOUCH_DOWN ∧
            exceedsLongPressTime (secondsCount (now - (g.mGrid x y).buttonDownTime)) = true)
      then 1 else 0 :=
  longPressesAt_grid x y g.mWidth g.mHeight
    (fun i j => (g.mGrid i j).buttonState = ButtonState.TOUCH_DOWN ∧
      exceedsLongPressTime (secondsCount (now - (g.mGrid i j).buttonDownTime)) = true)


theorem armed_le_one (c : MonomeCell) : c.armed ≤ 1 := by
  unfold MonomeCell.armed; split <;> omega

/-- A tick reports at most one long press for a cell, and only by disarming it. -/
theorem tick_armed (rcb : List MonomeCommand) (cb : TouchCallback) (now : Int)
    (g : MonomeGrid) (x y : Nat) :
    longPressesAt x y (tickResult rcb cb now g).2.touches +
      ((tickResult rcb cb now g).1.mGrid x y).armed ≤ (g.mGrid x y).armed := by
  rw [tickResult_touches, longPressesAt_scanTouches, runCallback_mWidth, runCallback_mHeight,
    runCallback_mGrid]
  unfold MonomeCell.armed
  rw [tickResult_buttonState]
  by_cases hr : x < g.mWidth ∧ y < g.mHeight
  · by_cases hd : (g.mGrid x y).buttonState = ButtonState.TOUCH_DOWN
    · by_cases he : exceedsLongPressTime
          (secondsCount (now - (g.mGrid x y).buttonDownTime)) = true
      · simp [longPressCellValue, hr, hd, he]
      · simp [longPressCellValue, hr, hd, he]
    · simp [longPressCellValue, hr, hd]
  · have hr' : ¬ (x < g.mWidth ∧ y < g.mHeight ∧
        ((g.mGrid x y).buttonState = ButtonState.TOUCH_DOWN ∧
          exceedsLongPressTime (secondsCount (now - (g.mGrid x y).buttonDownTime)) = true)) :=
      fun h => hr ⟨h.1, h.2.1⟩
    rw [if_neg hr', if_neg hr]
    omega

/-- A tick less than a second after the button went down reports no long press for the
cell. -/
theorem tick_within (rcb : List MonomeCommand) (cb : TouchCallback) (now : Int)
    (g : MonomeGrid) (x y : Nat)
    (h : now - (g.mGrid x y).buttonDownTime < ticksPerSecond) :
    longPressesAt x y (tickResult rcb cb now g).2.touches = 0 := by
  rw [tickResult_touches, longPressesAt_scanTouches, runCallback_mGrid]
  have : ¬ exceedsLongPressTime (secondsCount (now - (g.mGrid x y).buttonDownTime)) = true := by
    rw [exceedsLongPressTime_iff]; omega
  rw [if_neg (fun hc => this hc.2.2.2)]

theorem allTouches_cons (o : TickOutput) (os : List TickOutput) :
    allTouches (o :: os) = o.touches ++ allTouches os := by
  simp [allTouches]

theorem allTouches_append (os os' : List TickOutput) :
    allTouches (os ++ os') = allTouches os ++ allTouches os' := by
  simp [allTouches]

theorem longPressesAt_buttonTouched (cb : TouchCallback) (now : Int) (g : MonomeGrid)
    (a b : Nat) (isDown : Bool) (x y : Nat) :
    longPressesAt x y (buttonTouched cb now g a b isDown).2 = 0 := by
  unfold buttonTouched longPressesAt
  cases isDown <;> simp

/-- Two runs in a row are the run of the two step lists in a row. -/
theorem run_append (fuel : Nat) (g : MonomeGrid) (l1 l2 : List Step)
    (r1 r2 : MonomeGrid × List TickOutput) (h1 : run fuel g l1 = some r1)
    (h2 : run fuel r1.1 l2 = some r2) :
    run fuel g (l1 ++ l2) = some (r2.1, r1.2 ++ r2.2) := by
  induction l1 generalizing g r1 with
  | nil =>
    simp only [run_nil, Option.some.injEq] at h1
    subst h1
    simpa using h2
  | cons s rest ih =>
    rw [run_cons] at h1
    rw [List.cons_append, run_cons]
    cases hs : step fuel g s with
    | none => rw [hs] at h1; simp at h1
    | some q =>
      rw [hs] at h1
      simp only [Option.some_bind] at h1 ⊢
      cases hq : run fuel q.1 rest with
      | none => rw [hq] at h1; simp at h1
      | some q' =>
        rw [hq] at h1
        simp only [Option.map_some', Option.some.injEq] at h1
        subst h1
        rw [ih q.1 q' hq h2]
        simp

/-- A run without button events on cell `(x, y)` reports at most as many long presses for the
cell as the cell was armed for, that is at most one, and none when the button is not down. -/
theorem run_armed (fuel : Nat) (x y : Nat) (hfuel : 256 ≤ fuel) (steps : List Step)
    (g : MonomeGrid) (hW : g.mWidth ≤ 255) (hH : g.mHeight ≤ 255)
    (hno : ∀ s ∈ steps, ¬ s.isButtonAt x y) :
    ∃ r, run fuel g steps = some r ∧ r.1.mWidth = g.mWidth ∧ r.1.mHeight = g.mHeight ∧
      longPressesAt x y (allTouches r.2) + (r.1.mGrid x y).armed ≤ (g.mGrid x y).armed := by
  induction steps generalizing g with
  | nil => exact ⟨(g, []), rfl, rfl, rfl, by simp [allTouches, longPressesAt]⟩
  | cons s rest ih =>
    have hs := hno s (List.mem_cons_self _ _)
    have hrest : ∀ s' ∈ rest, ¬ s'.isButtonAt x y :=
      fun s' hm => hno s' (List.mem_cons_of_mem _ hm)
    cases s with
    | tick rcb cb now =>
      have hw := tickResult_mWidth rcb cb now g
      have hh := tickResult_mHeight rcb cb now g
      obtain ⟨q, hq, hqw, hqh, hqa⟩ := ih (tickResult rcb cb now g).1
        (by rw [hw]; exact hW) (by rw [hh]; exact hH) hrest
      refine ⟨(q.1, (tickResult rcb cb now g).2 :: q.2), ?_, by rw [hqw, hw], by rw [hqh, hh],
        ?_⟩
      · rw [run_cons]
        show (updateGrid fuel rcb cb now g).bind _ = _
        rw [updateGrid_eq fuel rcb cb now g hW hH hfuel]
        show Option.map _ (run fuel (tickResult rcb cb now g).1 rest) = _
        rw [hq, Option.map_some']
      · have ht := tick_armed rcb cb now g x y
        rw [allTouches_cons, longPressesAt_append]
        dsimp only
        omega
    | button cb now a b isDown =>
      have hw := buttonTouched_mWidth cb now g a b isDown
      have hh := buttonTouched_mHeight cb now g a b isDown
      obtain ⟨q, hq, hqw, hqh, hqa⟩ := ih (buttonTouched cb now g a b isDown).1
        (by rw [hw]; exact hW) (by rw [hh]; exact hH) hrest
      refine ⟨(q.1, { leds := [], touches := (buttonTouched cb now g a b isDown).2 } :: q.2),
        ?_, by rw [hqw, hw], by rw [hqh, hh], ?_⟩
      · rw [run_cons]
        show Option.map _ (run fuel (buttonTouched cb now g a b isDown).1 rest) = _
        rw [hq, Option.map_some']
      · have hc : (buttonTouched cb now g a b isDown).1.mGrid x y = g.mGrid x y := by
          rw [buttonTouched_mGrid, if_neg (fun hc => hs ⟨hc.1.symm, hc.2.symm⟩)]
        rw [hc] at hqa
        rw [allTouches_cons, longPressesAt_append]
        show longPressesAt x y (buttonTouched cb now g a b isDown).2 + _ + _ ≤ _
        rw [longPressesAt_buttonTouched]
        dsimp only
        omega
    | set cmd =>
      obtain ⟨q, hq, hqw, hqh, hqa⟩ := ih (enqueue g cmd) hW hH hrest
      refine ⟨(q.1, { leds := [], touches := [] } :: q.2), ?_, hqw, hqh, ?_⟩
      · rw [run_cons]
        show Option.map _ (run fuel (enqueue g cmd) rest) = _
        rw [hq, Option.map_some']
      · rw [allTouches_cons, longPressesAt_append]
        have h0 : longPressesAt x y ({ leds := [], touches := [] } : TickOutput).touches = 0 :=
          rfl
        have hg : ((enqueue g cmd).mGrid x y).armed = (g.mGrid x y).armed := rfl
        rw [h0, ← hg]
        dsimp only
        omega

/-- A run without button events on cell `(x, y)`, all of whose ticks read the clock less than
a second after the cell's button went down, reports no long press for the cell. -/
theorem run_within (fuel : Nat) (x y : Nat) (t0 : Int) (hfuel : 256 ≤ fuel)
    (steps : List Step) (g : MonomeGrid) (hW : g.mWidth ≤ 255) (hH : g.mHeight ≤ 255)
    (hno : ∀ s ∈ steps, ¬ s.isButtonAt x y) (hin : ∀ s ∈ steps, s.within t0)
    (ht : (g.mGrid x y).buttonDownTime = t0) :
    ∃ r, run fuel g steps = some r ∧ r.1.mWidth = g.mWidth ∧ r.1.mHeight = g.mHeight ∧
      longPressesAt x y (allTouches r.2) = 0 := by
  induction steps generalizing g with
  | nil => exact ⟨(g, []), rfl, rfl, rfl, rfl⟩
  | cons s rest ih =>
    have hs := hno s (List.mem_cons_self _ _)
    have hi := hin s (List.mem_cons_self _ _)
    have hrest : ∀ s' ∈ rest, ¬ s'.isButtonAt x y :=
      fun s' hm => hno s' (List.mem_cons_of_mem _ hm)
    have hirest : ∀ s' ∈ rest, s'.within t0 :=
      fun s' hm => hin s' (List.mem_cons_of_mem _ hm)
    cases s with
    | tick rcb cb now =>
      have hw := tickResult_mWidth rcb cb now g
      have hh := tickResult_mHeight rcb cb now g
      obtain ⟨q, hq, hqw, hqh, hqa⟩ := ih (tickResult rcb cb now g).1
        (by rw [hw]; exact hW) (by rw [hh]; exact hH) hrest hirest
        (by rw [tickResult_buttonDownTime]; exact ht)
      refine ⟨(q.1, (tickResult rcb cb now g).2 :: q.2), ?_, by rw [hqw, hw], by rw [hqh, hh],
        ?_⟩
      · rw [run_cons]
        show (updateGrid fuel rcb cb now g).bind _ = _
        rw [updateGrid_eq fuel rcb cb now g hW hH hfuel]
        show Option.map _ (run fuel (tickResult rcb cb now g).1 rest) = _
        rw [hq, Option.map_some']
      · rw [allTouches_cons, longPressesAt_append, hqa,
          tick_within rcb cb now g x y (by rw [ht]; exact hi)]
    | button cb now a b isDown =>
      have hw := buttonTouched_mWidth cb now g a b isDown
      have hh := buttonTouched_mHeight cb now g a b isDown
      have hc : (buttonTouched cb now g a b isDown).1.mGrid x y = g.mGrid x y := by
        rw [buttonTouched_mGrid, if_neg (fun hc => hs ⟨hc.1.symm, hc.2.symm⟩)]
      obtain ⟨q, hq, hqw, hqh, hqa⟩ := ih (buttonTouched cb now g a b isDown).1
        (by rw [hw]; exact hW) (by rw [hh]; exact hH) hrest hirest (by rw [hc]; exact ht)
      refine ⟨(q.1, { leds := [], touches := (buttonTouched cb now g a b isDown).2 } :: q.2),
        ?_, by rw [hqw, hw], by rw [hqh, hh], ?_⟩
      · rw [run_cons]
        show Option.map _ (run fuel (buttonTouched cb now g a b isDown).1 rest) = _
        rw [hq, Option.map_some']
      · rw [allTouches_cons, longPressesAt_append, hqa]
        show longPressesAt x y (buttonTouched cb now g a b isDown).2 + 0 = 0
        rw [longPressesAt_buttonTouched]
    | set cmd =>
      obtain ⟨q, hq, hqw, hqh, hqa⟩ := ih (enqueue g cmd) hW hH hrest hirest ht
      refine ⟨(q.1, { leds := [], touches := [] } :: q.2), ?_, hqw, hqh, ?_⟩
      · rw [run_cons]
        show Option.map _ (run fuel (enqueue g cmd) rest) = _
        rw [hq, Option.map_some']
      · rw [allTouches_cons, longPressesAt_append, hqa]
        rfl


/-- C9: take button events and ticks as steps that run one after the other, on a square grid
(the grids whose in-range cells the constructor allocates) and an in-range cell `(x, y)`.
After a down event on cell `(x, y)`, any steps without a button event on that cell (ticks, button events on other
cells, `setXXX` calls, however many) invoke the touch callback with `TOUCH_LONG` for the cell
at most once. After an up event on the cell they never invoke it with `TOUCH_LONG` for the
cell. And when every tick between a down event at clock reading `t0` and the up event that
follows reads the clock less than a second after `t0` (in particular when the button is
released within 0.5 s), no `TOUCH_LONG` is ever reported for the cell, before or after the
release. -/
theorem C9_long_press_once (fuel : Nat) (g : MonomeGrid) (x y : Nat) (cb cb' : TouchCallback)
    (t0 t1 : Int) (steps steps' : List Step)
    (hW : g.mWidth ≤ 255) (hH : g.mHeight ≤ 255) (_hsq : g.mWidth = g.mHeight)
    (_hx : x < g.mWidth) (_hy : y < g.mHeight) (hfuel : 256 ≤ fuel)
    (hno : ∀ s ∈ steps, ¬ s.isButtonAt x y) (hno' : ∀ s ∈ steps', ¬ s.isButtonAt x y) :
    (∃ r, run fuel g (.button cb t0 x y true :: steps) = some r ∧
      longPressesAt x y (allTouches r.2) ≤ 1) ∧
    (∃ r, run fuel g (.button cb t0 x y false :: steps) = some r ∧
      longPressesAt x y (allTouches r.2) = 0) ∧
    ((∀ s ∈ steps, s.within t0) →
      ∃ r, run fuel g (.button cb t0 x y true :: (steps ++ .button cb' t1 x y false :: steps'))
          = some r ∧
        longPressesAt x y (allTouches r.2) = 0) := by
  have hstep : ∀ (c : TouchCallback) (t : Int) (d : Bool) (g0 : MonomeGrid) (l : List Step)
      (q : MonomeGrid × List TickOutput),
      run fuel (buttonTouched c t g0 x y d).1 l = some q →
      run fuel g0 (.button c t x y d :: l) =
        some (q.1, { leds := [], touches := (buttonTouched c t g0 x y d).2 } :: q.2) := by
    intro c t d g0 l q hq
    rw [run_cons]
    show Option.map _ (run fuel (buttonTouched c t g0 x y d).1 l) = _
    rw [hq, Option.map_some']
  have hcount : ∀ (c : TouchCallback) (t : Int) (d : Bool) (g0 : MonomeGrid)
      (os : List TickOutput),
      longPressesAt x y (allTouches
        ({ leds := [], touches := (buttonTouched c t g0 x y d).2 } :: os)) =
      longPressesAt x y (allTouches os) := by
    intro c t d g0 os
    rw [allTouches_cons, longPressesAt_append]
    show longPressesAt x y (buttonTouched c t g0 x y d).2 + _ = _
    rw [longPressesAt_buttonTouched, Nat.zero_add]
  have hup : ∀ (c : TouchCallback) (t : Int) (g0 : MonomeGrid),
      ((buttonTouched c t g0 x y false).1.mGrid x y).armed = 0 := by
    intro c t g0
    rw [buttonTouched_mGrid, if_pos ⟨rfl, rfl⟩]
    rfl
  refine ⟨?_, ?_, ?_⟩
  · obtain ⟨q, hq, _, _, hqa⟩ := run_armed fuel x y hfuel steps
      (buttonTouched cb t0 g x y true).1 (by rw [buttonTouched_mWidth]; exact hW)
      (by rw [buttonTouched_mHeight]; exact hH) hno
    refine ⟨_, hstep cb t0 true g steps q hq, ?_⟩
    rw [hcount]
    have := armed_le_one ((buttonTouched cb t0 g x y true).1.mGrid x y)
    omega
  · obtain ⟨q, hq, _, _, hqa⟩ := run_armed fuel x y hfuel steps
      (buttonTouched cb t0 g x y false).1 (by rw [buttonTouched_mWidth]; exact hW)
      (by rw [buttonTouched_mHeight]; exact hH) hno
    refine ⟨_, hstep cb t0 false g steps q hq, ?_⟩
    rw [hcount]
    have := hup cb t0 g
    omega
  · intro hin
    have hw1 := buttonTouched_mWidth cb t0 g x y true
    have hh1 := buttonTouched_mHeight cb t0 g x y true
    obtain ⟨q1, hq1, hq1w, hq1h, hq1a⟩ := run_within fuel x y t0 hfuel steps
      (buttonTouched cb t0 g x y true).1 (by rw [hw1]; exact hW) (by rw [hh1]; exact hH)
      hno hin (by rw [buttonTouched_mGrid, if_pos ⟨rfl, rfl⟩]; rfl)
    obtain ⟨q2, hq2, _, _, hq2a⟩ := run_armed fuel x y hfuel steps'
      (buttonTouched cb' t1 q1.1 x y false).1
      (by rw [buttonTouched_mWidth, hq1w, hw1]; exact hW)
      (by rw [buttonTouched_mHeight, hq1h, hh1]; exact hH) hno'
    have h2 := hstep cb' t1 false q1.1 steps' q2 hq2
    have h12 := run_append fuel _ steps _ q1 _ hq1 h2
    refine ⟨_, hstep cb t0 true g _ _ h12, ?_⟩
    rw [hcount]
    dsimp only
    rw [allTouches_append, longPressesAt_append, hq1a, hcount]
    have := hup cb' t1 q1.1
    omega

/-- C9 at a 1 x 1 grid whose button is pressed at clock reading 0 and held over three ticks,
or released after one early tick. -/
theorem C9_long_press_once_witness :
    ((construct 1 1).mWidth ≤ 255 ∧ (construct 1 1).mHeight ≤ 255 ∧
      (construct 1 1).mWidth = (construct 1 1).mHeight ∧
      0 < (construct 1 1).mWidth ∧ 0 < (construct 1 1).mHeight ∧ 256 ≤ 256 ∧
      (∀ s ∈ heldTicks, ¬ s.isButtonAt 0 0) ∧ (∀ s ∈ earlyTick, ¬ s.isButtonAt 0 0) ∧
      (∀ s ∈ earlyTick, s.within 0)) ∧
    (∃ r, run 256 (construct 1 1) (.button silent 0 0 0 true :: heldTicks) = some r ∧
      longPressesAt 0 0 (allTouches r.2) ≤ 1) ∧
    (∃ r, run 256 (construct 1 1)
        (.button silent 0 0 0 true :: (earlyTick ++ .button silent 400000 0 0 false :: heldTicks))
          = some r ∧
      longPressesAt 0 0 (allTouches r.2) = 0) :=
  have h1 : ∀ s ∈ heldTicks, ¬ s.isButtonAt 0 0 := by
    intro s hs
    simp only [heldTicks, List.mem_cons, List.mem_singleton, List.not_mem_nil, or_false] at hs
    rcases hs with rfl | rfl | rfl <;> exact fun h => h
  have h2 : ∀ s ∈ earlyTick, ¬ s.isButtonAt 0 0 := by
    intro s hs
    simp only [earlyTick, List.mem_singleton] at hs
    subst hs
    exact fun h => h
  have h3 : ∀ s ∈ earlyTick, s.within 0 := by
    intro s hs
    simp only [earlyTick, List.mem_singleton] at hs
    subst hs
    show (300000 : Int) - 0 < ticksPerSecond
    decide
  ⟨⟨by decide, by decide, rfl, by decide, by decide, by decide, h1, h2, h3⟩,
   (C9_long_press_once 256 (construct 1 1) 0 0 silent silent 0 400000 heldTicks heldTicks
     (by decide) (by decide) rfl (by decide) (by decide) (by decide) h1 h1).1,
   (C9_long_press_once 256 (construct 1 1) 0 0 silent silent 0 400000 earlyTick heldTicks
     (by decide) (by decide) rfl (by decide) (by decide) (by decide) h2 h1).2.2 h3⟩

/-! ## Event dispatch -/

theorem runCallback_mCommandsBuffer (g : MonomeGrid) (calls : List MonomeCommand) :
    (runCallback g calls).mCommandsBuffer = calls.foldl produceBytes g.mCommandsBuffer := by
  unfold runCallback
  induction calls generalizing g with
  | nil => rfl
  | cons c cs ih => rw [List.foldl_cons, ih]; rfl

/-- C10 as stated fails: a down event whose touch callback calls `setOneLed` leaves the
command channel with one more pending record than before. -/
theorem C10_channel_changed_by_callback :
    (buttonTouched lightOnTouch 0 (construct 1 1) 0 0 true).1.mCommandsBuffer
      = [.SET_LED 0 0 .LED_ON] ∧
    (construct 1 1).mCommandsBuffer = [] ∧
    (buttonTouched lightOnTouch 0 (construct 1 1) 0 0 true).1.mCommandsBuffer
      ≠ (construct 1 1).mCommandsBuffer := by
  refine ⟨by decide, by decide, by decide⟩

/-- C10, amended: for every state of a square grid (the grids whose in-range cells the
constructor allocates), every in-range `(x, y)` and every touch callback, a
down event sets the cell's `buttonDownTime` to the clock reading and its `buttonState` to
`TOUCH_DOWN` and invokes the callback once, with `(x, y, TOUCH_DOWN)`; an up event sets
`buttonState` to `TOUCH_UP` whatever it was, keeps `buttonDownTime` and invokes the callback
once, with `(x, y, TOUCH_UP)`. In both cases `ledState` and `lastLedState` of every cell, every
other cell, and the width and height are unchanged, and the command channel receives exactly
the `setXXX` calls the callback makes in that invocation: it is unchanged when the callback
makes none. -/
theorem C10_button_event (cb : TouchCallback) (now : Int) (g : MonomeGrid) (x y : Nat)
    (_hsq : g.mWidth = g.mHeight) (_hx : x < g.mWidth) (_hy : y < g.mHeight) :
    (((buttonTouched cb now g x y true).1.mGrid x y).buttonDownTime = now ∧
      ((buttonTouched cb now g x y true).1.mGrid x y).buttonState = ButtonState.TOUCH_DOWN ∧
      (buttonTouched cb now g x y true).2 = [⟨x, y, ButtonState.TOUCH_DOWN⟩] ∧
      (buttonTouched cb now g x y true).1.mCommandsBuffer =
        (cb x y ButtonState.TOUCH_DOWN).foldl produceBytes g.mCommandsBuffer) ∧
    (((buttonTouched cb now g x y false).1.mGrid x y).buttonState = ButtonState.TOUCH_UP ∧
      ((buttonTouched cb now g x y false).1.mGrid x y).buttonDownTime
        = (g.mGrid x y).buttonDownTime ∧
      (buttonTouched cb now g x y false).2 = [⟨x, y, ButtonState.TOUCH_UP⟩] ∧
      (buttonTouched cb now g x y false).1.mCommandsBuffer =
        (cb x y ButtonState.TOUCH_UP).foldl produceBytes g.mCommandsBuffer) ∧
    ∀ isDown : Bool,
      (∀ i j, ((buttonTouched cb now g x y isDown).1.mGrid i j).ledState
          = (g.mGrid i j).ledState ∧
        ((buttonTouched cb now g x y isDown).1.mGrid i j).lastLedState
          = (g.mGrid i j).lastLedState) ∧
      (∀ i j, ¬ (i = x ∧ j = y) →
        (buttonTouched cb now g x y isDown).1.mGrid i j = g.mGrid i j) ∧
      (buttonTouched cb now g x y isDown).1.mWidth = g.mWidth ∧
      (buttonTouched cb now g x y isDown).1.mHeight = g.mHeight ∧
      (cb x y (if isDown then ButtonState.TOUCH_DOWN else ButtonState.TOUCH_UP) = [] →
        (buttonTouched cb now g x y isDown).1.mCommandsBuffer = g.mCommandsBuffer) := by
  refine ⟨⟨?_, ?_, rfl, ?_⟩, ⟨?_, ?_, rfl, ?_⟩, fun isDown => ⟨fun i j => ⟨?_, ?_⟩, ?_, ?_, ?_, ?_⟩⟩
  · rw [buttonTouched_mGrid, if_pos ⟨rfl, rfl⟩]; rfl
  · rw [buttonTouched_mGrid, if_pos ⟨rfl, rfl⟩]; rfl
  · unfold buttonTouched; exact runCallback_mCommandsBuffer _ _
  · rw [buttonTouched_mGrid, if_pos ⟨rfl, rfl⟩]; rfl
  · rw [buttonTouched_mGrid, if_pos ⟨rfl, rfl⟩]; rfl
  · unfold buttonTouched; exact runCallback_mCommandsBuffer _ _
  · exact buttonTouched_ledState _ _ _ _ _ _ _ _
  · exact buttonTouched_lastLedState _ _ _ _ _ _ _ _
  · intro i j h
    rw [buttonTouched_mGrid, if_neg h]
  · exact buttonTouched_mWidth _ _ _ _ _ _
  · exact buttonTouched_mHeight _ _ _ _ _ _
  · intro h
    unfold buttonTouched
    rw [runCallback_mCommandsBuffer]
    dsimp only
    rw [h]
    rfl

/-- C10 (amended) at the 1 x 1 grid, with a callback that lights the LED of the button. -/
theorem C10_button_event_witness :
    ((construct 1 1).mWidth = (construct 1 1).mHeight ∧
      0 < (construct 1 1).mWidth ∧ 0 < (construct 1 1).mHeight) ∧
    ((buttonTouched lightOnTouch 7 (construct 1 1) 0 0 true).1.mGrid 0 0).buttonDownTime = 7 ∧
    ((buttonTouched lightOnTouch 7 (construct 1 1) 0 0 true).1.mGrid 0 0).buttonState
      = ButtonState.TOUCH_DOWN ∧
    (buttonTouched lightOnTouch 7 (construct 1 1) 0 0 true).2
      = [⟨0, 0, ButtonState.TOUCH_DOWN⟩] ∧
    (buttonTouched lightOnTouch 7 (construct 1 1) 0 0 true).1.mCommandsBuffer =
      (lightOnTouch 0 0 ButtonState.TOUCH_DOWN).foldl produceBytes
        (construct 1 1).mCommandsBuffer :=
  ⟨⟨rfl, by decide, by decide⟩,
   (C10_button_event lightOnTouch 7 (construct 1 1) 0 0 rfl (by decide) (by decide)).1⟩


/-! ## Allocation -/

theorem forRange_set_getElem? (v : Option (List MonomeCell)) (n : Nat) (l : RowTable)
    (x : Nat) :
    (forRange n (fun i rows => rows.set i v) l)[x]? =
      if x < n ∧ x < l.length then some v else l[x]? := by
  have hlen : ∀ n, (forRange n (fun i (rows : RowTable) => rows.set i v) l).length = l.length := by
    intro n
    induction n with
    | zero => rfl
    | succ n ih => rw [forRange_succ, List.length_set, ih]
  induction n with
  | zero => simp [forRange]
  | succ n ih =>
    rw [forRange_succ, List.getElem?_set, hlen n, ih]
    by_cases h1 : n = x
    · subst h1
      by_cases h2 : n < l.length
      · simp [h2]
      · have : l[n]? = none := List.getElem?_eq_none (by omega)
        simp [h2, this]
    · by_cases h2 : x < n ∧ x < l.length
      · have : x < n + 1 ∧ x < l.length := ⟨by omega, h2.2⟩
        rw [if_neg h1, if_pos h2, if_pos this]
      · have : ¬ (x < n + 1 ∧ x < l.length) := fun hc => h2 ⟨by omega, hc.2⟩
        rw [if_neg h1, if_neg h2, if_neg this]

/-- The accesses the constructor's allocation serves: `mGrid[x][y]` hits a cell exactly when
`x < mHeight` and `y < mWidth`, and the cell is then default-constructed. -/
theorem rowTableAt_allocateGrid (mWidth mHeight x y : Nat) :
    rowTableAt (allocateGrid mWidth mHeight) x y =
      if x < mHeight ∧ y < mWidth then some MonomeCell.new else none := by
  unfold rowTableAt allocateGrid
  rw [forRange_set_getElem?, List.length_replicate]
  by_cases h : x < mHeight ∧ y < mWidth
  · have hx : x < mWidth * mHeight := by
      have h1 : 1 ≤ mWidth := by omega
      calc x < mHeight := h.1
        _ = 1 * mHeight := (Nat.one_mul _).symm
        _ ≤ mWidth * mHeight := Nat.mul_le_mul_right _ h1
    rw [if_pos ⟨h.1, hx⟩, if_pos h]
    simp [h.2]
  · rw [if_neg h]
    by_cases h1 : x < mHeight ∧ x < mWidth * mHeight
    · rw [if_pos h1]
      have : mWidth ≤ y := Nat.le_of_not_lt fun hy => h ⟨h1.1, hy⟩
      show (List.replicate mWidth MonomeCell.new)[y]? = none
      exact List.getElem?_eq_none (by rw [List.length_replicate]; exact this)
    · rw [if_neg h1]
      cases hr : (List.replicate (mWidth * mHeight) (none : Option (List MonomeCell)))[x]? with
      | none => rfl
      | some o =>
        have := List.mem_replicate.mp (List.getElem?_mem hr)
        rw [this.2]

/-- C11 (the code at the failing input): for a 16 x 8 grid the constructor stores row pointers
in `mGrid[0..7]` only, each to a row of 16 cells, so the access `mGrid[8][0]` that the tick
makes for the in-range coordinate (8, 0) hits no allocated cell; likewise `mGrid[1][0]` for a
2 x 1 grid and `mGrid[0][1]` for a 1 x 2 grid. For a square 8 x 8 grid every in-range access
hits a default-constructed cell. -/
theorem C11_allocation_transposed :
    rowTableAt (allocateGrid 16 8) 8 0 = none ∧
    rowTableAt (allocateGrid 2 1) 1 0 = none ∧
    rowTableAt (allocateGrid 1 2) 0 1 = none ∧
    (∀ x, x < 8 → ∀ y, y < 8 → rowTableAt (allocateGrid 8 8) x y = some MonomeCell.new) := by
  refine ⟨?_, by decide, by decide, ?_⟩
  · rw [rowTableAt_allocateGrid]; decide
  · intro x hx y hy
    rw [rowTableAt_allocateGrid, if_pos ⟨hx, hy⟩]


/-! ## Whole-row and whole-grid commands -/

theorem flatMap_indicator {α : Type} (h y : Nat) (l : List α) :
    ((List.range h).flatMap fun j => if j = y then l else []) = if y < h then l else [] := by
  induction h with
  | zero => simp
  | succ h ih =>
    rw [List.range_succ, List.flatMap_append, ih]
    simp only [List.flatMap_cons, List.flatMap_nil, List.append_nil]
    by_cases h1 : h = y
    · subst h1
      simp
    · by_cases h2 : y < h
      · rw [if_pos h2, if_neg h1, if_pos (by omega), List.append_nil]
      · rw [if_neg h2, if_neg h1, if_neg (by omega), List.append_nil]

theorem flatMap_singleton_range {α : Type} (w : Nat) (f : Nat → α) :
    ((List.range w).flatMap fun x => [f x]) = (List.range w).map f := by
  induction w with
  | zero => rfl
  | succ w ih =>
    rw [List.range_succ, List.flatMap_append, List.map_append, ih]
    rfl

/-- The `monome_led_set` calls of a render pass in which only the cells of row `y` push, each
the single brightness `b`: one call per column, in column order. -/
theorem renderLeds_row (g : MonomeGrid) (y b : Nat) (hy : y < g.mHeight)
    (hrow : ∀ i j, i < g.mWidth → j < g.mHeight →
      (renderCellValue (g.mGrid i j)).2 = if j = y then [b] else []) :
    renderLeds g = (List.range g.mWidth).map fun x => { x := x, y := y, brightness := b } := by
  unfold renderLeds
  rw [← flatMap_singleton_range]
  apply List.flatMap_congr
  intro x hx
  have hx' := List.mem_range.mp hx
  have : ((List.range g.mHeight).flatMap fun j =>
      (renderCellValue (g.mGrid x j)).2.map fun b => ({ x := x, y := j, brightness := b } : LedSet)) =
      (List.range g.mHeight).flatMap fun j =>
        if j = y then [({ x := x, y := y, brightness := b } : LedSet)] else [] := by
    apply List.flatMap_congr
    intro j hj
    rw [hrow x j hx' (List.mem_range.mp hj)]
    by_cases h : j = y
    · rw [if_pos h, if_pos h, h]; rfl
    · rw [if_neg h, if_neg h]; rfl
  rw [this, flatMap_indicator, if_pos hy]

/-- The render pass sends nothing when the render step of no cell inside the grid does. -/
theorem renderLeds_nil (g : MonomeGrid)
    (h : ∀ i j, i < g.mWidth → j < g.mHeight → (renderCellValue (g.mGrid i j)).2 = []) :
    renderLeds g = [] := by
  unfold renderLeds
  rw [List.flatMap_eq_nil_iff]
  intro x hx
  rw [List.flatMap_eq_nil_iff]
  intro j hj
  rw [h x j (List.mem_range.mp hx) (List.mem_range.mp hj)]
  rfl

set_option maxRecDepth 100000 in
/-- C13 as stated fails: on the 8 x 8 grid as constructed, the tick that drains
`SetAllLeds(LED_OFF)` makes no `monome_led_set` call at all, so its pushes do not cover the 64
cells. -/
theorem C13_tick_sends_nothing :
    ((updateGrid 256 [] silent 0 freshAllOff).map fun r => r.2.leds) = some [] ∧
    ¬ ∃ r, updateGrid 256 [] silent 0 freshAllOff = some r ∧
      ∀ x, x < 8 → ∀ y, y < 8 → ({ x := x, y := y, brightness := 0 } : LedSet) ∈ r.2.leds := by
  have h : ((updateGrid 256 [] silent 0 freshAllOff).map fun r => r.2.leds) = some [] := by
    decide
  refine ⟨h, ?_⟩
  rintro ⟨r, hr, hall⟩
  rw [hr] at h
  simp only [Option.map_some', Option.some.injEq] at h
  have := hall 0 (by decide) 0 (by decide)
  rw [h] at this
  exact absurd this (List.not_mem_nil _)


set_option maxRecDepth 100000 in
/-- C13, amended: on the 8 x 8 grid as constructed, with `SetAllLeds(LED_OFF)` pending, one
tick returns, drains the record, makes no `monome_led_set` call (every cell is already off and
pushed), and all 64 LEDs show brightness 0, as sent by the constructor's `monome_led_all`; every
cell keeps `ledState = lastLedState = LED_OFF`. -/
theorem C13_all_off_stays_dark :
    freshAllOff.mCommandsBuffer = [.ALL_LEDS .LED_OFF] ∧
    ∃ r, updateGrid 256 [] silent 0 freshAllOff = some r ∧
      r.2.leds = [] ∧ r.1.mCommandsBuffer = [] ∧
      ∀ x, x < 8 → ∀ y, y < 8 →
        ledSets (ledAll 0) r.2.leds x y = 0 ∧
        (r.1.mGrid x y).ledState = LedState.LED_OFF.toInt ∧
        (r.1.mGrid x y).lastLedState = LedState.LED_OFF.toInt := by
  refine ⟨by decide, tickResult [] silent 0 freshAllOff,
    updateGrid_eq 256 [] silent 0 freshAllOff (by decide) (by decide) (by decide), by decide,
    tickResult_mCommandsBuffer _ _ _ _, by decide⟩

theorem longPressCellValue_buttonState_of_ne (now : Int) (c : MonomeCell)
    (h : c.buttonState ≠ ButtonState.TOUCH_DOWN) : longPressCellValue now c = c := by
  unfold longPressCellValue
  rw [if_neg (fun hc => h hc.1)]

/-- C12: on a square grid (width equal to height, at most 255) in which every cell is off
and pushed and nothing is pending, `setRow(y, LED_ON)` for an in-range row `y` followed by one tick makes
exactly `mWidth` `monome_led_set` calls, one for each cell `(x, y)` with `x < mWidth`, in
column order, each with brightness 1, and leaves those cells on and pushed; every cell whose
second coordinate differs from `y` keeps `ledState` and `lastLedState`, gets no push, and is
unchanged as a whole unless its button is being held (the long-press scan may then change
`buttonState`). -/
theorem C12_set_row_on (fuel : Nat) (now : Int) (g : MonomeGrid) (y : Nat)
    (hW : g.mWidth ≤ 255) (hH : g.mHeight ≤ 255) (_hsq : g.mWidth = g.mHeight)
    (hfuel : 256 ≤ fuel) (hy : y < g.mHeight)
    (hoff : ∀ i j, i < g.mWidth → j < g.mHeight →
      (g.mGrid i j).ledState = LedState.LED_OFF.toInt ∧
      (g.mGrid i j).lastLedState = LedState.LED_OFF.toInt)
    (hbuf : g.mCommandsBuffer = []) :
    ∃ r, updateGrid fuel [] silent now (setRow g y .LED_ON) = some r ∧
      r.2.leds = (List.range g.mWidth).map (fun x => { x := x, y := y, brightness := 1 }) ∧
      r.2.leds.length = g.mWidth ∧
      (∀ i, i < g.mWidth →
        (r.1.mGrid i y).ledState = LedState.LED_ON.toInt ∧
        (r.1.mGrid i y).lastLedState = LedState.LED_ON.toInt) ∧
      ∀ i j, j ≠ y →
        (r.1.mGrid i j).ledState = (g.mGrid i j).ledState ∧
        (r.1.mGrid i j).lastLedState = (g.mGrid i j).lastLedState ∧
        pushesAt i j r.2.leds = [] ∧
        ((g.mGrid i j).buttonState ≠ ButtonState.TOUCH_DOWN → r.1.mGrid i j = g.mGrid i j) := by
  have hb : (setRow g y .LED_ON).mCommandsBuffer = [.SET_ROW y .LED_ON] := by
    show produceBytes g.mCommandsBuffer _ = _
    rw [hbuf]; rfl
  have hac : ∀ i j, (afterCommands [] silent now (setRow g y .LED_ON)).mGrid i j =
      if i < g.mWidth ∧ j = y then
        writeCell .LED_ON (if i < g.mWidth ∧ j < g.mHeight then
          longPressCellValue now (g.mGrid i j) else g.mGrid i j)
      else (if i < g.mWidth ∧ j < g.mHeight then longPressCellValue now (g.mGrid i j)
        else g.mGrid i j) := by
    intro i j
    rw [afterCommands_silent, hb]
    rfl
  have hin : ∀ i j, i < g.mWidth → j < g.mHeight →
      (longPressCellValue now (g.mGrid i j)).ledState = 0 ∧
      (longPressCellValue now (g.mGrid i j)).lastLedState = 0 := by
    intro i j hi hj
    rw [longPressCellValue_ledState, longPressCellValue_lastLedState]
    exact hoff i j hi hj
  have hrow : ∀ i, i < g.mWidth →
      renderCellValue ((afterCommands [] silent now (setRow g y .LED_ON)).mGrid i y) =
        ({ longPressCellValue now (g.mGrid i y) with ledState := 1, lastLedState := 1 }, [1]) := by
    intro i hi
    obtain ⟨h1, h2⟩ := hin i y hi hy
    rw [hac, if_pos ⟨hi, rfl⟩, if_pos ⟨hi, hy⟩]
    have hw : writeCell .LED_ON (longPressCellValue now (g.mGrid i y)) =
        { longPressCellValue now (g.mGrid i y) with ledState := 1 } := by
      unfold writeCell
      rw [h1]
      rfl
    have hone : bitAnd 1 3 = 1 := by decide
    rw [hw, renderCellValue_on
      { longPressCellValue now (g.mGrid i y) with ledState := 1 }
      (by show (1 : Int) ≠ _; rw [h2]; decide) hone]
  have hother : ∀ i j, j ≠ y →
      (afterCommands [] silent now (setRow g y .LED_ON)).mGrid i j =
        (if i < g.mWidth ∧ j < g.mHeight then longPressCellValue now (g.mGrid i j)
         else g.mGrid i j) := by
    intro i j hj
    rw [hac, if_neg (fun hc => hj hc.2)]
  have hskip : ∀ i j, i < g.mWidth → j < g.mHeight → j ≠ y →
      renderCellValue ((afterCommands [] silent now (setRow g y .LED_ON)).mGrid i j) =
        (longPressCellValue now (g.mGrid i j), []) := by
    intro i j hi hj hne
    obtain ⟨h1, h2⟩ := hin i j hi hj
    rw [hother i j hne, if_pos ⟨hi, hj⟩, renderCellValue_skip _ (by rw [h1, h2])]
  have hleds : (tickResult [] silent now (setRow g y .LED_ON)).2.leds =
      (List.range g.mWidth).map (fun x => { x := x, y := y, brightness := 1 }) := by
    rw [tickResult_leds]
    have := renderLeds_row (afterCommands [] silent now (setRow g y .LED_ON)) y 1
      (by rw [afterCommands_mHeight]; exact hy)
      (by
        intro i j hi hj
        rw [afterCommands_mWidth] at hi
        rw [afterCommands_mHeight] at hj
        by_cases h : j = y
        · subst h; rw [hrow i hi, if_pos rfl]
        · rw [hskip i j hi hj h, if_neg h])
    rw [this, afterCommands_mWidth]
    rfl
  have hcellr : ∀ i j, (tickResult [] silent now (setRow g y .LED_ON)).1.mGrid i j =
      if i < g.mWidth ∧ j < g.mHeight then
        (renderCellValue ((afterCommands [] silent now (setRow g y .LED_ON)).mGrid i j)).1
      else (afterCommands [] silent now (setRow g y .LED_ON)).mGrid i j := by
    intro i j
    unfold tickResult
    rw [renderAll_mGrid, afterCommands_mWidth, afterCommands_mHeight]
    rfl
  have hfinal : ∀ i j, j ≠ y →
      (tickResult [] silent now (setRow g y .LED_ON)).1.mGrid i j =
        (if i < g.mWidth ∧ j < g.mHeight then longPressCellValue now (g.mGrid i j)
         else g.mGrid i j) := by
    intro i j hne
    rw [hcellr]
    by_cases hr : i < g.mWidth ∧ j < g.mHeight
    · rw [if_pos hr, if_pos hr, hskip i j hr.1 hr.2 hne]
    · rw [if_neg hr, if_neg hr, hother i j hne, if_neg hr]
  refine ⟨tickResult [] silent now (setRow g y .LED_ON),
    updateGrid_eq fuel [] silent now _ hW hH hfuel, hleds, ?_, ?_, ?_⟩
  · rw [hleds, List.length_map, List.length_range]
  · intro i hi
    rw [hcellr, if_pos ⟨hi, hy⟩, hrow i hi]
    exact ⟨rfl, rfl⟩
  · intro i j hne
    refine ⟨?_, ?_, ?_, ?_⟩
    · rw [hfinal i j hne]
      split
      · exact longPressCellValue_ledState _ _
      · rfl
    · rw [hfinal i j hne]
      split
      · exact longPressCellValue_lastLedState _ _
      · rfl
    · rw [hleds]
      unfold pushesAt
      rw [List.filter_eq_nil_iff.mpr, List.map_nil]
      intro l hl
      obtain ⟨x, _, rfl⟩ := List.mem_map.mp hl
      simpa using fun _ => (Ne.symm hne)
    · intro hbtn
      rw [hfinal i j hne]
      split
      · exact longPressCellValue_buttonState_of_ne now _ hbtn
      · rfl

/-- C12 at the 8 x 8 grid as constructed, for row 3: eight pushes of brightness 1. -/
theorem C12_set_row_on_witness :
    ((construct 8 8).mWidth ≤ 255 ∧ (construct 8 8).mHeight ≤ 255 ∧
      (construct 8 8).mWidth = (construct 8 8).mHeight ∧ 256 ≤ 256 ∧
      3 < (construct 8 8).mHeight ∧
      (∀ i j, i < (construct 8 8).mWidth → j < (construct 8 8).mHeight →
        ((construct 8 8).mGrid i j).ledState = LedState.LED_OFF.toInt ∧
        ((construct 8 8).mGrid i j).lastLedState = LedState.LED_OFF.toInt) ∧
      (construct 8 8).mCommandsBuffer = []) ∧
    ∃ r, updateGrid 256 [] silent 0 (setRow (construct 8 8) 3 .LED_ON) = some r ∧
      r.2.leds = (List.range 8).map (fun x => { x := x, y := 3, brightness := 1 }) ∧
      r.2.leds.length = 8 ∧
      (∀ i, i < 8 →
        (r.1.mGrid i 3).ledState = LedState.LED_ON.toInt ∧
        (r.1.mGrid i 3).lastLedState = LedState.LED_ON.toInt) ∧
      ∀ i j, j ≠ 3 →
        (r.1.mGrid i j).ledState = ((construct 8 8).mGrid i j).ledState ∧
        (r.1.mGrid i j).lastLedState = ((construct 8 8).mGrid i j).lastLedState ∧
        pushesAt i j r.2.leds = [] ∧
        (((construct 8 8).mGrid i j).buttonState ≠ ButtonState.TOUCH_DOWN →
          r.1.mGrid i j = (construct 8 8).mGrid i j) :=
  ⟨⟨by decide, by decide, rfl, by decide, by decide, fun _ _ _ _ => ⟨rfl, rfl⟩, rfl⟩,
   C12_set_row_on 256 0 (construct 8 8) 3 (by decide) (by decide) rfl (by decide) (by decide)
     (fun _ _ _ _ => ⟨rfl, rfl⟩) rfl⟩


/-! ## Channel capacity -/

theorem produceBytes_of_lt (buf : List MonomeCommand) (cmd : MonomeCommand)
    (h : buf.length < 1024) : produceBytes buf cmd = buf ++ [cmd] := by
  unfold produceBytes sizeofMonomeCommand bufferLength
  rw [if_pos (by omega)]

theorem produceBytes_of_ge (buf : List MonomeCommand) (cmd : MonomeCommand)
    (h : 1024 ≤ buf.length) : produceBytes buf cmd = buf := by
  unfold produceBytes sizeofMonomeCommand bufferLength
  rw [if_neg (by omega)]

/-- A sequence of enqueues accepts records until 1024 are pending and drops the rest. -/
theorem foldl_produceBytes (cmds buf : List MonomeCommand) :
    cmds.foldl produceBytes buf = buf ++ cmds.take (1024 - buf.length) := by
  induction cmds generalizing buf with
  | nil => simp
  | cons c cs ih =>
    rw [List.foldl_cons, ih]
    by_cases h : buf.length < 1024
    · rw [produceBytes_of_lt buf c h, List.length_append, List.length_singleton,
        List.append_assoc]
      obtain ⟨k, hk⟩ : ∃ k, 1024 - buf.length = k + 1 := ⟨1024 - buf.length - 1, by omega⟩
      rw [hk, List.take_succ_cons, show 1024 - (buf.length + 1) = k by omega]
      rfl
    · rw [produceBytes_of_ge buf c (by omega), show 1024 - buf.length = 0 by omega]
      simp

theorem fullGrid_length : fullGrid.mCommandsBuffer.length = 1024 :=
  List.length_replicate 1024 (MonomeCommand.ALL_LEDS .LED_OFF)

/-- C14: when the free space of the channel is smaller than one command record, `setAllLeds`,
`setOneLed`, `setRow` and `setColumn` return with the state exactly as it was: the new record
is dropped and the pending records are neither overwritten nor reordered nor lost. -/
theorem C14_full_channel_drops (g : MonomeGrid) (state : LedState) (x y : Nat)
    (hfull : bufferLength - g.mCommandsBuffer.length * sizeofMonomeCommand
      < sizeofMonomeCommand) :
    setAllLeds g state = g ∧ setOneLed g x y state = g ∧ setRow g y state = g ∧
    setColumn g x state = g ∧
    (setAllLeds g state).mCommandsBuffer = g.mCommandsBuffer ∧
    (setOneLed g x y state).mCommandsBuffer = g.mCommandsBuffer ∧
    (setRow g y state).mCommandsBuffer = g.mCommandsBuffer ∧
    (setColumn g x state).mCommandsBuffer = g.mCommandsBuffer := by
  have hge : 1024 ≤ g.mCommandsBuffer.length := by
    unfold bufferLength sizeofMonomeCommand at hfull
    omega
  have key : ∀ cmd, enqueue g cmd = g := by
    intro cmd
    unfold enqueue
    rw [produceBytes_of_ge _ _ hge]
  exact ⟨key _, key _, key _, key _, congrArg MonomeGrid.mCommandsBuffer (key _),
    congrArg MonomeGrid.mCommandsBuffer (key _), congrArg MonomeGrid.mCommandsBuffer (key _),
    congrArg MonomeGrid.mCommandsBuffer (key _)⟩

/-- C14 at a channel with 1024 records pending. -/
theorem C14_full_channel_drops_witness :
    bufferLength - fullGrid.mCommandsBuffer.length * sizeofMonomeCommand
      < sizeofMonomeCommand ∧
    (setOneLed fullGrid 0 0 .LED_ON).mCommandsBuffer = fullGrid.mCommandsBuffer :=
  have h : bufferLength - fullGrid.mCommandsBuffer.length * sizeofMonomeCommand
      < sizeofMonomeCommand := by
    rw [fullGrid_length]
    decide
  ⟨h, (C14_full_channel_drops fullGrid .LED_ON 0 0 h).2.2.2.2.2.1⟩

/-- C20 as stated fails: of 2000 `setAllLeds` calls made on the empty channel of the grid as
constructed, 1024 records are pending afterwards, not 2000; the channel holds
16384 / 16 = 1024 records. -/
theorem C20_only_1024_accepted :
    channelCapacity = 1024 ∧
    (runCallback (construct 8 8)
      (List.replicate 2000 (.ALL_LEDS .LED_ON))).mCommandsBuffer.length = 1024 ∧
    (runCallback (construct 8 8)
      (List.replicate 2000 (.ALL_LEDS .LED_ON))).mCommandsBuffer
        ≠ List.replicate 2000 (.ALL_LEDS .LED_ON) := by
  have hlen : (runCallback (construct 8 8)
      (List.replicate 2000 (.ALL_LEDS .LED_ON))).mCommandsBuffer.length = 1024 := by
    rw [runCallback_mCommandsBuffer, foldl_produceBytes]
    show ([] ++ (List.replicate 2000 (MonomeCommand.ALL_LEDS .LED_ON)).take (1024 - 0)).length
      = 1024
    rw [List.nil_append, List.length_take, List.length_replicate]
    decide
  refine ⟨by decide, hlen, fun h => ?_⟩
  rw [h, List.length_replicate] at hlen
  exact absurd hlen (by decide)

/-- C20, amended: the channel, initialised with 16384 bytes and carrying 16-byte records,
holds 1024 records. Of the `setXXX` calls made on an empty channel between two drains, the
first 1024 are accepted, in order, and the rest are dropped; when at most 1024 are made, all
are accepted, the next tick (on a square grid, whose in-range cells the constructor
allocates) drains exactly them, and it applies them to every cell in that order. -/
theorem C20_channel_holds_1024 (fuel : Nat) (now : Int) (g : MonomeGrid)
    (cmds : List MonomeCommand) (hW : g.mWidth ≤ 255) (hH : g.mHeight ≤ 255)
    (_hsq : g.mWidth = g.mHeight) (hfuel : 256 ≤ fuel) (hempty : g.mCommandsBuffer = []) :
    channelCapacity = 1024 ∧
    (runCallback g cmds).mCommandsBuffer = cmds.take 1024 ∧
    (cmds.length ≤ 1024 →
      (runCallback g cmds).mCommandsBuffer = cmds ∧
      drained [] silent now (runCallback g cmds) = cmds ∧
      ∃ r, updateGrid fuel [] silent now (runCallback g cmds) = some r ∧
        r.1.mCommandsBuffer = [] ∧
        ∀ i j, i < g.mWidth → j < g.mHeight →
          r.1.mGrid i j = (renderCellValue (applyCell g.mWidth g.mHeight cmds i j
            (longPressCellValue now (g.mGrid i j)))).1) := by
  have hb : (runCallback g cmds).mCommandsBuffer = cmds.take 1024 := by
    rw [runCallback_mCommandsBuffer, foldl_produceBytes, hempty]
    rfl
  refine ⟨by decide, hb, fun hlen => ?_⟩
  have hb' : (runCallback g cmds).mCommandsBuffer = cmds := by
    rw [hb, List.take_of_length_le hlen]
  have hw := runCallback_mWidth g cmds
  have hh := runCallback_mHeight g cmds
  refine ⟨hb', by rw [drained_silent, hb'], tickResult [] silent now (runCallback g cmds),
    updateGrid_eq fuel [] silent now _ (by rw [hw]; exact hW) (by rw [hh]; exact hH) hfuel,
    tickResult_mCommandsBuffer _ _ _ _, fun i j hi hj => ?_⟩
  rw [tickResult_mGrid [] silent now (runCallback g cmds) i j (by rw [hw]; exact hi)
    (by rw [hh]; exact hj), afterCommands_silent, hw, hh, hb', runCallback_mGrid,
    if_pos ⟨hi, hj⟩]

/-- C20 (amended) at the 8 x 8 grid as constructed, with two `setXXX` calls. -/
theorem C20_channel_holds_1024_witness :
    ((construct 8 8).mWidth ≤ 255 ∧ (construct 8 8).mHeight ≤ 255 ∧
      (construct 8 8).mWidth = (construct 8 8).mHeight ∧ 256 ≤ 256 ∧
      (construct 8 8).mCommandsBuffer = []) ∧
    (runCallback (construct 8 8) [.ALL_LEDS .LED_OFF, .SET_ROW 3 .LED_ON]).mCommandsBuffer =
      [MonomeCommand.ALL_LEDS .LED_OFF, .SET_ROW 3 .LED_ON].take 1024 :=
  ⟨⟨by decide, by decide, rfl, by decide, rfl⟩,
   (C20_channel_holds_1024 256 0 (construct 8 8) [.ALL_LEDS .LED_OFF, .SET_ROW 3 .LED_ON]
     (by decide) (by decide) rfl (by decide) rfl).2.1⟩


/-! ## One blink step, decoded -/

theorem blink_decoded_fast (v : Int) (h : bitAnd v 3 = 2) :
    (bitAnd (shr v 2) 7 = 0 →
      (handleLedBlinkLinearValue v).2 = [0] ∧
      bitAnd (shr (handleLedBlinkLinearValue v).1 2) 7 = 1 ∧
      bitAnd (shr (handleLedBlinkLinearValue v).1 2) 8 ≠ 0) ∧
    (bitAnd (shr v 2) 7 = 7 →
      (handleLedBlinkLinearValue v).2 = [1] ∧
      bitAnd (shr (handleLedBlinkLinearValue v).1 2) 7 = 6 ∧
      bitAnd (shr (handleLedBlinkLinearValue v).1 2) 8 = 0) ∧
    (bitAnd (shr v 2) 7 ≠ 0 → bitAnd (shr v 2) 7 ≠ 7 →
      (handleLedBlinkLinearValue v).2 = [] ∧
      bitAnd (shr (handleLedBlinkLinearValue v).1 2) 8 = bitAnd (shr v 2) 8 ∧
      (bitAnd (shr v 2) 8 ≠ 0 →
        bitAnd (shr (handleLedBlinkLinearValue v).1 2) 7 = bitAnd (shr v 2) 7 + 1) ∧
      (bitAnd (shr v 2) 8 = 0 →
        bitAnd (shr (handleLedBlinkLinearValue v).1 2) 7 = bitAnd (shr v 2) 7 - 1)) ∧
    (handleLedBlinkLinearValue v).1 =
      2 + 4 * (bitAnd (shr (handleLedBlinkLinearValue v).1 2) 7 +
        bitAnd (shr (handleLedBlinkLinearValue v).1 2) 8) := by
  have hp := bitAnd_range (shr v 2) 7 (by norm_num) (by norm_num)
  have hf := bitAnd_eight (shr v 2)
  have e1 : (blinkingSpeeds 1).bits = 8 := by decide
  have e2 : (blinkingSpeeds 1).log2Bits = 3 := by decide
  simp only [handleLedBlinkLinearValue, bitAnd_self_bitNot, h, LedState.toInt, if_true, e1, e2]
  norm_num only
  generalize bitAnd (shr v 2) 7 = p at *
  generalize bitAnd (shr v 2) 8 = f at *
  obtain ⟨hp0, hp1⟩ := hp
  interval_cases p <;> rcases hf with hf | hf <;> subst hf <;> decide

set_option maxHeartbeats 1000000 in
theorem blink_decoded_slow (v : Int) (h : bitAnd v 3 = 3) :
    (bitAnd (shr v 2) 31 = 0 →
      (handleLedBlinkLinearValue v).2 = [0] ∧
      bitAnd (shr (handleLedBlinkLinearValue v).1 2) 31 = 1 ∧
      bitAnd (shr (handleLedBlinkLinearValue v).1 2) 32 ≠ 0) ∧
    (bitAnd (shr v 2) 31 = 31 →
      (handleLedBlinkLinearValue v).2 = [1] ∧
      bitAnd (shr (handleLedBlinkLinearValue v).1 2) 31 = 30 ∧
      bitAnd (shr (handleLedBlinkLinearValue v).1 2) 32 = 0) ∧
    (bitAnd (shr v 2) 31 ≠ 0 → bitAnd (shr v 2) 31 ≠ 31 →
      (handleLedBlinkLinearValue v).2 = [] ∧
      bitAnd (shr (handleLedBlinkLinearValue v).1 2) 32 = bitAnd (shr v 2) 32 ∧
      (bitAnd (shr v 2) 32 ≠ 0 →
        bitAnd (shr (handleLedBlinkLinearValue v).1 2) 31 = bitAnd (shr v 2) 31 + 1) ∧
      (bitAnd (shr v 2) 32 = 0 →
        bitAnd (shr (handleLedBlinkLinearValue v).1 2) 31 = bitAnd (shr v 2) 31 - 1)) ∧
    (handleLedBlinkLinearValue v).1 =
      3 + 4 * (bitAnd (shr (handleLedBlinkLinearValue v).1 2) 31 +
        bitAnd (shr (handleLedBlinkLinearValue v).1 2) 32) := by
  have hp := bitAnd_range (shr v 2) 31 (by norm_num) (by norm_num)
  have hf := bitAnd_thirtyTwo (shr v 2)
  have e1 : (blinkingSpeeds 0).bits = 32 := by decide
  have e2 : (blinkingSpeeds 0).log2Bits = 5 := by decide
  simp only [handleLedBlinkLinearValue, bitAnd_self_bitNot, h, LedState.toInt, e1, e2]
  norm_num only [if_false]
  generalize bitAnd (shr v 2) 31 = p at *
  generalize bitAnd (shr v 2) 32 = f at *
  obtain ⟨hp0, hp1⟩ := hp
  interval_cases p <;> rcases hf with hf | hf <;> subst hf <;> decide

/-- C16: for every `ledState` whose low two bits are `LED_BLINK_FAST` or `LED_BLINK_SLOW`,
with `N` the cycle length of that preset, one call of `handleLedBlinkLinear` pushes
brightness 0 and moves the phase to 1 with the direction flag set when the decoded phase
is 0; pushes brightness 1 and moves the phase to `N - 2` with the flag cleared when the phase
is `N - 1`; otherwise pushes nothing, keeps the flag and moves the phase by +1 if the flag is
set and by -1 if it is clear. In every case the new value keeps the low two bits, its phase
is within `0 .. N - 1`, and it consists of the low two bits, the phase and the flag only. -/
theorem C16_blink_step (st : LedState)
    (hst : st = LedState.LED_BLINK_FAST ∨ st = LedState.LED_BLINK_SLOW) (v : Int)
    (hv : bitAnd v 3 = st.toInt) :
    (decodedPhase st v = 0 →
      (handleLedBlinkLinearValue v).2 = [0] ∧
      decodedPhase st (handleLedBlinkLinearValue v).1 = 1 ∧
      directionFlag st (handleLedBlinkLinearValue v).1 ≠ 0) ∧
    (decodedPhase st v = (cycleLength st : Int) - 1 →
      (handleLedBlinkLinearValue v).2 = [1] ∧
      decodedPhase st (handleLedBlinkLinearValue v).1 = (cycleLength st : Int) - 2 ∧
      directionFlag st (handleLedBlinkLinearValue v).1 = 0) ∧
    (decodedPhase st v ≠ 0 → decodedPhase st v ≠ (cycleLength st : Int) - 1 →
      (handleLedBlinkLinearValue v).2 = [] ∧
      directionFlag st (handleLedBlinkLinearValue v).1 = directionFlag st v ∧
      (directionFlag st v ≠ 0 →
        decodedPhase st (handleLedBlinkLinearValue v).1 = decodedPhase st v + 1) ∧
      (directionFlag st v = 0 →
        decodedPhase st (handleLedBlinkLinearValue v).1 = decodedPhase st v - 1)) ∧
    bitAnd (handleLedBlinkLinearValue v).1 3 = bitAnd v 3 ∧
    0 ≤ decodedPhase st (handleLedBlinkLinearValue v).1 ∧
    decodedPhase st (handleLedBlinkLinearValue v).1 ≤ (cycleLength st : Int) - 1 ∧
    (directionFlag st (handleLedBlinkLinearValue v).1 = 0 ∨
      directionFlag st (handleLedBlinkLinearValue v).1 = (cycleLength st : Int)) ∧
    (handleLedBlinkLinearValue v).1 =
      st.toInt + 4 * (decodedPhase st (handleLedBlinkLinearValue v).1 +
        directionFlag st (handleLedBlinkLinearValue v).1) := by
  rcases hst with rfl | rfl
  · have hv2 : bitAnd v 3 = 2 := hv
    have h := blink_decoded_fast v hv2
    have hr := bitAnd_range (shr (handleLedBlinkLinearValue v).1 2) 7 (by norm_num)
      (by norm_num)
    have hf := bitAnd_eight (shr (handleLedBlinkLinearValue v).1 2)
    have e7 : ((cycleLength .LED_BLINK_FAST : Nat) : Int) - 1 = 7 := by decide
    have e6 : ((cycleLength .LED_BLINK_FAST : Nat) : Int) - 2 = 6 := by decide
    have e8 : ((cycleLength .LED_BLINK_FAST : Nat) : Int) = 8 := by decide
    unfold decodedPhase directionFlag
    rw [e7, e6, e8]
    exact ⟨h.1, h.2.1, h.2.2.1, handleLedBlinkLinearValue_low v (Or.inl hv2), hr.1, hr.2, hf,
      h.2.2.2⟩
  · have hv3 : bitAnd v 3 = 3 := hv
    have h := blink_decoded_slow v hv3
    have hr := bitAnd_range (shr (handleLedBlinkLinearValue v).1 2) 31 (by norm_num)
      (by norm_num)
    have hf := bitAnd_thirtyTwo (shr (handleLedBlinkLinearValue v).1 2)
    have e7 : ((cycleLength .LED_BLINK_SLOW : Nat) : Int) - 1 = 31 := by decide
    have e6 : ((cycleLength .LED_BLINK_SLOW : Nat) : Int) - 2 = 30 := by decide
    have e8 : ((cycleLength .LED_BLINK_SLOW : Nat) : Int) = 32 := by decide
    unfold decodedPhase directionFlag
    rw [e7, e6, e8]
    exact ⟨h.1, h.2.1, h.2.2.1, handleLedBlinkLinearValue_low v (Or.inr hv3), hr.1, hr.2, hf,
      h.2.2.2⟩

/-- C16 at the value 2 (`LED_BLINK_FAST`, phase 0, flag clear): brightness 0 is pushed, the
phase becomes 1 and the flag is set. -/
theorem C16_blink_step_witness :
    bitAnd 2 3 = LedState.LED_BLINK_FAST.toInt ∧
    (decodedPhase .LED_BLINK_FAST 2 = 0 →
      (handleLedBlinkLinearValue 2).2 = [0] ∧
      decodedPhase .LED_BLINK_FAST (handleLedBlinkLinearValue 2).1 = 1 ∧
      directionFlag .LED_BLINK_FAST (handleLedBlinkLinearValue 2).1 ≠ 0) :=
  ⟨by decide, (C16_blink_step .LED_BLINK_FAST (Or.inl rfl) 2 (by decide)).1⟩


/-! ## Grids without blinking cells -/

/-- The render step on a cell that is logically off or on keeps `ledState` and leaves
`lastLedState` equal to it. -/
theorem renderCellValue_settled (c : MonomeCell) (h : c.logical = 0 ∨ c.logical = 1) :
    (renderCellValue c).1.ledState = c.ledState ∧
    (renderCellValue c).1.lastLedState = c.ledState := by
  by_cases hg : c.ledState = c.lastLedState
  · rw [renderCellValue_skip c hg]
    exact ⟨rfl, hg.symm⟩
  · rcases h with h | h
    · rw [renderCellValue_off c hg h]
      exact ⟨rfl, rfl⟩
    · rw [renderCellValue_on c hg h]
      exact ⟨rfl, rfl⟩

set_option maxRecDepth 100000 in
/-- C17 as stated fails: on the 1 x 1 grid as constructed no cell is logically blinking, yet
after the tick that drains `setOneLed(0, 0, LED_BLINK_FAST)` the cell has `ledState` 26 and
`lastLedState` 62, and the following tick, with nothing pending, changes them to 22 and 26. -/
theorem C17_blink_command_unsettled :
    (∀ i j, (blinkRequested.mGrid i j).logical = 0) ∧
    (updateGrid 256 [] silent 0 blinkRequested).map
      (fun r => ((r.1.mGrid 0 0).ledState, (r.1.mGrid 0 0).lastLedState, r.1.mCommandsBuffer))
      = some (26, 62, []) ∧
    ((updateGrid 256 [] silent 0 blinkRequested).bind fun r =>
      (updateGrid 256 [] silent 20000 r.1).map
        (fun q => ((q.1.mGrid 0 0).ledState, (q.1.mGrid 0 0).lastLedState)))
      = some (22, 26) := by
  refine ⟨fun i j => ?_, by decide, by decide⟩
  show MonomeCell.new.logical = 0
  decide

/-- C17, amended: on a square grid (the grids whose in-range cells the constructor
allocates), when no cell is logically blinking once a tick has applied its commands,
the tick returns with `lastLedState = ledState` in every cell, and a following tick whose
callbacks enqueue nothing returns with no device push and with `ledState` and `lastLedState`
of every cell unchanged. -/
theorem C17_no_blink_settles (fuel : Nat) (rcb : List MonomeCommand) (cb : TouchCallback)
    (now now2 : Int) (g : MonomeGrid)
    (hW : g.mWidth ≤ 255) (hH : g.mHeight ≤ 255) (_hsq : g.mWidth = g.mHeight)
    (hfuel : 256 ≤ fuel)
    (hnb : ∀ i j, i < g.mWidth → j < g.mHeight →
      ((afterCommands rcb cb now g).mGrid i j).logical = 0 ∨
      ((afterCommands rcb cb now g).mGrid i j).logical = 1) :
    ∃ r, updateGrid fuel rcb cb now g = some r ∧
      (∀ i j, i < g.mWidth → j < g.mHeight →
        (r.1.mGrid i j).lastLedState = (r.1.mGrid i j).ledState) ∧
      ∃ q, updateGrid fuel [] silent now2 r.1 = some q ∧
        q.2.leds = [] ∧
        ∀ i j, i < g.mWidth → j < g.mHeight →
          (q.1.mGrid i j).ledState = (r.1.mGrid i j).ledState ∧
          (q.1.mGrid i j).lastLedState = (r.1.mGrid i j).lastLedState := by
  have hw := tickResult_mWidth rcb cb now g
  have hh := tickResult_mHeight rcb cb now g
  have hb := tickResult_mCommandsBuffer rcb cb now g
  have hset : ∀ i j, i < g.mWidth → j < g.mHeight →
      ((tickResult rcb cb now g).1.mGrid i j).lastLedState =
        ((tickResult rcb cb now g).1.mGrid i j).ledState := by
    intro i j hi hj
    rw [tickResult_mGrid rcb cb now g i j hi hj]
    have h := renderCellValue_settled _ (hnb i j hi hj)
    rw [h.1, h.2]
  have hcell : ∀ i j, i < g.mWidth → j < g.mHeight →
      (afterCommands [] silent now2 (tickResult rcb cb now g).1).mGrid i j =
        longPressCellValue now2 ((tickResult rcb cb now g).1.mGrid i j) := by
    intro i j hi hj
    have hc : i < (tickResult rcb cb now g).1.mWidth ∧ j < (tickResult rcb cb now g).1.mHeight :=
      ⟨by rw [hw]; exact hi, by rw [hh]; exact hj⟩
    rw [afterCommands_silent, hb, applyCell_nil, if_pos hc]
  have hskip : ∀ i j, i < g.mWidth → j < g.mHeight →
      renderCellValue ((afterCommands [] silent now2 (tickResult rcb cb now g).1).mGrid i j) =
        (longPressCellValue now2 ((tickResult rcb cb now g).1.mGrid i j), []) := by
    intro i j hi hj
    rw [hcell i j hi hj]
    apply renderCellValue_skip
    rw [longPressCellValue_ledState, longPressCellValue_lastLedState, hset i j hi hj]
  refine ⟨tickResult rcb cb now g, updateGrid_eq fuel rcb cb now g hW hH hfuel, hset,
    tickResult [] silent now2 (tickResult rcb cb now g).1,
    updateGrid_eq fuel [] silent now2 _ (by rw [hw]; exact hW) (by rw [hh]; exact hH) hfuel,
    ?_, ?_⟩
  · rw [tickResult_leds]
    apply renderLeds_nil
    intro i j hi hj
    rw [afterCommands_mWidth, hw] at hi
    rw [afterCommands_mHeight, hh] at hj
    rw [hskip i j hi hj]
  · intro i j hi hj
    rw [tickResult_mGrid [] silent now2 (tickResult rcb cb now g).1 i j (by rw [hw]; exact hi)
      (by rw [hh]; exact hj), hskip i j hi hj]
    exact ⟨longPressCellValue_ledState _ _, longPressCellValue_lastLedState _ _⟩

set_option maxRecDepth 100000 in
/-- C17 (amended) at the 8 x 8 grid as constructed with `setAllLeds(LED_OFF)` pending. -/
theorem C17_no_blink_settles_witness :
    (freshAllOff.mWidth ≤ 255 ∧ freshAllOff.mHeight ≤ 255 ∧
      freshAllOff.mWidth = freshAllOff.mHeight ∧ 256 ≤ 256 ∧
      ∀ i j, i < freshAllOff.mWidth → j < freshAllOff.mHeight →
        ((afterCommands [] silent 0 freshAllOff).mGrid i j).logical = 0 ∨
        ((afterCommands [] silent 0 freshAllOff).mGrid i j).logical = 1) ∧
    ∃ r, updateGrid 256 [] silent 0 freshAllOff = some r ∧
      (∀ i j, i < freshAllOff.mWidth → j < freshAllOff.mHeight →
        (r.1.mGrid i j).lastLedState = (r.1.mGrid i j).ledState) ∧
      ∃ q, updateGrid 256 [] silent 20000 r.1 = some q ∧
        q.2.leds = [] ∧
        ∀ i j, i < freshAllOff.mWidth → j < freshAllOff.mHeight →
          (q.1.mGrid i j).ledState = (r.1.mGrid i j).ledState ∧
          (q.1.mGrid i j).lastLedState = (r.1.mGrid i j).lastLedState :=
  have hnb : ∀ i j, i < freshAllOff.mWidth → j < freshAllOff.mHeight →
      ((afterCommands [] silent 0 freshAllOff).mGrid i j).logical = 0 ∨
      ((afterCommands [] silent 0 freshAllOff).mGrid i j).logical = 1 := by
    intro i j hi hj
    left
    have hc : i < freshAllOff.mWidth ∧ j < freshAllOff.mHeight := ⟨hi, hj⟩
    rw [afterCommands_silent, if_pos hc]
    show (applyCell freshAllOff.mWidth freshAllOff.mHeight [.ALL_LEDS .LED_OFF] i j
      (longPressCellValue 0 MonomeCell.new)).logical = 0
    rw [applyCell_cons, applyCell_nil]
    have ht : (MonomeCommand.ALL_LEDS .LED_OFF).targets freshAllOff.mWidth
        freshAllOff.mHeight i j := hc
    rw [if_pos ht]
    decide
  ⟨⟨by decide, by decide, rfl, by decide, hnb⟩,
   C17_no_blink_settles 256 [] silent 0 20000 freshAllOff
     (by decide) (by decide) rfl (by decide) hnb⟩


/-! ## What the callbacks of a tick enqueue -/

/-- A quantity that iteration `k` of a loop advances by folding `f` over `O k s`, when `O k s`
reads only cells that iteration `k` touches: the loop folds `f` over the outputs computed on
the initial state. -/
theorem forRange_fold {σ β γ : Type} (cell : σ → Nat → Nat → MonomeCell)
    (loc : Nat → Nat → Nat → Prop) [∀ k i j, Decidable (loc k i j)]
    (F : Nat → Nat → MonomeCell → MonomeCell) (body : Nat → σ → σ)
    (hbody : ∀ k s i j, cell (body k s) i j =
      if loc k i j then F i j (cell s i j) else cell s i j)
    (hdisj : ∀ k k' i j, loc k i j → loc k' i j → k = k')
    (acc : σ → β) (f : β → γ → β) (O : Nat → σ → List γ)
    (hacc : ∀ k s, acc (body k s) = (O k s).foldl f (acc s))
    (hO : ∀ k s s', (∀ i j, loc k i j → cell s i j = cell s' i j) → O k s = O k s')
    (n : Nat) (s : σ) :
    acc (forRange n body s) = ((List.range n).flatMap (fun k => O k s)).foldl f (acc s) := by
  induction n with
  | zero => simp [forRange]
  | succ n ih =>
    have e : O n (forRange n body s) = O n s := by
      apply hO
      intro i j hl
      apply forRange_cell_other cell loc F body hbody
      intro k' hk' hl'
      have := hdisj k' n i j hl' hl
      omega
    rw [forRange_succ, hacc, ih, List.range_succ, List.flatMap_append, List.foldl_append, e]
    simp only [List.flatMap_cons, List.flatMap_nil, List.append_nil]

theorem column_fold {σ β γ : Type} (cell : σ → Nat → Nat → MonomeCell)
    (F : Nat → Nat → MonomeCell → MonomeCell) (body : Nat → Nat → σ → σ)
    (hbody : ∀ x y s i j, cell (body x y s) i j =
      if i = x ∧ j = y then F i j (cell s i j) else cell s i j)
    (acc : σ → β) (f : β → γ → β) (O : Nat → Nat → MonomeCell → List γ)
    (hacc : ∀ x y s, acc (body x y s) = (O x y (cell s x y)).foldl f (acc s))
    (x h : Nat) (s : σ) :
    acc (forRange h (fun y => body x y) s) =
      ((List.range h).flatMap (fun y => O x y (cell s x y))).foldl f (acc s) :=
  forRange_fold cell (fun k i j => i = x ∧ j = k) F _
    (fun k s i j => hbody x k s i j)
    (fun k k' i j h1 h2 => h1.2.symm.trans h2.2) acc f (fun k s => O x k (cell s x k))
    (fun k s => hacc x k s)
    (fun k s s' hs => by
      show O x k (cell s x k) = O x k (cell s' x k)
      rw [hs x k ⟨rfl, rfl⟩]) h s

theorem nested_fold {σ β γ : Type} (cell : σ → Nat → Nat → MonomeCell)
    (F : Nat → Nat → MonomeCell → MonomeCell) (body : Nat → Nat → σ → σ)
    (hbody : ∀ x y s i j, cell (body x y s) i j =
      if i = x ∧ j = y then F i j (cell s i j) else cell s i j)
    (acc : σ → β) (f : β → γ → β) (O : Nat → Nat → MonomeCell → List γ)
    (hacc : ∀ x y s, acc (body x y s) = (O x y (cell s x y)).foldl f (acc s))
    (w h : Nat) (s : σ) :
    acc (forRange w (fun x => forRange h (fun y => body x y)) s) =
      ((List.range w).flatMap
        (fun x => (List.range h).flatMap (fun y => O x y (cell s x y)))).foldl f (acc s) :=
  forRange_fold cell (fun k i j => i = k ∧ j < h) F _
    (fun k s i j => column_cell cell F body hbody k h s i j)
    (fun k k' i j h1 h2 => h1.1.symm.trans h2.1) acc f
    (fun k s => (List.range h).flatMap (fun y => O k y (cell s k y)))
    (fun k s => column_fold cell F body hbody acc f O hacc k h s)
    (fun k s s' hs => by
      show (List.range h).flatMap (fun y => O k y (cell s k y)) =
        (List.range h).flatMap (fun y => O k y (cell s' k y))
      apply List.flatMap_congr
      intro y hy
      rw [hs k y ⟨rfl, List.mem_range.mp hy⟩]) w s

theorem longPressCell_mCommandsBuffer (cb : TouchCallback) (now : Int) (x y : Nat)
    (s : MonomeGrid × List Touch) :
    (longPressCell cb now x y s).1.mCommandsBuffer =
      (if (s.1.mGrid x y).buttonState = ButtonState.TOUCH_DOWN ∧
          exceedsLongPressTime (secondsCount (now - (s.1.mGrid x y).buttonDownTime)) = true then
        cb x y ButtonState.TOUCH_LONG
      else []).foldl produceBytes s.1.mCommandsBuffer := by
  unfold longPressCell
  by_cases h1 : (s.1.mGrid x y).buttonState = ButtonState.TOUCH_DOWN <;>
    by_cases h2 : exceedsLongPressTime (secondsCount (now - (s.1.mGrid x y).buttonDownTime))
      = true <;>
    simp [h1, h2, runCallback_mCommandsBuffer, MonomeGrid.setCell]

theorem longPressScan_mCommandsBuffer (cb : TouchCallback) (now : Int) (g : MonomeGrid) :
    (longPressScan cb now g).1.mCommandsBuffer =
      (scanCalls cb now g).foldl produceBytes g.mCommandsBuffer :=
  nested_fold (fun t : MonomeGrid × List Touch => t.1.mGrid)
    (fun _ _ c => longPressCellValue now c) (longPressCell cb now)
    (longPressCell_mGrid cb now)
    (fun t : MonomeGrid × List Touch => t.1.mCommandsBuffer) produceBytes
    (fun x y c => if c.buttonState = ButtonState.TOUCH_DOWN ∧
        exceedsLongPressTime (secondsCount (now - c.buttonDownTime)) = true then
        cb x y ButtonState.TOUCH_LONG else [])
    (longPressCell_mCommandsBuffer cb now) g.mWidth g.mHeight (g, [])

theorem scanCalls_congr (cb : TouchCallback) (now : Int) (g g2 : MonomeGrid)
    (hw : g.mWidth = g2.mWidth) (hh : g.mHeight = g2.mHeight)
    (hc : ∀ i j, g.mGrid i j = g2.mGrid i j) :
    scanCalls cb now g = scanCalls cb now g2 := by
  unfold scanCalls
  rw [hw, hh]
  simp only [hc]

/-- The records a tick drains: those pending before it, then those its refresh callback
enqueues, then those the touch callbacks of its long-press scan enqueue, as far as the channel
holds them. -/
theorem drained_eq (rcb : List MonomeCommand) (cb : TouchCallback) (now : Int)
    (g : MonomeGrid) :
    drained rcb cb now g =
      g.mCommandsBuffer ++
        (rcb ++ scanCalls cb now g).take (1024 - g.mCommandsBuffer.length) := by
  unfold drained
  rw [longPressScan_mCommandsBuffer, runCallback_mCommandsBuffer,
    scanCalls_congr cb now (runCallback g rcb) g (runCallback_mWidth g rcb)
      (runCallback_mHeight g rcb) (fun i j => by rw [runCallback_mGrid]),
    ← List.foldl_append, foldl_produceBytes]

/-- C18: on a square grid (the grids whose in-range cells the constructor allocates), a tick
runs the refresh callback, then the long-press scan, then the command drain
and application, then the render pass. The records it drains are those pending before it,
followed by those the refresh callback enqueued, followed by those the touch callbacks of the
long-press scan enqueued (as far as the channel accepted them); the tick returns having
applied all of them to what the scan left in each cell and having rendered the outcome, and
it leaves the channel empty, so none of them waits for the next tick. -/
theorem C18_callbacks_same_tick (fuel : Nat) (rcb : List MonomeCommand) (cb : TouchCallback)
    (now : Int) (g : MonomeGrid)
    (hW : g.mWidth ≤ 255) (hH : g.mHeight ≤ 255) (_hsq : g.mWidth = g.mHeight)
    (hfuel : 256 ≤ fuel) :
    drained rcb cb now g =
      g.mCommandsBuffer ++
        (rcb ++ scanCalls cb now g).take (1024 - g.mCommandsBuffer.length) ∧
    ((g.mCommandsBuffer ++ rcb ++ scanCalls cb now g).length ≤ 1024 →
      drained rcb cb now g = g.mCommandsBuffer ++ rcb ++ scanCalls cb now g) ∧
    ∃ r, updateGrid fuel rcb cb now g = some r ∧
      r.1.mCommandsBuffer = [] ∧
      r.2.touches = scanTouches now g ∧
      ∀ i j, i < g.mWidth → j < g.mHeight →
        r.1.mGrid i j = (renderCellValue (applyCell g.mWidth g.mHeight (drained rcb cb now g)
          i j (longPressCellValue now (g.mGrid i j)))).1 ∧
        pushesAt i j r.2.leds = (renderCellValue (applyCell g.mWidth g.mHeight
          (drained rcb cb now g) i j (longPressCellValue now (g.mGrid i j)))).2 := by
  have hd := drained_eq rcb cb now g
  refine ⟨hd, fun hlen => ?_, tickResult rcb cb now g,
    updateGrid_eq fuel rcb cb now g hW hH hfuel, tickResult_mCommandsBuffer rcb cb now g, ?_,
    fun i j hi hj => ?_⟩
  · rw [hd, List.take_of_length_le, List.append_assoc]
    simp only [List.length_append] at hlen ⊢
    omega
  · rw [tickResult_touches]
    exact scanTouches_congr now _ _ (runCallback_mWidth g rcb) (runCallback_mHeight g rcb)
      (fun i j => by rw [runCallback_mGrid])
  · have hc : i < g.mWidth ∧ j < g.mHeight := ⟨hi, hj⟩
    have hcell := afterCommands_mGrid rcb cb now g i j
    rw [if_pos hc] at hcell
    rw [tickResult_mGrid rcb cb now g i j hi hj, tickResult_leds,
      pushesAt_renderLeds (afterCommands rcb cb now g) i j
        (by rw [afterCommands_mWidth]; exact hi) (by rw [afterCommands_mHeight]; exact hj),
      hcell]
    exact ⟨rfl, rfl⟩

/-- C18 at the 2 x 2 grid whose button `(1, 1)` has been down for 1.2 s, with the refresh
callback of example 03 and a touch callback that lights the LED of the button. -/
theorem C18_callbacks_same_tick_witness :
    (heldButton.mWidth ≤ 255 ∧ heldButton.mHeight ≤ 255 ∧
      heldButton.mWidth = heldButton.mHeight ∧ 256 ≤ 256) ∧
    drained gridRefreshedCalls lightOnTouch 1200000 heldButton =
      heldButton.mCommandsBuffer ++
        (gridRefreshedCalls ++ scanCalls lightOnTouch 1200000 heldButton).take
          (1024 - heldButton.mCommandsBuffer.length) :=
  ⟨⟨by decide, by decide, rfl, by decide⟩,
   (C18_callbacks_same_tick 256 gridRefreshedCalls lightOnTouch 1200000 heldButton
     (by decide) (by decide) rfl (by decide)).1⟩


/-! ## The static scratch variables -/

theorem resetBlinkingBitsValueStatic_snd (st : Statics) (v : Int) :
    (resetBlinkingBitsValueStatic st v).2 = resetBlinkingBitsValue v := rfl

theorem handleLedBlinkLinearValueStatic_snd (st : Statics) (v : Int) :
    (handleLedBlinkLinearValueStatic st v).2 = handleLedBlinkLinearValue v := by
  unfold handleLedBlinkLinearValueStatic handleLedBlinkLinearValue
  dsimp only
  split_ifs <;> rfl

theorem resetBlinkingBitsStatic_snd (st : Statics) (g : MonomeGrid) (x y : Nat) :
    (resetBlinkingBitsStatic st g x y).2 = resetBlinkingBits g x y := rfl

theorem handleLedBlinkLinearStatic_snd (st : Statics) (g : MonomeGrid) (x y : Nat) :
    (handleLedBlinkLinearStatic st g x y).2 = handleLedBlinkLinear g x y := by
  unfold handleLedBlinkLinearStatic handleLedBlinkLinear
  dsimp only
  rw [handleLedBlinkLinearValueStatic_snd]

theorem renderCellStatic_snd (x y : Nat) (st : Statics) (s : MonomeGrid × List LedSet) :
    (renderCellStatic x y st s).2 = renderCell x y s := by
  unfold renderCellStatic renderCell
  dsimp only
  split_ifs <;>
    simp only [resetBlinkingBitsStatic_snd, handleLedBlinkLinearStatic_snd, Prod.mk.eta]

theorem renderCellValue_outcome (c : MonomeCell) :
    ((renderCellValue c).1.ledState, (renderCellValue c).1.lastLedState,
      (renderCellValue c).2) = renderOutcome c.ledState c.lastLedState := by
  unfold renderOutcome renderCellValue
  dsimp only
  split_ifs <;> rfl


/-- C19: `resetBlinkingBits`, `handleLedBlinkLinear` and the render step of `updateGrid` write
each of their static scratch variables before reading it: whatever values the statics hold
when the call starts, the call does to the grid what the same statements do with local
variables, and the new `ledState` and `lastLedState` of the cell and the brightnesses sent
for it are a function of the cell's `ledState` and `lastLedState` alone. -/
theorem C19_static_scratch (st st2 : Statics) (g : MonomeGrid) (leds : List LedSet)
    (x y : Nat) :
    (resetBlinkingBitsStatic st g x y).2 = (resetBlinkingBitsStatic st2 g x y).2 ∧
    (resetBlinkingBitsStatic st g x y).2 = resetBlinkingBits g x y ∧
    ((resetBlinkingBitsStatic st g x y).2.mGrid x y).ledState =
      resetBlinkingBitsValue (g.mGrid x y).ledState ∧
    (handleLedBlinkLinearStatic st g x y).2 = (handleLedBlinkLinearStatic st2 g x y).2 ∧
    (handleLedBlinkLinearStatic st g x y).2 = handleLedBlinkLinear g x y ∧
    ((handleLedBlinkLinearStatic st g x y).2.1.mGrid x y).ledState =
      (handleLedBlinkLinearValue (g.mGrid x y).ledState).1 ∧
    (handleLedBlinkLinearStatic st g x y).2.2 =
      (handleLedBlinkLinearValue (g.mGrid x y).ledState).2.map
        (fun b => { x := x, y := y, brightness := b }) ∧
    (renderCellStatic x y st (g, leds)).2 = (renderCellStatic x y st2 (g, leds)).2 ∧
    (renderCellStatic x y st (g, leds)).2 = renderCell x y (g, leds) ∧
    ((renderCellStatic x y st (g, leds)).2.1.mGrid x y).ledState =
      (renderOutcome (g.mGrid x y).ledState (g.mGrid x y).lastLedState).1 ∧
    ((renderCellStatic x y st (g, leds)).2.1.mGrid x y).lastLedState =
      (renderOutcome (g.mGrid x y).ledState (g.mGrid x y).lastLedState).2.1 ∧
    (renderCellStatic x y st (g, leds)).2.2 =
      leds ++ (renderOutcome (g.mGrid x y).ledState (g.mGrid x y).lastLedState).2.2.map
        (fun b => { x := x, y := y, brightness := b }) := by
  have hc : x = x ∧ y = y := ⟨rfl, rfl⟩
  have ho := renderCellValue_outcome (g.mGrid x y)
  have hg : (renderCell x y (g, leds)).1.mGrid x y = (renderCellValue (g.mGrid x y)).1 := by
    rw [renderCell_mGrid, if_pos hc]
  refine ⟨?_, resetBlinkingBitsStatic_snd st g x y, ?_, ?_,
    handleLedBlinkLinearStatic_snd st g x y, ?_, ?_, ?_, renderCellStatic_snd x y st (g, leds),
    ?_, ?_, ?_⟩
  · rw [resetBlinkingBitsStatic_snd, resetBlinkingBitsStatic_snd]
  · rw [resetBlinkingBitsStatic_snd]
    show ((g.setCell x y _).mGrid x y).ledState = _
    rw [setCell_mGrid, if_pos hc]
  · rw [handleLedBlinkLinearStatic_snd, handleLedBlinkLinearStatic_snd]
  · rw [handleLedBlinkLinearStatic_snd]
    show ((g.setCell x y _).mGrid x y).ledState = _
    rw [setCell_mGrid, if_pos hc]
  · rw [handleLedBlinkLinearStatic_snd]
    rfl
  · rw [renderCellStatic_snd, renderCellStatic_snd]
  · rw [renderCellStatic_snd, hg, ← ho]
  · rw [renderCellStatic_snd, hg, ← ho]
  · rw [renderCellStatic_snd, renderCell_leds, ← ho]


/-! ## The 8-bit render counters -/

/-- The inner render loop does not exit when `mHeight` exceeds what its 8-bit counter can
reach: no amount of fuel gives a result. -/
theorem renderColumn_none (x : Nat) : ∀ (fuel y : Nat) (s : MonomeGrid × List LedSet),
    y < 256 → 256 ≤ s.1.mHeight → renderColumn x fuel y s = none := by
  intro fuel
  induction fuel with
  | zero => intro y s _ _; rfl
  | succ fuel ih =>
    intro y s hy hH
    rw [renderColumn, if_pos (by omega)]
    apply ih
    · unfold incU8; omega
    · rw [renderCell_mHeight]; exact hH

/-- An inner render loop that exits leaves `mWidth` as it was. -/
theorem renderColumn_mWidth (x : Nat) : ∀ (fuel y : Nat) (s r : MonomeGrid × List LedSet),
    renderColumn x fuel y s = some r → r.1.mWidth = s.1.mWidth := by
  intro fuel
  induction fuel with
  | zero => intro y s r h; exact absurd h (by simp [renderColumn])
  | succ fuel ih =>
    intro y s r h
    rw [renderColumn] at h
    by_cases hy : y < s.1.mHeight
    · rw [if_pos hy] at h
      rw [ih _ _ _ h, renderCell_mWidth]
    · rw [if_neg hy] at h
      rw [← Option.some.inj h]

/-- The outer render loop does not exit when `mWidth` exceeds what its 8-bit counter can
reach. -/
theorem renderColumns_none_of_width (fuel0 : Nat) :
    ∀ (fuel x : Nat) (s : MonomeGrid × List LedSet),
      x < 256 → 256 ≤ s.1.mWidth → renderColumns fuel0 fuel x s = none := by
  intro fuel
  induction fuel with
  | zero => intro x s _ _; rfl
  | succ fuel ih =>
    intro x s hx hW
    rw [renderColumns, if_pos (by omega)]
    cases hr : renderColumn x fuel0 0 s with
    | none => rfl
    | some r =>
      rw [Option.some_bind]
      apply ih
      · unfold incU8; omega
      · rw [renderColumn_mWidth x fuel0 0 s r hr]; exact hW

/-- The outer render loop does not exit when there is a column and `mHeight` exceeds what the
inner 8-bit counter can reach. -/
theorem renderColumns_none_of_height (fuel0 fuel : Nat) (s : MonomeGrid × List LedSet)
    (hW : 0 < s.1.mWidth) (hH : 256 ≤ s.1.mHeight) : renderColumns fuel0 fuel 0 s = none := by
  cases fuel with
  | zero => rfl
  | succ fuel =>
    rw [renderColumns, if_pos hW, renderColumn_none 0 fuel0 0 s (by omega) hH]
    rfl

/-- A tick does not return when `mWidth` is at least 256, or when `mHeight` is at least 256 and
the grid has a column. -/
theorem updateGrid_none (fuel : Nat) (rcb : List MonomeCommand) (cb : TouchCallback) (now : Int)
    (g : MonomeGrid)
    (h : 256 ≤ g.mWidth ∨ (0 < g.mWidth ∧ 256 ≤ g.mHeight)) :
    updateGrid fuel rcb cb now g = none := by
  have hw := afterCommands_mWidth rcb cb now g
  have hh := afterCommands_mHeight rcb cb now g
  have hp : renderPass fuel (afterCommands rcb cb now g) = none := by
    unfold renderPass
    rcases h with h | h
    · exact renderColumns_none_of_width fuel fuel 0 _ (by omega) (by show 256 ≤ _; rw [hw]; exact h)
    · exact renderColumns_none_of_height fuel fuel _ (by show 0 < _; rw [hw]; exact h.1)
        (by show 256 ≤ _; rw [hh]; exact h.2)
  unfold afterCommands at hp
  unfold updateGrid
  simp only [hp, Option.map_none']

/-- C21 (the code at the failing inputs): with all cells allocated, a tick on a grid of width
at least 256, or of height at least 256 and at least one column, never leaves its render
pass: whatever the number of loop iterations allowed, the 8-bit counter wraps from 255 to 0
before it can reach the bound, so the tick does not reach its sleep; so for the 256 x 1 and
1 x 256 grids as constructed. When width and height are at most 255 the tick returns, each
cell having been visited once by the loops over `x < mWidth` and `y < mHeight`. -/
theorem C21_render_pass_never_exits (fuel : Nat) (rcb : List MonomeCommand)
    (cb : TouchCallback) (now : Int) (w h : Nat) (cells : Nat → Nat → MonomeCell)
    (buf : List MonomeCommand) :
    incU8 255 = 0 ∧
    updateGrid fuel rcb cb now
      { mWidth := w + 256, mHeight := h, mGrid := cells, mCommandsBuffer := buf } = none ∧
    updateGrid fuel rcb cb now
      { mWidth := w + 1, mHeight := h + 256, mGrid := cells, mCommandsBuffer := buf } = none ∧
    renderPass fuel (construct 256 1) = none ∧
    renderPass fuel (construct 1 256) = none ∧
    updateGrid (fuel + 256) rcb cb now
      { mWidth := min w 255, mHeight := min h 255, mGrid := cells, mCommandsBuffer := buf } =
      some (tickResult rcb cb now
        { mWidth := min w 255, mHeight := min h 255, mGrid := cells,
          mCommandsBuffer := buf }) := by
  refine ⟨by decide, ?_, ?_, ?_, ?_, ?_⟩
  · exact updateGrid_none fuel rcb cb now _ (Or.inl (by show 256 ≤ w + 256; omega))
  · exact updateGrid_none fuel rcb cb now _
      (Or.inr ⟨by show 0 < w + 1; omega, by show 256 ≤ h + 256; omega⟩)
  · exact renderColumns_none_of_width fuel fuel 0 _ (by omega) (le_refl 256)
  · exact renderColumns_none_of_height fuel fuel _ (by decide) (le_refl 256)
  · exact updateGrid_eq (fuel + 256) rcb cb now _ (by show min w 255 ≤ 255; omega)
      (by show min h 255 ≤ 255; omega) (by omega)


/-! ## The device after a tick -/

/-- A run of the single step `tick`, on a grid whose width and height fit the 8-bit render
counters. -/
theorem run_tick (fuel : Nat) (rcb : List MonomeCommand) (cb : TouchCallback) (now : Int)
    (g : MonomeGrid) (hW : g.mWidth ≤ 255) (hH : g.mHeight ≤ 255) (hfuel : 256 ≤ fuel) :
    run fuel g [.tick rcb cb now] =
      some ((tickResult rcb cb now g).1, [(tickResult rcb cb now g).2]) := by
  rw [run_cons]
  show (updateGrid fuel rcb cb now g).bind _ = _
  rw [updateGrid_eq fuel rcb cb now g hW hH hfuel]
  rfl

/-- C2: take a freshly constructed square grid (every in-range cell allocated, all LEDs dark)
and any run of ticks, button events and `setXXX` calls with in-range coordinates, followed by
one more tick. The run returns, and in the state it reaches before that tick, as in the state
right after it, the brightness last sent to the device for a cell inside the grid is 1 when
the cell's logical state is `LED_ON` and 0 when it is `LED_OFF`. Moreover the tick makes the
last record it drains for a cell visible: the cell's logical state becomes the state that
record asks for, so the device shows 1 when it asks for `LED_ON` and 0 when it asks for
`LED_OFF`, whatever the cell was doing before. -/
theorem C2_device_shows_on_off (fuel width height : Nat) (steps : List Step)
    (rcb : List MonomeCommand) (cb : TouchCallback) (now : Int)
    (hW : width ≤ 255) (hH : height ≤ 255) (_hsq : width = height) (hfuel : 256 ≤ fuel)
    (_hin : ∀ st ∈ steps ++ [.tick rcb cb now], st.inRange width height) :
    ∃ q r, run fuel (construct width height) steps = some q ∧
      run fuel (construct width height) (steps ++ [.tick rcb cb now]) = some r ∧
      ∀ i j, i < width → j < height →
        ((q.1.mGrid i j).logical = LedState.LED_ON.toInt →
          ledSets (ledAll 0) (allLeds q.2) i j = 1) ∧
        ((q.1.mGrid i j).logical = LedState.LED_OFF.toInt →
          ledSets (ledAll 0) (allLeds q.2) i j = 0) ∧
        ((r.1.mGrid i j).logical = LedState.LED_ON.toInt →
          ledSets (ledAll 0) (allLeds r.2) i j = 1) ∧
        ((r.1.mGrid i j).logical = LedState.LED_OFF.toInt →
          ledSets (ledAll 0) (allLeds r.2) i j = 0) ∧
        ∀ cmd, ((drained rcb cb now q.1).filter
            fun d => decide (d.targets width height i j)).getLast? = some cmd →
          (r.1.mGrid i j).logical = cmd.state.toInt ∧
          (cmd.state = LedState.LED_ON → ledSets (ledAll 0) (allLeds r.2) i j = 1) ∧
          (cmd.state = LedState.LED_OFF → ledSets (ledAll 0) (allLeds r.2) i j = 0) := by
  obtain ⟨q, hq, hw, hh, hinv⟩ := GridInv_run fuel steps (construct width height) (ledAll 0)
    hW hH hfuel (GridInv_construct width height)
  have hw2 : q.1.mWidth = width := hw
  have hh2 : q.1.mHeight = height := hh
  have ht := run_tick fuel rcb cb now q.1 (by omega) (by omega) hfuel
  have hr := run_append fuel (construct width height) steps [.tick rcb cb now] q _ hq ht
  have hinv2 := GridInv_tickResult rcb cb now q.1 _ hinv
  have hleds : allLeds (q.2 ++ [(tickResult rcb cb now q.1).2]) =
      allLeds q.2 ++ (tickResult rcb cb now q.1).2.leds := by
    simp [allLeds]
  refine ⟨q, _, hq, hr, fun i j hi hj => ?_⟩
  have h1 := hinv i j (by omega) (by omega)
  have h2 := hinv2 i j (by rw [tickResult_mWidth]; omega) (by rw [tickResult_mHeight]; omega)
  rw [← ledSets_append, ← hleds] at h2
  refine ⟨h1.2.1, h1.2.2, h2.2.1, h2.2.2, fun cmd hlast => ?_⟩
  have hlog : ((tickResult rcb cb now q.1).1.mGrid i j).logical = cmd.state.toInt := by
    rw [tickResult_logical rcb cb now q.1 i j (by omega) (by omega), hw2, hh2]
    exact applyCell_last _ _ _ _ _ _ cmd hlast
  refine ⟨hlog, fun hon => h2.2.1 ?_, fun hoff => h2.2.2 ?_⟩
  · rw [hlog, hon]; rfl
  · rw [hlog, hoff]; rfl

set_option maxRecDepth 100000 in
/-- C2 at a 1 x 1 grid whose cell is set blinking, rendered, and then set on: after the next
tick the cell is logically `LED_ON` and the device shows 1. -/
theorem C2_device_shows_on_off_witness :
    ((1 : Nat) ≤ 255 ∧ (1 : Nat) ≤ 255 ∧ (1 : Nat) = 1 ∧ 256 ≤ 256 ∧
      ∀ st ∈ blinkThenSetOn ++ [.tick [] silent 20000], st.inRange 1 1) ∧
    ∃ r, run 256 (construct 1 1) (blinkThenSetOn ++ [.tick [] silent 20000]) = some r ∧
      (r.1.mGrid 0 0).logical = LedState.LED_ON.toInt ∧
      ledSets (ledAll 0) (allLeds r.2) 0 0 = 1 := by
  have hin : ∀ st ∈ blinkThenSetOn ++ [.tick [] silent 20000], st.inRange 1 1 := by
    intro st hst
    simp only [blinkThenSetOn, List.cons_append, List.nil_append, List.mem_cons,
      List.mem_singleton, List.not_mem_nil, or_false] at hst
    rcases hst with rfl | rfl | rfl | rfl <;>
      simp [Step.inRange, MonomeCommand.inRange, silent]
  obtain ⟨q, r, hq, hr, h⟩ := C2_device_shows_on_off 256 1 1 blinkThenSetOn [] silent 20000
    (by decide) (by decide) rfl (by decide) hin
  have hb : (run 256 (construct 1 1) blinkThenSetOn).map (fun q => q.1.mCommandsBuffer) =
      some [.SET_LED 0 0 .LED_ON] := by decide
  rw [hq, Option.map_some', Option.some.injEq] at hb
  have hlast : ((drained [] silent 20000 q.1).filter
      fun d => decide (d.targets 1 1 0 0)).getLast? = some (.SET_LED 0 0 .LED_ON) := by
    rw [drained_silent, hb]
    decide
  have hc := (h 0 0 (by decide) (by decide)).2.2.2.2 _ hlast
  exact ⟨⟨by decide, by decide, rfl, by decide, hin⟩, r, hr, hc.1, hc.2.1 rfl⟩

end Monome
